import Mathlib

/-!
# MOX front-end: response handling, filters and display labels

A shallow embedding of the page logic of the MOX front-end (React pages under
`src/User/Pages` and `src/Admin/Pages/SwapManagement`) together with the
properties proved about it.

JavaScript values are embedded as the inductive type `JsVal`; a thrown
exception is the `error` case of `Except JsError`; the observable side effects
of a loader (toasts and console output) are collected in a list of `Effect`.
A number of a payload is held as the rational that its text denotes; `NaN` is
the `none` of `Option Rat`. The numbers the pages compute with are doubles
(`JsNum`): a payload number enters a sum as the double nearest to it, and every
sum, product and quotient is rounded to the nearest double, ties to even, with
the infinities and `NaN` as results where the runtime has them. The timeframe
filter multiplies a trade time by 1000 without rounding, which is the product of
the runtime for a time in whole seconds. The conversions of the runtime between
numbers and strings, the case conversions of strings and the date library are
parameters of the definitions that use them; the status cells of the tables and
the deposit filter are embedded with the case conversion of the ASCII letters.
-/

namespace Mox

/-! ## JavaScript values -/

/-- JavaScript values as they arrive in a JSON payload or a response object.
An object is an association list in which the first binding of a key wins. -/
inductive JsVal where
  | undefined : JsVal
  | null : JsVal
  | bool (b : Bool) : JsVal
  | num (q : Rat) : JsVal
  | str (s : String) : JsVal
  | arr (items : List JsVal) : JsVal
  | obj (fields : List (String × JsVal)) : JsVal

/-- Thrown values: a `TypeError` raised by the runtime or an `Error` created
with `new Error(message)`. -/
inductive JsError where
  | typeError (message : String) : JsError
  | error (message : String) : JsError
  deriving DecidableEq, Repr

/-- The `message` property of a thrown error. -/
def JsError.message : JsError → String
  | .typeError m => m
  | .error m => m

/-- Observable side effects of the page code. -/
inductive Effect where
  | consoleLog (label : String) : Effect
  | consoleWarn (label : String) : Effect
  | toastWarn (text : String) : Effect
  | toastInfo (text : String) : Effect
  | toastError (text : String) : Effect
  deriving DecidableEq, Repr

/-- Toasts are rendered on the page; console output is not. -/
def Effect.userFacing : Effect → Bool
  | .consoleLog _ => false
  | .consoleWarn _ => false
  | .toastWarn _ => true
  | .toastInfo _ => true
  | .toastError _ => true

namespace JsVal

/-- Property lookup in an object literal: the first binding of `key`,
`undefined` when there is none. -/
def lookupField (key : String) : List (String × JsVal) → JsVal
  | [] => undefined
  | (k, v) :: rest => if k = key then v else lookupField key rest

/-- JavaScript truthiness (`ToBoolean`). -/
def truthy : JsVal → Bool
  | undefined => false
  | null => false
  | bool b => b
  | num q => q != 0
  | str s => s != ""
  | arr _ => true
  | obj _ => true

/-- The value of `Array.isArray(v)`. -/
def isArray : JsVal → Bool
  | arr _ => true
  | _ => false

/-- The value of `v === null || v === undefined`. -/
def isNullish : JsVal → Bool
  | undefined => true
  | null => true
  | _ => false

/-- Number of UTF-16 code units of a string, the `length` of a JS string. -/
def utf16Length (s : String) : Nat :=
  (s.data.map fun c => if c.val.toNat < 65536 then 1 else 2).sum

/-- Property read on a value that is neither `null` nor `undefined`. Arrays and
strings carry `length`; the payload keys read by the pages are not defined on
primitives or arrays. -/
def getProp (v : JsVal) (key : String) : JsVal :=
  match v with
  | obj fs => lookupField key fs
  | arr xs => if key = "length" then num xs.length else undefined
  | str s => if key = "length" then num (utf16Length s) else undefined
  | _ => undefined

/-- Optional chaining `v?.key`. -/
def optMember (v : JsVal) (key : String) : JsVal :=
  if v.isNullish then undefined else getProp v key

/-- Plain member access `v.key`, which throws on `null` and `undefined`. -/
def member (v : JsVal) (key : String) : Except JsError JsVal :=
  if v.isNullish then
    .error (.typeError ("Cannot read properties of a nullish value: " ++ key))
  else .ok (getProp v key)

/-- The value of `a || b`. -/
def or (a b : JsVal) : JsVal := if a.truthy then a else b

/-- The value of `v === s` for a string `s`. -/
def strictEqStr (v : JsVal) (s : String) : Bool :=
  match v with
  | str t => t == s
  | _ => false

/-- The items of an array value, the empty list for any other value. -/
def items : JsVal → List JsVal
  | arr xs => xs
  | _ => []

end JsVal

/-! ## Strings -/

/-- Whether `needle` occurs as a contiguous block of `hay`. -/
def includesChars : List Char → List Char → Bool
  | [], needle => needle.isEmpty
  | c :: t, needle => needle.isPrefixOf (c :: t) || includesChars t needle

/-- The value of `s.includes(sub)`. -/
def includes (s sub : String) : Bool := includesChars s.data sub.data

/-- The value of `s.toLowerCase()` on the ASCII letters; other characters are
left unchanged. -/
def toLowerCase (s : String) : String := ⟨s.data.map Char.toLower⟩

/-- The value of `s.toUpperCase()` on the ASCII letters; other characters are
left unchanged. -/
def toUpperCase (s : String) : String := ⟨s.data.map Char.toUpper⟩

/-! ## Array callbacks that may throw -/

/-- The call `xs.map(f)` for a callback that may throw: the callback runs on
the elements in order and the first exception propagates. -/
def traverse {α β : Type} (f : α → Except JsError β) : List α → Except JsError (List β)
  | [] => .ok []
  | x :: xs =>
    match f x with
    | .error e => .error e
    | .ok y =>
      match traverse f xs with
      | .error e => .error e
      | .ok ys => .ok (y :: ys)

/-- The call `xs.filter(p)` for a callback that may throw. -/
def filterExcept {α : Type} (p : α → Except JsError Bool) : List α → Except JsError (List α)
  | [] => .ok []
  | x :: xs =>
    match p x with
    | .error e => .error e
    | .ok keep =>
      match filterExcept p xs with
      | .error e => .error e
      | .ok ys => .ok (if keep then x :: ys else ys)

/-! ## Conversion to string -/

mutual
/-- The string `String(v)`, which is also the value of `v.toString()` on a value
that is neither `null` nor `undefined`. `fmt` is the number-to-string conversion
of the runtime. -/
def JsVal.toStr (fmt : Rat → String) : JsVal → String
  | .undefined => "undefined"
  | .null => "null"
  | .bool b => if b then "true" else "false"
  | .num q => fmt q
  | .str s => s
  | .arr xs => JsVal.joinComma fmt xs
  | .obj _ => "[object Object]"
/-- The value of `xs.join(",")`: `null` and `undefined` items are rendered as the
empty string. -/
def JsVal.joinComma (fmt : Rat → String) : List JsVal → String
  | [] => ""
  | [x] => if x.isNullish then "" else JsVal.toStr fmt x
  | x :: y :: rest =>
    (if x.isNullish then "" else JsVal.toStr fmt x) ++ "," ++ JsVal.joinComma fmt (y :: rest)
end

/-- The optional call `v?.toString()`. -/
def JsVal.optToString (fmt : Rat → String) (v : JsVal) : JsVal :=
  if v.isNullish then .undefined else .str (v.toStr fmt)

/-! ## Auth token -/

/-- The value of `localStorage.getItem(k) || sessionStorage.getItem(k)`; `getItem`
answers `null` (here `none`) or a string, and the empty string is falsy. -/
def storedToken (localItem sessionItem : Option String) : Option String :=
  match localItem with
  | some t => if t != "" then some t else sessionItem
  | none => sessionItem

/-! ## Dashboard: loader and error handler (`User/Pages/Dashboard.jsx`) -/

/-- What `fetch` resolves to: the HTTP status and the outcome of `res.json()`. -/
structure FetchResponse where
  status : Nat
  json : Except JsError JsVal

/-- The `ok` flag of a fetch response: the status is in the range 200-299. -/
def FetchResponse.ok (r : FetchResponse) : Bool :=
  decide (200 ≤ r.status) && decide (r.status ≤ 299)

namespace Dashboard

/-- The `queryFn` of the dashboard query (lines 93-240). `fetch` is the settled
promise of the network call, given the bearer token; `build` is the construction
of the dashboard record from the parsed body (lines 111-239). -/
def queryFn {α : Type} (localItem sessionItem : Option String)
    (fetch : String → Except JsError FetchResponse) (build : JsVal → Except JsError α) :
    Except JsError α :=
  match storedToken localItem sessionItem with
  | none => .error (.error "No authentication token found. Please log in.")
  | some token =>
    if token == "" then
      .error (.error "No authentication token found. Please log in.")
    else
      match fetch token with
      | .error e => .error e
      | .ok response =>
        if !response.ok then
          if response.status = 401 then
            .error (.error "Invalid token. Please log in again.")
          else .error (.error "Failed to load dashboard data.")
        else
          match response.json with
          | .error e => .error e
          | .ok data => build data

/-- The `onError` handler of the dashboard query (lines 243-247): the route the
page navigates to, if any. -/
def onError (err : JsError) : Option String :=
  if includes err.message "Invalid token" then some "/user/login" else none

/-- The navigation performed after the loader has run: `onError` is called with
the thrown error, nothing happens on success. -/
def redirectAfterLoad {α : Type} (outcome : Except JsError α) : Option String :=
  match outcome with
  | .error e => onError e
  | .ok _ => none

end Dashboard

/-! ## Loaders of the admin reports (`Admin/Pages/SwapManagement`) -/

/-- What running a loader produces: the side effects in the order they are
emitted and the value the loader returns or throws. -/
structure Outcome where
  effects : List Effect
  result : Except JsError JsVal

namespace ReinvestManagementReport

/-- The tail of the reinvest loader (lines 53-54): log and return the value
assigned to `reinvestments`; an exception raised while reading it propagates. -/
def parsed (pre : List Effect) (v : Except JsError JsVal) : Outcome :=
  match v with
  | .ok x => ⟨pre ++ [Effect.consoleLog "Parsed Reinvestments:"], .ok x⟩
  | .error e => ⟨pre, .error e⟩

/-- The `queryFn` of the reinvest report (lines 25-55). `api` is the settled
promise of `adminApi.getReinvestReport()`. -/
def queryFn (api : Except JsError JsVal) : Outcome :=
  match api with
  | .error e => ⟨[], .error e⟩
  | .ok res =>
    let raw := [Effect.consoleLog "Raw API Response:"]
    if (res.optMember "data").isArray then
      parsed raw (res.member "data")
    else if ((res.optMember "data").optMember "data").isArray then
      parsed raw (res.member "data" >>= fun d => d.member "data")
    else if ((res.optMember "data").optMember "reinvestments").isArray then
      parsed raw (res.member "data" >>= fun d => d.member "reinvestments")
    else if (res.optMember "reinvestments").isArray then
      parsed raw (res.member "reinvestments")
    else if res.isArray then
      parsed raw (.ok res)
    else
      ⟨raw ++ [Effect.consoleWarn "Unexpected reinvestment report structure:",
               Effect.toastWarn "No reinvestment data found"], .ok (.arr [])⟩

/-- The response shapes the reinvest loader tries, in the order it tries them:
`res.data`, `res.data.data`, `res.data.reinvestments`, `res.reinvestments`, `res`
(each read with optional chaining). -/
def candidates (res : JsVal) : List JsVal :=
  [res.optMember "data",
   (res.optMember "data").optMember "data",
   (res.optMember "data").optMember "reinvestments",
   res.optMember "reinvestments",
   res]

end ReinvestManagementReport

namespace SwapManagementReport

/-- The value bound to `swaps` (line 29):
`res?.data?.swaps || res?.data?.data || res?.data || []`. -/
def swapsOf (res : JsVal) : JsVal :=
  (((res.optMember "data").optMember "swaps").or
    ((res.optMember "data").optMember "data")).or (res.optMember "data") |>.or (.arr [])

/-- The `queryFn` of the swap report (lines 24-42). `api` is the settled promise
of `adminApi.getAdminReport("swap")`. -/
def queryFn (api : Except JsError JsVal) : Outcome :=
  match api with
  | .error e => ⟨[Effect.toastError "Failed to load swap report"], .error e⟩
  | .ok res =>
    let raw := [Effect.consoleLog "Swap Report Raw Response:"]
    let swaps := swapsOf res
    if !swaps.isArray then
      ⟨raw ++ [Effect.consoleWarn "Expected swaps array, got:",
               Effect.toastInfo "No swap records found"], .ok (.arr [])⟩
    else ⟨raw, .ok swaps⟩

end SwapManagementReport

namespace TransferManagementReport

/-- The value bound to `transfers` (lines 32-38): `res?.data?.data?.transfers ||
res?.data?.transfers || res?.data?.data || res?.data || res || []`. -/
def transfersOf (res : JsVal) : JsVal :=
  ((((((res.optMember "data").optMember "data").optMember "transfers").or
    ((res.optMember "data").optMember "transfers")).or
    ((res.optMember "data").optMember "data")).or (res.optMember "data")).or res |>.or (.arr [])

/-- The `queryFn` of the transfer report (lines 24-50). `api` is the settled
promise of `adminApi.getTransferReport(...)`. -/
def queryFn (api : Except JsError JsVal) : Outcome :=
  match api with
  | .error e => ⟨[Effect.toastError "Failed to fetch transfer data"], .error e⟩
  | .ok res =>
    let transfers := transfersOf res
    if !transfers.isArray then
      ⟨[Effect.consoleWarn "Transfers data is not an array:"], .ok (.arr [])⟩
    else ⟨[], .ok transfers⟩

/-- The response shapes the transfer loader tries, in the order it tries them. -/
def candidates (res : JsVal) : List JsVal :=
  [((res.optMember "data").optMember "data").optMember "transfers",
   (res.optMember "data").optMember "transfers",
   (res.optMember "data").optMember "data",
   res.optMember "data",
   res]

end TransferManagementReport

/-! ## Loaders of the user pages -/

/-- The component state written by the loaders of the analytics and history
pages: the list kept for display and the error text shown inline (`null` is
`none`). -/
structure LoadState where
  data : JsVal
  error : Option String

namespace Analytics

/-- The effect `fetchAnalytics` (lines 38-58) has on the component state. `net`
is the settled promise of `fetch`. -/
def fetchAnalytics (net : Except JsError FetchResponse) : LoadState :=
  match net with
  | .error e => ⟨.arr [], some e.message⟩
  | .ok res =>
    if !res.ok then ⟨.arr [], some "Failed to fetch analytics data"⟩
    else
      match res.json with
      | .error e => ⟨.arr [], some e.message⟩
      | .ok data => ⟨if data.isArray then data else .arr [], none⟩

end Analytics

namespace History

/-- The effect `fetchBalanceHistory` (lines 18-38) has on the component state. -/
def fetchBalanceHistory (net : Except JsError FetchResponse) : LoadState :=
  match net with
  | .error e => ⟨.arr [], some e.message⟩
  | .ok res =>
    if !res.ok then ⟨.arr [], some "Failed to fetch balance history"⟩
    else
      match res.json with
      | .error e => ⟨.arr [], some e.message⟩
      | .ok data => ⟨if data.isArray then data else .arr [], none⟩

end History

namespace DepositReport

/-- A row of the deposit table, as built by `fetchDeposits` (lines 99-107). -/
structure Row where
  id : JsVal
  transactionHash : JsVal
  amount : JsVal
  walletType : JsVal
  currencyType : JsVal
  date : String
  status : JsVal

/-- The callback of `apiDeposits.map` (lines 99-107). `formatDate` stands for the
`moment(...).utcOffset(330).format(...)` call of the date library. -/
def toRow (formatDate : JsVal → String) (deposit : JsVal) : Except JsError Row := do
  let id ← deposit.member "_id"
  let hash ← deposit.member "transactionHash"
  let amount ← deposit.member "amount"
  let wallet ← deposit.member "walletType"
  let currency ← deposit.member "currencyType"
  let created ← deposit.member "createdAt"
  let status ← deposit.member "status"
  pure
    { id := id
      transactionHash := hash.or (.str "N/A")
      amount := amount
      walletType := wallet
      currencyType := currency.or (.str "Unknown")
      date := formatDate created
      status := status.or (.str "Pending") }

/-- The call `apiDeposits.map(...)`: only an array has a `map` method. -/
def mapDeposits (formatDate : JsVal → String) (apiDeposits : JsVal) :
    Except JsError (List Row) :=
  match apiDeposits with
  | .arr ds => traverse (toRow formatDate) ds
  | .undefined => .error (.typeError "Cannot read properties of undefined: map")
  | .null => .error (.typeError "Cannot read properties of null: map")
  | _ => .error (.typeError "apiDeposits.map is not a function")

/-- The loader `fetchDeposits` (lines 86-108). `get` is the settled promise of
`axios.get`, an axios response object whose `data` is the parsed body. -/
def fetchDeposits (formatDate : JsVal → String) (localItem sessionItem : Option String)
    (get : String → Except JsError JsVal) : Except JsError (List Row) :=
  match storedToken localItem sessionItem with
  | none => .error (.error "No authentication token found. Please log in.")
  | some token =>
    if token == "" then
      .error (.error "No authentication token found. Please log in.")
    else do
      let response ← get token
      let body ← response.member "data"
      let inner ← body.member "data"
      let apiDeposits ← inner.member "deposits"
      mapDeposits formatDate apiDeposits

/-- The method call `v.toLowerCase()`: only a string has the method. -/
def callToLowerCase (v : JsVal) : Except JsError String :=
  match v with
  | .str t => .ok (toLowerCase t)
  | .undefined => .error (.typeError "Cannot read properties of undefined: toLowerCase")
  | .null => .error (.typeError "Cannot read properties of null: toLowerCase")
  | _ => .error (.typeError "toLowerCase is not a function")

/-- The callback of the search filter (lines 140-146): the four tests are joined by
`||`, so a field is only read when the earlier ones did not match. -/
def matchesSearch (globalFilter : String) (row : Row) : Except JsError Bool := do
  let hash ← callToLowerCase row.transactionHash
  if includes hash (toLowerCase globalFilter) then .ok true
  else do
    let currency ← callToLowerCase row.currencyType
    if includes currency (toLowerCase globalFilter) then .ok true
    else do
      let wallet ← callToLowerCase row.walletType
      if includes wallet (toLowerCase globalFilter) then .ok true
      else do
        let status ← callToLowerCase row.status
        .ok (includes status (toLowerCase globalFilter))

/-- The memo `filteredData` (lines 133-150). -/
def filteredData (deposits : List Row) (walletFilter globalFilter : String) :
    Except JsError (List Row) :=
  let data :=
    if walletFilter != "" then deposits.filter fun row => row.walletType.strictEqStr walletFilter
    else deposits
  if globalFilter != "" then filterExcept (matchesSearch globalFilter) data
  else .ok data

/-- The four searched fields of the row are strings. -/
def Row.searchable (row : Row) : Prop :=
  ∃ hash currency wallet status, row.transactionHash = .str hash
    ∧ row.currencyType = .str currency ∧ row.walletType = .str wallet
    ∧ row.status = .str status

/-- The search test in the words of the report: the lower-cased transaction hash,
currency type, wallet type or status contains the lower-cased search text. A
field that is not a string contains nothing. -/
def Row.contains (globalFilter : String) (row : Row) : Bool :=
  let has (v : JsVal) : Bool :=
    match v with
    | .str t => includes (toLowerCase t) (toLowerCase globalFilter)
    | _ => false
  has row.transactionHash || has row.currencyType || has row.walletType || has row.status

end DepositReport

/-! ## Tables and exports of the admin reports -/

/-- Page size of the admin report tables (`rowsPerPage`). -/
def rowsPerPage : Nat := 10

/-- The rows of page `pageIndex` of a table. -/
def pageRows {α : Type} (pageIndex : Nat) (rows : List α) : List α :=
  (rows.drop (pageIndex * rowsPerPage)).take rowsPerPage

/-- The text values a global filter searches: the falsy entries are dropped
(`.filter(Boolean)`) and the others are converted to lower-case strings.
`lowerCase` is the `toLowerCase` of the runtime. -/
def searchValues (lowerCase : String → String) (fmt : Rat → String) (values : List JsVal) :
    List String :=
  (values.filter JsVal.truthy).map fun v => lowerCase (v.toStr fmt)

/-- The filtered row model of a table with a custom `globalFilterFn`: the table
library applies no global filter while the filter text is empty, and otherwise
keeps the rows the function accepts, in their order. -/
def filteredRowModel (accept : JsVal → String → Except JsError Bool)
    (data : List JsVal) (searchInput : String) : Except JsError (List JsVal) :=
  if searchInput = "" then .ok data
  else filterExcept (fun item => accept item searchInput) data

/-- What an export handler does: nothing but an error toast when there are no
data, a saved file with the given body rows, or a failure toast when building
the rows throws. -/
inductive ExportResult (ρ : Type) where
  | noData : ExportResult ρ
  | saved (rows : List ρ) : ExportResult ρ
  | failed (e : JsError) : ExportResult ρ

/-- The common body of the export handlers: `data.map((item, i) => ...)` inside
`try`, after the guard `data.length === 0`. `cells` builds the row of record
`item` at index `i`. The PDF and spreadsheet libraries, which are not part of
the sources, are taken to save the rows they are handed. -/
def exportRows {ρ : Type} (cells : Nat → JsVal → Except JsError ρ) (data : List JsVal) :
    ExportResult ρ :=
  if data.length = 0 then .noData
  else
    match traverse (fun p => cells p.1 p.2) data.enum with
    | .ok rows => .saved rows
    | .error e => .failed e

namespace SwapManagementReport

/-- The `globalFilterFn` of the swap table (lines 146-164). `lowerCase` is the
`toLowerCase` of the runtime. -/
def globalFilterFn (lowerCase : String → String) (fmt : Rat → String) (item : JsVal)
    (filterValue : String) : Except JsError Bool := do
  let search := lowerCase filterValue
  let userName ← item.member "userName"
  let packageName ← item.member "packageName"
  let usdtAmount ← item.member "usdtAmount"
  let emgtAmount ← item.member "emgtAmount"
  let tokenPrice ← item.member "tokenPrice"
  let currencyType ← item.member "currencyType"
  let remark ← item.member "remark"
  let status ← item.member "status"
  let values := searchValues lowerCase fmt
    [userName, packageName, usdtAmount.optToString fmt, emgtAmount.optToString fmt,
     tokenPrice.optToString fmt, currencyType, remark, status]
  pure (values.any fun val => includes val search)

/-- The rows of the swap table after the global filter. -/
def filteredRows (lowerCase : String → String) (fmt : Rat → String) (data : List JsVal)
    (searchInput : String) : Except JsError (List JsVal) :=
  filteredRowModel (globalFilterFn lowerCase fmt) data searchInput

/-- The rows the swap table shows on page `pageIndex`. -/
def visibleRows (lowerCase : String → String) (fmt : Rat → String) (data : List JsVal)
    (searchInput : String) (pageIndex : Nat) : Except JsError (List JsVal) :=
  (filteredRows lowerCase fmt data searchInput).map (pageRows pageIndex)

end SwapManagementReport

namespace TransferManagementReport

/-- The `globalFilterFn` of the transfer table (lines 159-177). `lowerCase` is
the `toLowerCase` of the runtime. -/
def globalFilterFn (lowerCase : String → String) (fmt : Rat → String) (item : JsVal)
    (filterValue : String) : Except JsError Bool := do
  let search := lowerCase filterValue
  let user ← item.member "user"
  let stakeId ← item.member "stakeId"
  let amount ← item.member "amount"
  let fromWallet ← item.member "fromWallet"
  let toWallet ← item.member "toWallet"
  let status ← item.member "status"
  let remark ← item.member "remark"
  let values := searchValues lowerCase fmt
    [user.optMember "email", user.optMember "username", stakeId, amount.optToString fmt,
     fromWallet, toWallet, status, remark]
  pure (values.any fun val => includes val search)

/-- The rows of the transfer table after the global filter. -/
def filteredRows (lowerCase : String → String) (fmt : Rat → String) (data : List JsVal)
    (searchInput : String) : Except JsError (List JsVal) :=
  filteredRowModel (globalFilterFn lowerCase fmt) data searchInput

/-- The rows the transfer table shows on page `pageIndex`. -/
def visibleRows (lowerCase : String → String) (fmt : Rat → String) (data : List JsVal)
    (searchInput : String) (pageIndex : Nat) : Except JsError (List JsVal) :=
  (filteredRows lowerCase fmt data searchInput).map (pageRows pageIndex)

end TransferManagementReport

/-- Two swap records used to compare the table with the export. -/
def sampleSwaps : List JsVal :=
  [.obj [("userName", .str "Alice"), ("status", .str "completed")],
   .obj [("userName", .str "Bob"), ("status", .str "pending")]]

/-! ## Team tree (`User/Pages/TeamTreeView.jsx`) -/

namespace TeamTreeView

/-- A node in the format of the tree component: `name`, the attributes
`Username`, `Self` and `Team`, and the child nodes. -/
inductive TreeNode where
  | mk (name : JsVal) (username : JsVal) (self : String) (team : String)
      (children : List TreeNode) : TreeNode

/-- The `children` of an output node. -/
def TreeNode.children : TreeNode → List TreeNode
  | .mk _ _ _ _ kids => kids

/-- The fields of the output node other than `children` (lines 17-22), for a
node that is neither `null` nor `undefined`. -/
def nodeWith (fmt : Rat → String) (node : JsVal) (kids : List TreeNode) : TreeNode :=
  .mk ((node.getProp "name").or (.str "Unknown"))
    ((node.getProp "username").or (.str "Unknown"))
    ("$" ++ ((node.getProp "selfInvestment").or (.num 0)).toStr fmt)
    ("$" ++ ((node.getProp "teamInvestment").or (.num 0)).toStr fmt)
    kids

mutual
/-- The inner function `transformNode` (lines 16-24). -/
def transformNode (fmt : Rat → String) : JsVal → Except JsError TreeNode
  | .undefined => .error (.typeError "Cannot read properties of undefined: name")
  | .null => .error (.typeError "Cannot read properties of null: name")
  | .obj fs =>
    match transformChildren fmt fs with
    | .error e => .error e
    | .ok kids => .ok (nodeWith fmt (.obj fs) kids)
  | other => .ok (nodeWith fmt other [])
/-- The expression `node.children ? node.children.map(transformNode) : []` (line
23) on the fields of an object node: the first binding of `children` decides. -/
def transformChildren (fmt : Rat → String) :
    List (String × JsVal) → Except JsError (List TreeNode)
  | [] => .ok []
  | (k, v) :: rest =>
    if k = "children" then
      match v with
      | .arr xs => transformNodes fmt xs
      | other =>
        if other.truthy then .error (.typeError "node.children.map is not a function")
        else .ok []
    else transformChildren fmt rest
/-- The call `nodes.map(transformNode)`. -/
def transformNodes (fmt : Rat → String) : List JsVal → Except JsError (List TreeNode)
  | [] => .ok []
  | x :: xs =>
    match transformNode fmt x with
    | .error e => .error e
    | .ok y =>
      match transformNodes fmt xs with
      | .error e => .error e
      | .ok ys => .ok (y :: ys)
end

/-- The function `transformTreeData` (lines 12-26). The guard reads
`apiData?.data?.data` first and `apiData.data.data` only when that is truthy. -/
def transformTreeData (fmt : Rat → String) (apiData : JsVal) :
    Except JsError (List TreeNode) :=
  if !((apiData.optMember "data").optMember "data").truthy then .ok []
  else do
    let body ← apiData.member "data"
    let roots ← body.member "data"
    if !roots.isArray then .ok []
    else
      match roots with
      | .arr xs => transformNodes fmt xs
      | _ => .error (.typeError "apiData.data.data.map is not a function")

/-- The child nodes of an input node: the items of its `children` array, none
when the field is absent or not an array. -/
def childNodes (node : JsVal) : List JsVal := (node.getProp "children").items

mutual
/-- A team node of the backend tree: an object whose `children` field is an array
of team nodes or is absent (or falsy). -/
def isTeamNode : JsVal → Bool
  | .obj fs => teamChildrenOk fs
  | _ => false
/-- The condition of `isTeamNode` on the first binding of `children`. -/
def teamChildrenOk : List (String × JsVal) → Bool
  | [] => true
  | (k, v) :: rest =>
    if k = "children" then
      match v with
      | .arr xs => allTeamNodes xs
      | other => !other.truthy
    else teamChildrenOk rest
/-- Every item of the list is a team node. -/
def allTeamNodes : List JsVal → Bool
  | [] => true
  | x :: xs => isTeamNode x && allTeamNodes xs
end

mutual
/-- The output node `out` mirrors the input node `node`: it carries the name,
username and the two amounts of `node` with their defaults, and its children
mirror the children of `node` one by one, in order. -/
def Mirrors (fmt : Rat → String) : JsVal → TreeNode → Prop
  | node, .mk name username self team kids =>
    name = (node.getProp "name").or (.str "Unknown")
    ∧ username = (node.getProp "username").or (.str "Unknown")
    ∧ self = "$" ++ ((node.getProp "selfInvestment").or (.num 0)).toStr fmt
    ∧ team = "$" ++ ((node.getProp "teamInvestment").or (.num 0)).toStr fmt
    ∧ MirrorsAll fmt (childNodes node) kids
/-- The two forests have the same number of trees and the trees mirror each
other position by position. -/
def MirrorsAll (fmt : Rat → String) : List JsVal → List TreeNode → Prop
  | [], [] => True
  | x :: xs, t :: ts => Mirrors fmt x t ∧ MirrorsAll fmt xs ts
  | [], _ :: _ => False
  | _ :: _, [] => False
end

end TeamTreeView

/-- A team tree payload: a root with two children, the second without a
`children` field. -/
def sampleTree : JsVal :=
  .obj [("data", .obj [("data", .arr
    [.obj [("name", .str "Root"), ("username", .str "root01"), ("selfInvestment", .num 100),
           ("children", .arr
             [.obj [("name", .str "Kid"), ("children", .arr [])],
              .obj [("username", .str "leaf02")]])]])])]

/-- Decimal rendering of integer-valued numbers, used on sample data. -/
def sampleFmt (q : Rat) : String := toString q.num

/-! ## Investment report (`User/Pages/InvestmentReport.jsx`) -/

namespace InvestmentReport

/-- The status label computed for a plan in `fetchStakedPlans` (lines 55-62). -/
def statusOf (plan : JsVal) : Except JsError String := do
  let isSwapped ← plan.member "isSwapped"
  if isSwapped.truthy then .ok "Swapped / Locked"
  else do
    let isTransferred ← plan.member "isTransferred"
    if isTransferred.truthy then .ok "Transferred / Completed"
    else do
      let isReinvested ← plan.member "isReinvested"
      if isReinvested.truthy then .ok "Reinvested / Completed"
      else do
        let isLockingPeriodActive ← plan.member "isLockingPeriodActive"
        if isLockingPeriodActive.truthy then .ok "Locked"
        else do
          let status ← plan.member "status"
          if status.strictEqStr "completed" then .ok "Claim" else .ok "Complete"

/-- A row of the investment table, as built in `fetchStakedPlans` (lines 64-82). -/
structure Row where
  stakeId : JsVal
  planName : JsVal
  amount : JsVal
  dailyReturn : JsVal
  startDate : String
  endDate : String
  status : String
  isSwapped : JsVal
  isTransferred : JsVal
  isReinvested : JsVal
  isActive : JsVal

/-- The callback of `apiPlans.map` (lines 54-83). `formatDate` stands for the
`moment(...).utcOffset(330).format(...)` call of the date library. -/
def toRow (formatDate : JsVal → String) (plan : JsVal) : Except JsError Row := do
  let status ← statusOf plan
  let stakeId ← plan.member "stakeId"
  let planName ← plan.member "packageName"
  let amount ← plan.member "amount"
  let dailyReturn ← plan.member "dailyROIAmount"
  let startDate ← plan.member "startDate"
  let lockUntil ← plan.member "lockUntil"
  let isSwapped ← plan.member "isSwapped"
  let isTransferred ← plan.member "isTransferredToPrincipalWallet"
  let isReinvested ← plan.member "isReinvested"
  let isActive ← plan.member "isActive"
  pure
    { stakeId := stakeId
      planName := planName
      amount := amount
      dailyReturn := dailyReturn
      startDate := formatDate startDate
      endDate := formatDate lockUntil
      status := status
      isSwapped := isSwapped
      isTransferred := isTransferred
      isReinvested := isReinvested
      isActive := isActive }

/-- The text shown in the Status column (lines 169-184): the `status` of the row. -/
def statusCell (row : Row) : String := row.status

/-- The six labels the status derivation can produce. -/
def statusLabels : List String :=
  ["Swapped / Locked", "Transferred / Completed", "Reinvested / Completed",
   "Locked", "Claim", "Complete"]

end InvestmentReport

/-- A staked plan whose locking period is over and whose backend status is
`completed`. -/
def samplePlan : JsVal :=
  .obj [("stakeId", .str "STK-1"), ("isSwapped", .bool false),
        ("isLockingPeriodActive", .bool false), ("status", .str "completed")]

/-- A response of the deposits endpoint with one deposit that carries no
`walletType`. -/
def sampleDepositResponse : JsVal :=
  .obj [("data", .obj [("data", .obj [("deposits", .arr
    [.obj [("_id", .str "d1"), ("transactionHash", .str "0xabc"), ("amount", .num 10),
           ("currencyType", .str "USDT"), ("status", .str "Success")]])])])]

/-- The row built from the deposit of `sampleDepositResponse`. -/
def sampleRowNoWallet : DepositReport.Row :=
  { id := .str "d1", transactionHash := .str "0xabc", amount := .num 10,
    walletType := .undefined, currencyType := .str "USDT", date := "",
    status := .str "Success" }

/-- Two deposit rows with string fields. -/
def sampleDepositRows : List DepositReport.Row :=
  [{ id := .str "d1", transactionHash := .str "0xABC", amount := .num 10,
     walletType := .str "Principle", currencyType := .str "USDT", date := "",
     status := .str "Success" },
   { id := .str "d2", transactionHash := .str "0xdef", amount := .num 5,
     walletType := .str "Deposit", currencyType := .str "BNB", date := "",
     status := .str "Pending" }]

/-! ## Conversion to number -/

/-- The number `Number(v)`, with `none` for `NaN`. `parseNum` is the conversion of
a string to a number by the runtime. -/
def JsVal.toNumber (parseNum : String → Option Rat) (fmt : Rat → String) :
    JsVal → Option Rat
  | .undefined => none
  | .null => some 0
  | .bool b => some (if b then 1 else 0)
  | .num q => some q
  | .str s => parseNum s
  | .arr xs => parseNum ((JsVal.arr xs).toStr fmt)
  | .obj _ => none

/-- The value of `a >= b` for numbers, which is `false` when `a` is `NaN`. -/
def numGe (a : Option Rat) (b : Rat) : Bool :=
  match a with
  | some q => decide (b ≤ q)
  | none => false

/-- The value of `a * k` for a number `a` and a finite constant `k`. -/
def numMul (a : Option Rat) (k : Rat) : Option Rat := a.map (· * k)

/-! ## Analytics: timeframe filter (`User/Pages/Analytics.jsx`) -/

namespace Analytics

/-- The variable `cutoff` of `getFilteredData` (lines 27-31), in milliseconds. -/
def cutoff (now : Int) (timeframe : String) : Int :=
  if timeframe = "1d" then now - 1 * 24 * 60 * 60 * 1000
  else if timeframe = "7d" then now - 7 * 24 * 60 * 60 * 1000
  else if timeframe = "30d" then now - 30 * 24 * 60 * 60 * 1000
  else if timeframe = "90d" then now - 90 * 24 * 60 * 60 * 1000
  else 0

/-- The callback `item => (item.tradedAt * 1000) >= cutoff` (line 32). -/
def inTimeframe (parseNum : String → Option Rat) (fmt : Rat → String) (cut : Int)
    (item : JsVal) : Except JsError Bool := do
  let tradedAt ← item.member "tradedAt"
  pure (numGe (numMul (tradedAt.toNumber parseNum fmt) 1000) cut)

/-- The test `analyticsData.length === 0` on a truthy value. -/
def lengthIsZero (v : JsVal) : Bool :=
  match v.getProp "length" with
  | .num q => q == 0
  | _ => false

/-- The helper `getFilteredData` (lines 24-33). `analyticsData` and `timeframe`
are the component state, `now` is the value of `Date.now()`. -/
def getFilteredData (parseNum : String → Option Rat) (fmt : Rat → String)
    (analyticsData : JsVal) (now : Int) (timeframe : String) :
    Except JsError (List JsVal) :=
  if !analyticsData.truthy || lengthIsZero analyticsData then .ok []
  else
    match analyticsData with
    | .arr trades => filterExcept (inTimeframe parseNum fmt (cutoff now timeframe)) trades
    | _ => .error (.typeError "analyticsData.filter is not a function")

/-- The condition of the timeframe filter in the words of the report: the trade
time in seconds, times 1000, is at least `now` minus `days` days in
milliseconds. A trade time that is not a number satisfies no such bound. -/
def withinDays (parseNum : String → Option Rat) (fmt : Rat → String) (now : Int)
    (days : Int) (trade : JsVal) : Bool :=
  match (trade.getProp "tradedAt").toNumber parseNum fmt with
  | some tradedAt => decide ((now - days * 24 * 60 * 60 * 1000 : Int) ≤ tradedAt * 1000)
  | none => false

end Analytics

/-- Three trades: two days old, ten days old, and one without a trade time,
for the clock value 1700000000000. -/
def sampleTrades : List JsVal :=
  [.obj [("ticker", .str "BTC/USDT"), ("tradedAt", .num 1699827200)],
   .obj [("ticker", .str "ETH/USDT"), ("tradedAt", .num 1699136000)],
   .obj [("ticker", .str "BNB/USDT")]]

/-- A string-to-number conversion for sample data: no string is numeric. -/
def sampleParse (_ : String) : Option Rat := none

/-! ## Double-precision numbers -/

/-- The integer nearest to `n / d`, the even one when two are equally near. -/
def roundHalfEven (n d : Nat) : Nat :=
  let f := n / d
  let r := n % d
  if 2 * r < d then f
  else if d < 2 * r then f + 1
  else if f % 2 = 0 then f else f + 1

/-- The number of binary digits of `n`, counted in at most `fuel` halvings. -/
def bitLengthAux : Nat → Nat → Nat
  | 0, _ => 0
  | fuel + 1, n => if n = 0 then 0 else bitLengthAux fuel (n / 2) + 1

/-- The number of binary digits of `n`: `0` for `0`, and otherwise the `k` with
`2 ^ (k - 1) ≤ n < 2 ^ k`. -/
def bitLength (n : Nat) : Nat := bitLengthAux n n

/-- The largest `e` with `2 ^ e ≤ n / d`, for positive `n` and `d`. -/
def floorLog2 (n d : Nat) : Int :=
  let e : Int := (bitLength n : Int) - (bitLength d : Int)
  if (if 0 ≤ e then decide (2 ^ e.toNat * d ≤ n) else decide (d ≤ n * 2 ^ (-e).toNat)) then e
  else e - 1

/-- The exponent of the last binary place of the double nearest to `n / d`: 52
places below the leading one, and `-1074` in the subnormal range. -/
def lastPlace (n d : Nat) : Int := max (floorLog2 n d) (-1022) - 52

/-- The double nearest to a rational (round to nearest, ties to even), as the
rational it denotes. The upper end of the range is applied by `JsNum.ofReal`. -/
def nearestDouble (q : Rat) : Rat :=
  if q.num = 0 then 0
  else
    let n := q.num.natAbs
    let p := lastPlace n q.den
    let m : Nat :=
      if 0 ≤ p then roundHalfEven n (q.den * 2 ^ p.toNat)
      else roundHalfEven (n * 2 ^ (-p).toNat) q.den
    let s : Int := if q.num < 0 then -1 else 1
    if 0 ≤ p then ((s * (m * 2 ^ p.toNat : Nat) : Int) : Rat)
    else mkRat (s * m) (2 ^ (-p).toNat)

/-- A number of the runtime: a finite double, held as the rational it denotes,
an infinity, or `NaN`. The two zeros are not told apart: no page divides by a
value that can be a negative zero, and both are shown as "0". -/
inductive JsNum where
  | finite (q : Rat) : JsNum
  | infinite (negative : Bool) : JsNum
  | nan : JsNum
  deriving DecidableEq

namespace JsNum

/-- The number a real result is rounded to: the nearest double, or an infinity
when that lies beyond the largest double. This is also the number that a numeric
literal, or a number in a JSON payload, denotes. -/
def ofReal (q : Rat) : JsNum :=
  let r := nearestDouble q
  if (2 : Rat) ^ 1024 ≤ (if r < 0 then -r else r) then .infinite (decide (q < 0))
  else .finite r

/-- The number of a count such as `xs.length`. -/
def ofNat (n : Nat) : JsNum := ofReal n

/-- The value of `a + b` on numbers. -/
def add : JsNum → JsNum → JsNum
  | .finite a, .finite b => ofReal (a + b)
  | .finite _, .infinite t => .infinite t
  | .infinite s, .finite _ => .infinite s
  | .infinite s, .infinite t => if s = t then .infinite s else .nan
  | .nan, _ => .nan
  | _, .nan => .nan

/-- The value of `a * b` on numbers. -/
def mul : JsNum → JsNum → JsNum
  | .finite a, .finite b => ofReal (a * b)
  | .finite a, .infinite t => if a = 0 then .nan else .infinite (xor (decide (a < 0)) t)
  | .infinite s, .finite b => if b = 0 then .nan else .infinite (xor s (decide (b < 0)))
  | .infinite s, .infinite t => .infinite (xor s t)
  | .nan, _ => .nan
  | _, .nan => .nan

/-- The value of `a / b` on numbers, for a divisor that is not a negative zero. -/
def div : JsNum → JsNum → JsNum
  | .finite a, .finite b =>
    if b = 0 then (if a = 0 then .nan else .infinite (decide (a < 0))) else ofReal (a / b)
  | .finite _, .infinite _ => .finite 0
  | .infinite s, .finite b => .infinite (xor s (decide (b < 0)))
  | .infinite _, .infinite _ => .nan
  | .nan, _ => .nan
  | _, .nan => .nan

/-- Truthiness of a number: `0` and `NaN` are falsy. -/
def truthy : JsNum → Bool
  | .finite q => q != 0
  | .infinite _ => true
  | .nan => false

/-- The value of `a || 0` for a number `a`: `NaN` and `0` both give `0`. -/
def orZero (a : JsNum) : JsNum := if a.truthy then a else .finite 0

/-- The value of `a > 0` for a number `a`, which is `false` for `NaN`. -/
def isPositive : JsNum → Bool
  | .finite q => decide (0 < q)
  | .infinite negative => !negative
  | .nan => false

/-- The string `String(a)` of a number. -/
def toStr (fmt : Rat → String) : JsNum → String
  | .finite q => fmt q
  | .infinite negative => if negative then "-Infinity" else "Infinity"
  | .nan => "NaN"

/-- The sum of a list of numbers, added from left to right starting from `0`. -/
def sum (xs : List JsNum) : JsNum := xs.foldl add (.finite 0)

end JsNum

/-- The number `Number(v)`. A string is converted by `parseNum`; the result is
a double. -/
def JsVal.toJsNum (parseNum : String → Option Rat) (fmt : Rat → String) (v : JsVal) :
    JsNum :=
  match v.toNumber parseNum fmt with
  | some q => JsNum.ofReal q
  | none => .nan

/-! ## Number formatting -/

/-- The integer `n` chosen by `toFixed(2)` for a number `a ≥ 0`: `n / 100` is as
close to `a` as possible, and the larger `n` is taken when two are equally
close. -/
def hundredths (a : Rat) : Nat := ((200 * a.num + a.den) / (2 * a.den)).toNat

/-- The value of `q.toFixed(2)`: a sign for a negative number, the integer part
and two decimals. From `10 ^ 21` on the runtime uses its number-to-string
conversion `fmt` instead. -/
def toFixed2 (fmt : Rat → String) (q : Rat) : String :=
  let a := if q < 0 then -q else q
  if (10 : Rat) ^ 21 ≤ a then fmt q
  else
    let n := hundredths a
    (if q < 0 then "-" else "") ++ toString (n / 100) ++ "."
      ++ (if n % 100 < 10 then "0" else "") ++ toString (n % 100)

/-- The value of `a.toFixed(2)` for a number. -/
def JsNum.toFixed2 (fmt : Rat → String) : JsNum → String
  | .finite q => Mox.toFixed2 fmt q
  | .infinite negative => if negative then "-Infinity" else "Infinity"
  | .nan => "NaN"

/-- The value of `Number(a.toFixed(2))`: `a` rounded to two decimals, half away
from zero, and read back as a double. -/
def JsNum.roundFixed2 : JsNum → JsNum
  | .finite q =>
    let a := if q < 0 then -q else q
    if (10 : Rat) ^ 21 ≤ a then .finite q
    else if q < 0 then JsNum.ofReal (-((hundredths a : Rat) / 100))
    else JsNum.ofReal ((hundredths a : Rat) / 100)
  | .infinite negative => .infinite negative
  | .nan => .nan

/-- The call `xs.reduce(f, init)` for a callback that may throw. -/
def reduceExcept {α β : Type} (f : β → α → Except JsError β) :
    β → List α → Except JsError β
  | acc, [] => .ok acc
  | acc, x :: xs =>
    match f acc x with
    | .error e => .error e
    | .ok next => reduceExcept f next xs

/-! ## Analytics: statistics (`User/Pages/Analytics.jsx`) -/

namespace Analytics

/-- The four statistics cards (lines 74-99): the `value` of each card. -/
structure Stats where
  totalProfit : String
  totalTrades : Nat
  winRate : String
  avgReturn : String

/-- The reducer `(sum, item) => sum + (Number(item.profitAfterFees) || 0)`. -/
def addProfit (parseNum : String → Option Rat) (fmt : Rat → String) (sum : JsNum)
    (item : JsVal) : Except JsError JsNum := do
  let profit ← item.member "profitAfterFees"
  pure (sum.add (profit.toJsNum parseNum fmt).orZero)

/-- The callback `item => Number(item.profitAfterFees) > 0`. -/
def isWin (parseNum : String → Option Rat) (fmt : Rat → String) (item : JsVal) :
    Except JsError Bool := do
  let profit ← item.member "profitAfterFees"
  pure (profit.toJsNum parseNum fmt).isPositive

/-- The statistics computed from `filteredData` (lines 63-70) and shown in the
cards (lines 74-99). -/
def stats (parseNum : String → Option Rat) (fmt : Rat → String)
    (filteredData : List JsVal) : Except JsError Stats := do
  let totalProfit ← reduceExcept (addProfit parseNum fmt) (.finite 0) filteredData
  let totalTrades := filteredData.length
  let winRate ←
    if filteredData.length > 0 then do
      let wins ← filterExcept (isWin parseNum fmt) filteredData
      pure ((((JsNum.ofNat wins.length).div (JsNum.ofNat filteredData.length)).mul
        (.finite 100)).toFixed2 fmt ++ "%")
    else pure "0%"
  let avgReturn ←
    if filteredData.length > 0 then do
      let sum ← reduceExcept (addProfit parseNum fmt) (.finite 0) filteredData
      pure ("$" ++ (sum.div (JsNum.ofNat filteredData.length)).toFixed2 fmt)
    else pure "$0.00"
  pure
    { totalProfit := "$" ++ totalProfit.toFixed2 fmt
      totalTrades := totalTrades
      winRate := winRate
      avgReturn := avgReturn }

/-- The profit of a trade in the words of the report: its `profitAfterFees` as a
number, counted as 0 when missing or not numeric. -/
def profitValue (parseNum : String → Option Rat) (fmt : Rat → String) (trade : JsVal) :
    JsNum :=
  match (trade.getProp "profitAfterFees").toJsNum parseNum fmt with
  | .nan => .finite 0
  | profit => profit

/-- Reference Total Profit: the sum of the profits of the trades. -/
def refTotalProfit (parseNum : String → Option Rat) (fmt : Rat → String)
    (trades : List JsVal) : JsNum :=
  JsNum.sum (trades.map (profitValue parseNum fmt))

/-- Reference number of winning trades: those with `profitAfterFees > 0`. -/
def refWins (parseNum : String → Option Rat) (fmt : Rat → String) (trades : List JsVal) :
    Nat :=
  trades.countP fun trade =>
    ((trade.getProp "profitAfterFees").toJsNum parseNum fmt).isPositive

/-- Reference Win Rate: 100 times the number of winning trades divided by the
number of trades. -/
def refWinRate (parseNum : String → Option Rat) (fmt : Rat → String) (trades : List JsVal) :
    JsNum :=
  ((JsNum.ofNat (refWins parseNum fmt trades)).div (JsNum.ofNat trades.length)).mul
    (.finite 100)

/-- Reference Avg Return: Total Profit divided by the number of trades. -/
def refAvgReturn (parseNum : String → Option Rat) (fmt : Rat → String)
    (trades : List JsVal) : JsNum :=
  (refTotalProfit parseNum fmt trades).div (JsNum.ofNat trades.length)

end Analytics

/-- Four trades with profits 3, -1, a non-numeric text and no profit. -/
def sampleProfits : List JsVal :=
  [.obj [("profitAfterFees", .num 3)],
   .obj [("profitAfterFees", .num (-1))],
   .obj [("profitAfterFees", .str "n/a")],
   .obj [("exchange", .str "Binance")]]

/-- A trade with the profit 1. -/
def sampleWin : JsVal := .obj [("profitAfterFees", .num 1)]

/-- A trade with the profit 0. -/
def sampleDraw : JsVal := .obj [("profitAfterFees", .num 0)]

/-- A list of 160 trades of which 23 have a positive profit. -/
def sampleManyTrades : List JsVal :=
  List.replicate 23 sampleWin ++ List.replicate 137 sampleDraw

/-! ## Analytics: chart aggregation (`User/Pages/Analytics.jsx`) -/

namespace Analytics

/-- The property names an object literal inherits from `Object.prototype`: a read
of one of them on `{}` finds a function (or, for `__proto__`, the prototype)
instead of `undefined`. -/
def inheritedNames : List String :=
  ["constructor", "hasOwnProperty", "isPrototypeOf", "propertyIsEnumerable",
   "toLocaleString", "toString", "valueOf", "__defineGetter__", "__defineSetter__",
   "__lookupGetter__", "__lookupSetter__", "__proto__"]

/-- What a property of `exchangeMap` holds: a number, or the string that `+`
produces once one of its operands is not a number. -/
inductive Slot where
  | number (n : JsNum) : Slot
  | text : Slot

/-- The own properties of `exchangeMap`, in insertion order. -/
abbrev Bins := List (String × Slot)

/-- The own property `key` of the map, if there is one. -/
def lookupBin (key : String) : Bins → Option Slot
  | [] => none
  | (k, v) :: rest => if k = key then some v else lookupBin key rest

/-- The assignment `exchangeMap[key] = v`: an existing property keeps its
position, a new one is added last. -/
def setBin (key : String) (v : Slot) : Bins → Bins
  | [] => [(key, v)]
  | (k, old) :: rest => if k = key then (k, v) :: rest else (k, old) :: setBin key v rest

/-- The key under which a trade is grouped: `item[field] || "Unknown"`, converted
to a property key. -/
def groupKey (fmt : Rat → String) (field : String) (trade : JsVal) : String :=
  ((trade.getProp field).or (.str "Unknown")).toStr fmt

/-- The body of the `forEach` callback (lines 229-232 and 258-261): `map[key] =
(map[key] || 0) + (Number(item.profitAfterFees) || 0)`. A read of an inherited
name yields a function, so the sum is a string; an assignment to `__proto__`
with a primitive changes nothing. -/
def addToBin (parseNum : String → Option Rat) (fmt : Rat → String) (field : String)
    (bins : Bins) (item : JsVal) : Except JsError Bins := do
  let name ← item.member field
  let profit ← item.member "profitAfterFees"
  let key := (name.or (.str "Unknown")).toStr fmt
  let p := (profit.toJsNum parseNum fmt).orZero
  let next : Slot :=
    match lookupBin key bins with
    | some (.number n) => .number (n.orZero.add p)
    | some .text => .text
    | none => if key ∈ inheritedNames then .text else .number ((JsNum.finite 0).add p)
  pure (if key = "__proto__" then bins else setBin key next bins)

/-- A bar of a chart: the group label and its profit. -/
structure Bar where
  label : String
  profit : JsNum

/-- The callback of `Object.entries(map).map(...)` (lines 233 and 262):
`profit.toFixed(2)` exists only on a number. -/
def toBar (entry : String × Slot) : Except JsError Bar :=
  match entry.2 with
  | .number n => .ok ⟨entry.1, n.roundFixed2⟩
  | .text => .error (.typeError "profit.toFixed is not a function")

/-- The chart data computed inline for a bar chart (lines 226-234 and 255-263),
grouped by `field`. The bars are listed in the order their groups first occur;
the runtime moves groups whose key is an array index to the front. -/
def chartData (parseNum : String → Option Rat) (fmt : Rat → String) (field : String)
    (filteredData : List JsVal) : Except JsError (List Bar) := do
  let bins ← reduceExcept (addToBin parseNum fmt field) [] filteredData
  traverse toBar bins

/-- The data of the Exchange Performance chart. -/
def exchangePerformance (parseNum : String → Option Rat) (fmt : Rat → String)
    (filteredData : List JsVal) : Except JsError (List Bar) :=
  chartData parseNum fmt "exchange" filteredData

/-- The data of the Pair Performance chart. -/
def pairPerformance (parseNum : String → Option Rat) (fmt : Rat → String)
    (filteredData : List JsVal) : Except JsError (List Bar) :=
  chartData parseNum fmt "ticker" filteredData

/-- The running total of a group after one more profit: `(total || 0) + p`, so
that a total that has become `NaN` counts as 0. -/
def addToTotal (total p : JsNum) : JsNum := total.orZero.add p

/-- The total of the profits of the trades grouped under `key`, added from left
to right. -/
def groupProfit (parseNum : String → Option Rat) (fmt : Rat → String) (field key : String)
    (trades : List JsVal) : JsNum :=
  ((trades.filter fun t => groupKey fmt field t = key).map (profitValue parseNum fmt)).foldl
    addToTotal (.finite 0)

end Analytics

/-- A trade on an exchange named "constructor", two days before the clock value
1700000000000. -/
def sampleConstructorTrade : JsVal :=
  .obj [("exchange", .str "constructor"), ("profitAfterFees", .num 5),
        ("tradedAt", .num 1699827200)]

/-- A trade on an exchange named "__proto__", two days before the clock value
1700000000000. -/
def sampleProtoTrade : JsVal :=
  .obj [("exchange", .str "__proto__"), ("profitAfterFees", .num 5),
        ("tradedAt", .num 1699827200)]

/-! ## Balance history: statistics (`User/Pages/History.jsx`) -/

/-- The running value of a `reduce` whose reducer is `sum + x`: a number, or the
string that `+` produces once an operand is a string, array or object. -/
inductive Total where
  | number (n : JsNum) : Total
  | text (s : String) : Total

/-- The value of `sum + x`: numeric addition when `x` converts to a number
directly, string concatenation when `sum` is a string or `x` is a string, an
array or an object. -/
def Total.add (fmt : Rat → String) (sum : Total) (x : JsVal) : Total :=
  match sum with
  | .text s => .text (s ++ x.toStr fmt)
  | .number a =>
    match x with
    | .num b => .number (a.add (JsNum.ofReal b))
    | .bool b => .number (a.add (.finite (if b then 1 else 0)))
    | .null => .number (a.add (.finite 0))
    | .undefined => .number .nan
    | other => .text (a.toStr fmt ++ other.toStr fmt)

namespace History

/-- The four statistics cards of the history page (lines 49-74): the `value` of
each card. -/
structure Stats where
  totalTransactions : Nat
  totalDeposits : Total
  totalWithdrawals : Total
  currentBalance : JsVal

/-- The reducer `(sum, item) => sum + (item[field] || 0)` (lines 45-46). -/
def addField (fmt : Rat → String) (field : String) (sum : Total) (item : JsVal) :
    Except JsError Total := do
  let value ← item.member field
  pure (sum.add fmt (value.or (.num 0)))

/-- The expression `balanceHistory.length > 0 ? balanceHistory[0].amount : 0`
(line 47). -/
def currentBalance (balanceHistory : List JsVal) : Except JsError JsVal :=
  match balanceHistory with
  | [] => .ok (.num 0)
  | first :: _ => first.member "amount"

/-- The statistics computed from `balanceHistory` (lines 44-47). -/
def stats (fmt : Rat → String) (balanceHistory : List JsVal) : Except JsError Stats := do
  let totalDeposits ← reduceExcept (addField fmt "deposit") (.number (.finite 0)) balanceHistory
  let totalWithdrawals ←
    reduceExcept (addField fmt "withdrawal") (.number (.finite 0)) balanceHistory
  let balance ← currentBalance balanceHistory
  pure
    { totalTransactions := balanceHistory.length
      totalDeposits := totalDeposits
      totalWithdrawals := totalWithdrawals
      currentBalance := balance }

/-- The amount read from a field of a history entry: the number it holds, 0
when the field is missing. -/
def amountOf (field : String) (entry : JsVal) : JsNum :=
  match entry.getProp field with
  | .num q => JsNum.ofReal q
  | _ => .finite 0

/-- A history entry in which the deposit and the withdrawal are each a number
or missing (`undefined` or `null`). -/
def wellTyped (entry : JsVal) : Bool :=
  let numeric (v : JsVal) : Bool :=
    match v with
    | .num _ => true
    | .undefined => true
    | .null => true
    | _ => false
  !entry.isNullish && numeric (entry.getProp "deposit")
    && numeric (entry.getProp "withdrawal")

end History

/-- A balance history of three entries, the newest first. -/
def sampleHistory : List JsVal :=
  [.obj [("id", .num 3), ("amount", .num 120), ("deposit", .num 20)],
   .obj [("id", .num 2), ("amount", .num 100), ("withdrawal", .num 50), ("deposit", .null)],
   .obj [("id", .num 1), ("amount", .num 150), ("deposit", .num 150)]]

/-- A balance history whose deposits arrive as the texts "20" and "5". -/
def sampleTextHistory : List JsVal :=
  [.obj [("id", .num 2), ("amount", .num 25), ("deposit", .str "20")],
   .obj [("id", .num 1), ("amount", .num 5), ("deposit", .str "5")]]

/-! ## Status and username cells of the admin reports -/

/-- The receiver of a string method call `v.method(...)`: only a string has the
method. -/
def JsVal.receiver (method : String) (v : JsVal) : Except JsError String :=
  match v with
  | .str s => .ok s
  | .undefined => .error (.typeError ("Cannot read properties of undefined: " ++ method))
  | .null => .error (.typeError ("Cannot read properties of null: " ++ method))
  | _ => .error (.typeError (method ++ " is not a function"))

/-- The value of `s.charAt(0).toUpperCase() + s.slice(1)`. -/
def upperFirst (s : String) : String :=
  match s.data with
  | [] => ""
  | c :: rest => ⟨c.toUpper :: rest⟩

/-- The value of `s.charAt(0).toUpperCase() + s.slice(1).toLowerCase()`. -/
def upperFirstLowerRest (s : String) : String :=
  match s.data with
  | [] => ""
  | c :: rest => ⟨c.toUpper :: rest.map Char.toLower⟩

/-- The value of `s.split("@")[0]`: the part of `s` before the first "@". -/
def beforeAt (s : String) : String := ⟨s.data.takeWhile fun c => c != '@'⟩

/-- The colours of a status badge. -/
inductive Badge where
  | green : Badge
  | yellow : Badge
  | red : Badge
  deriving DecidableEq, Repr

/-- The class names of a badge colour (`bg-green-100 text-green-800` and so on). -/
def Badge.className : Badge → String
  | .green => "bg-green-100 text-green-800"
  | .yellow => "bg-yellow-100 text-yellow-800"
  | .red => "bg-red-100 text-red-800"

/-- The badge colour of the transfer and reinvest tables for a lower-cased
status (lines 110-114 of both files). -/
def completedByDefaultBadge (status : String) : Badge :=
  if status = "completed" then Badge.green
  else if status = "pending" then Badge.yellow
  else Badge.red

/-- The badge of the Status cell of the transfer and reinvest tables (lines
105-121 of both files): the colour and the label. -/
def completedByDefaultCell (item : JsVal) : Except JsError (Badge × String) := do
  let value ← item.member "status"
  let text ← (value.or (.str "completed")).receiver "toLowerCase"
  let status := toLowerCase text
  pure (completedByDefaultBadge status, upperFirst status)

/-- The username shown and exported with the email fallback:
`user?.username || user?.email?.split("@")[0] || "Unknown"`. -/
def usernameWithEmailFallback (item : JsVal) : Except JsError JsVal := do
  let user ← item.member "user"
  let username := user.optMember "username"
  if username.truthy then pure username
  else do
    let email := user.optMember "email"
    let part ←
      if email.isNullish then pure JsVal.undefined
      else do
        let text ← email.receiver "split"
        pure (JsVal.str (beforeAt text))
    pure (part.or (.str "Unknown"))

namespace ReinvestManagementReport

/-- The Status cell of the reinvest table (lines 105-121). -/
def statusCell (item : JsVal) : Except JsError (Badge × String) :=
  completedByDefaultCell item

/-- The Username cell of the reinvest table (lines 77-80). -/
def usernameCell (item : JsVal) : Except JsError JsVal :=
  usernameWithEmailFallback item

/-- The Status text of the exports (lines 175 and 218):
`(item.status || "completed").charAt(0).toUpperCase() + (item.status ||
"completed").slice(1)`. -/
def exportStatus (item : JsVal) : Except JsError String := do
  let value ← item.member "status"
  let text ← (value.or (.str "completed")).receiver "charAt"
  pure (upperFirst text)

/-- The Username of the exports (lines 170 and 213):
`item.user?.username || "Unknown"`. -/
def exportUsername (item : JsVal) : Except JsError JsVal := do
  let user ← item.member "user"
  pure ((user.optMember "username").or (.str "Unknown"))

end ReinvestManagementReport

namespace TransferManagementReport

/-- The helper `capitalize` (lines 56-59). -/
def capitalize (v : JsVal) : Except JsError String :=
  if !v.truthy then .ok "N/A"
  else do
    let text ← v.receiver "charAt"
    pure (upperFirstLowerRest text)

/-- The Status cell of the transfer table (lines 105-121). -/
def statusCell (item : JsVal) : Except JsError (Badge × String) :=
  completedByDefaultCell item

/-- The Username cell of the transfer table (lines 72-75). -/
def usernameCell (item : JsVal) : Except JsError JsVal :=
  usernameWithEmailFallback item

/-- The Status text of the exports (lines 204 and 250). -/
def exportStatus (item : JsVal) : Except JsError String := do
  let value ← item.member "status"
  capitalize (value.or (.str "completed"))

/-- The Username of the exports (lines 198 and 244). -/
def exportUsername (item : JsVal) : Except JsError JsVal :=
  usernameWithEmailFallback item

end TransferManagementReport

namespace SwapManagementReport

/-- The helper `capitalize` (lines 62-63). -/
def capitalize (v : JsVal) : Except JsError String :=
  if !v.truthy then .ok "N/A"
  else do
    let text ← v.receiver "charAt"
    pure (upperFirstLowerRest text)

/-- The badge colour of the swap table for a lower-cased status (lines 115-119). -/
def badgeOf (status : String) : Badge :=
  if status = "completed" then Badge.green
  else if status = "rejected" ∨ status = "failed" then Badge.red
  else Badge.yellow

/-- The badge label of the swap table for a lower-cased status (line 122). -/
def labelOf (status : String) : Except JsError String :=
  if status = "completed" then .ok "Completed" else capitalize (.str status)

/-- The Status cell of the swap table (lines 110-125): the colour and the label. -/
def statusCell (item : JsVal) : Except JsError (Badge × String) := do
  let value ← item.member "status"
  let text ← (value.or (.str "pending")).receiver "toLowerCase"
  let status := toLowerCase text
  let label ← labelOf status
  pure (badgeOf status, label)

/-- The Status text of the exports (lines 191 and 232). -/
def exportStatus (item : JsVal) : Except JsError String := do
  let value ← item.member "status"
  capitalize (value.or (.str "pending"))

end SwapManagementReport

/-- The status of a record in the words of the reports: its `status` string, and
`fallback` when the status is missing (or empty). -/
def statusOr (fallback : String) (item : JsVal) : String :=
  match item.getProp "status" with
  | .str s => if s = "" then fallback else s
  | _ => fallback

/-- A record whose `status` is a string or missing. -/
def hasTextStatus (item : JsVal) : Bool :=
  !item.isNullish &&
    match item.getProp "status" with
    | .str _ => true
    | .undefined => true
    | .null => true
    | _ => false

/-! ## Export rows of the admin reports -/

/-- The functions of the runtime that the export handlers call: the case
conversions of strings, the conversions between numbers and strings, and the two
renderings of a date, `new Date(v).toLocaleString("en-IN", options)` with the
display options of the tables (`dateTime`) and with the time zone alone
(`localeString`). -/
structure Runtime where
  upperCase : String → String
  lowerCase : String → String
  parseNum : String → Option Rat
  fmt : Rat → String
  dateTime : JsVal → String
  localeString : JsVal → String

/-- The value of `s.charAt(0).toUpperCase() + s.slice(1).toLowerCase()`.
`charAt` and `slice` count UTF-16 units: a first character outside the basic
plane is split into its two halves, which no case conversion changes. -/
def Runtime.capitalizeText (rt : Runtime) (s : String) : String :=
  match s.data with
  | [] => rt.upperCase "" ++ rt.lowerCase ""
  | c :: rest =>
    if c.val.toNat < 65536 then rt.upperCase (String.singleton c) ++ rt.lowerCase ⟨rest⟩
    else String.singleton c ++ rt.lowerCase ⟨rest⟩

/-- The value of `s.charAt(0).toUpperCase() + s.slice(1)`. -/
def Runtime.upperFirstText (rt : Runtime) (s : String) : String :=
  match s.data with
  | [] => rt.upperCase ""
  | c :: rest =>
    (if c.val.toNat < 65536 then rt.upperCase (String.singleton c) else String.singleton c)
      ++ ⟨rest⟩

/-- The value of `Number(val || 0).toFixed(2)`. -/
def Runtime.fixedAmount (rt : Runtime) (val : JsVal) : String :=
  ((val.or (.num 0)).toJsNum rt.parseNum rt.fmt).toFixed2 rt.fmt

/-- The value of `(v || fallback).toUpperCase()`, which throws when `v` is truthy
and not a string. -/
def Runtime.upperCaseOr (rt : Runtime) (fallback : String) (v : JsVal) :
    Except JsError String := do
  let text ← (v.or (.str fallback)).receiver "toUpperCase"
  pure (rt.upperCase text)

/-- The helper `capitalize` of the swap and transfer reports with the case
conversions of the runtime: `"N/A"` for a falsy value, and a thrown `TypeError`
for a truthy value that is not a string. `SwapManagementReport.capitalize` and
`TransferManagementReport.capitalize` are this function for ASCII letters. -/
def Runtime.capitalize (rt : Runtime) (v : JsVal) : Except JsError String :=
  if !v.truthy then .ok "N/A"
  else do
    let text ← v.receiver "charAt"
    pure (rt.capitalizeText text)

/-- The serial number `i + 1` of the row of index `i`. -/
def serialNumber (i : Nat) : JsVal := .num ((i : Rat) + 1)

namespace SwapManagementReport

/-- The helper `formatNumber` (line 48). -/
def formatNumber (rt : Runtime) (val : JsVal) : String := rt.fixedAmount val

/-- The helper `formatDate` (lines 49-60). -/
def formatDate (rt : Runtime) (date : JsVal) : String :=
  if date.truthy then rt.dateTime date else "N/A"

/-- The ten cells that both exports build for the record `item` at index `i`
(lines 183-192 and 224-233), in the order of the source. -/
def exportCells (rt : Runtime) (i : Nat) (item : JsVal) : Except JsError (List JsVal) := do
  let userName ← item.member "userName"
  let packageName ← item.member "packageName"
  let usdtAmount ← item.member "usdtAmount"
  let emgtAmount ← item.member "emgtAmount"
  let tokenPrice ← item.member "tokenPrice"
  let currencyType ← item.member "currencyType"
  let currency ← rt.upperCaseOr "USDT" currencyType
  let remark ← item.member "remark"
  let status ← item.member "status"
  let statusText ← rt.capitalize (status.or (.str "pending"))
  let createdAt ← item.member "createdAt"
  pure
    [serialNumber i, userName.or (.str "N/A"), packageName.or (.str "N/A"),
     .str (formatNumber rt usdtAmount), .str (formatNumber rt emgtAmount),
     .str ("$" ++ formatNumber rt tokenPrice), .str currency,
     remark.or (.str "Swap Request"), .str statusText, .str (formatDate rt createdAt)]

/-- The keys of a sheet row (lines 224-233). -/
def excelKeys : List String :=
  ["S.No", "User Name", "Package Name", "USDT Amount", "EMGT Amount", "Token Price",
   "Currency", "Remark", "Status", "Swap Date"]

/-- The body row of the PDF for the record `item` at index `i` (lines 182-193). -/
def pdfRow (rt : Runtime) (i : Nat) (item : JsVal) : Except JsError JsVal :=
  (exportCells rt i item).map JsVal.arr

/-- The sheet row for the record `item` at index `i` (lines 223-234). -/
def excelRow (rt : Runtime) (i : Nat) (item : JsVal) : Except JsError JsVal :=
  (exportCells rt i item).map fun cells => .obj (excelKeys.zip cells)

/-- The body rows written by `handleExportPDF` (lines 170-212). -/
def handleExportPDF (rt : Runtime) (data : List JsVal) : ExportResult JsVal :=
  exportRows (pdfRow rt) data

/-- The sheet rows written by `handleExportExcel` (lines 215-248). -/
def handleExportExcel (rt : Runtime) (data : List JsVal) : ExportResult JsVal :=
  exportRows (excelRow rt) data

end SwapManagementReport

namespace TransferManagementReport

/-- The eleven cells that the exports build for the record `item` at index `i`
(lines 196-210 and 242-256), in the order of the source; `amountSign` is the
"$" that the PDF puts before the amount and the sheet leaves out. -/
def exportCells (rt : Runtime) (amountSign : String) (i : Nat) (item : JsVal) :
    Except JsError (List JsVal) := do
  let user ← item.member "user"
  let username ← usernameWithEmailFallback item
  let stakeId ← item.member "stakeId"
  let amount ← item.member "amount"
  let fromWallet ← item.member "fromWallet"
  let fromText ← rt.capitalize fromWallet
  let toWallet ← item.member "toWallet"
  let toText ← rt.capitalize toWallet
  let currencyType ← item.member "currencyType"
  let currency ← rt.upperCaseOr "USDT" currencyType
  let status ← item.member "status"
  let statusText ← rt.capitalize (status.or (.str "completed"))
  let transactionDate ← item.member "transactionDate"
  let remark ← item.member "remark"
  pure
    [serialNumber i, (user.optMember "email").or (.str "N/A"), username,
     stakeId.or (.str "N/A"), .str (amountSign ++ rt.fixedAmount amount),
     (JsVal.str fromText).or (.str "Deposit"), (JsVal.str toText).or (.str "Principal"),
     .str currency, .str statusText,
     .str (if transactionDate.truthy then rt.localeString transactionDate else "N/A"),
     remark.or (.str "Transferred")]

/-- The keys of a sheet row (lines 242-256). -/
def excelKeys : List String :=
  ["S.No", "User Email", "Username", "Stake ID", "Amount (USDT)", "From Wallet",
   "To Wallet", "Currency", "Status", "Transfer Date", "Remark"]

/-- The body row of the PDF for the record `item` at index `i` (lines 195-211). -/
def pdfRow (rt : Runtime) (i : Nat) (item : JsVal) : Except JsError JsVal :=
  (exportCells rt "$" i item).map JsVal.arr

/-- The sheet row for the record `item` at index `i` (lines 241-257). -/
def excelRow (rt : Runtime) (i : Nat) (item : JsVal) : Except JsError JsVal :=
  (exportCells rt "" i item).map fun cells => .obj (excelKeys.zip cells)

/-- The body rows written by `handleExportPDF` (lines 183-230). -/
def handleExportPDF (rt : Runtime) (data : List JsVal) : ExportResult JsVal :=
  exportRows (pdfRow rt) data

/-- The sheet rows written by `handleExportExcel` (lines 233-271). -/
def handleExportExcel (rt : Runtime) (data : List JsVal) : ExportResult JsVal :=
  exportRows (excelRow rt) data

end TransferManagementReport

namespace ReinvestManagementReport

/-- The Status text of the exports (lines 175 and 218) with the case conversion
of the runtime; `exportStatus` is this function for ASCII letters. -/
def exportStatusText (rt : Runtime) (status : JsVal) : Except JsError String := do
  let text ← (status.or (.str "completed")).receiver "charAt"
  pure (rt.upperFirstText text)

/-- The ten cells that the exports build for the record `item` at index `i`
(lines 168-177 and 211-222), in the order of the source; `amountSign` is the
"$" that the PDF puts before the amount and the sheet leaves out. -/
def exportCells (rt : Runtime) (amountSign : String) (i : Nat) (item : JsVal) :
    Except JsError (List JsVal) := do
  let user ← item.member "user"
  let oldStakeId ← item.member "oldStakeId"
  let newStakeId ← item.member "newStakeId"
  let amount ← item.member "amount"
  let lockingPeriodDays ← item.member "lockingPeriodDays"
  let status ← item.member "status"
  let statusText ← exportStatusText rt status
  let transactionDate ← item.member "transactionDate"
  let remark ← item.member "remark"
  pure
    [serialNumber i, (user.optMember "email").or (.str "N/A"),
     (user.optMember "username").or (.str "Unknown"), oldStakeId.or (.str "N/A"),
     newStakeId.or (.str "N/A"), .str (amountSign ++ rt.fixedAmount amount),
     lockingPeriodDays.or (.str "N/A"), .str statusText,
     .str (rt.localeString transactionDate), remark.or (.str "Reinvested")]

/-- The keys of a sheet row (lines 211-222). -/
def excelKeys : List String :=
  ["S.No", "User Email", "Username", "Old Stake ID", "New Stake ID",
   "Reinvested Amount (USDT)", "Locking Period (Days)", "Status", "Reinvestment Date",
   "Remark"]

/-- The body row of the PDF for the record `item` at index `i` (lines 167-178). -/
def pdfRow (rt : Runtime) (i : Nat) (item : JsVal) : Except JsError JsVal :=
  (exportCells rt "$" i item).map JsVal.arr

/-- The sheet row for the record `item` at index `i` (lines 210-223). -/
def excelRow (rt : Runtime) (i : Nat) (item : JsVal) : Except JsError JsVal :=
  (exportCells rt "" i item).map fun cells => .obj (excelKeys.zip cells)

/-- The body rows written by `handleExportPDF` (lines 154-198). -/
def handleExportPDF (rt : Runtime) (data : List JsVal) : ExportResult JsVal :=
  exportRows (pdfRow rt) data

/-- The sheet rows written by `handleExportExcel` (lines 201-238). -/
def handleExportExcel (rt : Runtime) (data : List JsVal) : ExportResult JsVal :=
  exportRows (excelRow rt) data

end ReinvestManagementReport

/-- A value that a text cell accepts: a string, or a falsy value, which the cell
replaces by its default. -/
def JsVal.textOrEmpty (v : JsVal) : Bool :=
  !v.truthy ||
    match v with
    | .str _ => true
    | _ => false

/-- A swap that the exports can render: an object whose `currencyType` and
`status` are each a text or empty. -/
def SwapManagementReport.exportable (item : JsVal) : Bool :=
  !item.isNullish && (item.getProp "currencyType").textOrEmpty
    && (item.getProp "status").textOrEmpty

/-- A record whose Username cell with the email fallback can be built: the user
has a username, no email, or a text as email. -/
def userRenders (item : JsVal) : Bool :=
  ((item.getProp "user").optMember "username").truthy
    || ((item.getProp "user").optMember "email").isNullish
    || match (item.getProp "user").optMember "email" with
       | .str _ => true
       | _ => false

/-- A transfer that the exports can render: an object whose `fromWallet`,
`toWallet`, `currencyType` and `status` are each a text or empty, and whose user
has a username, no email, or a text as email. -/
def TransferManagementReport.exportable (item : JsVal) : Bool :=
  !item.isNullish && userRenders item
    && (item.getProp "fromWallet").textOrEmpty && (item.getProp "toWallet").textOrEmpty
    && (item.getProp "currencyType").textOrEmpty && (item.getProp "status").textOrEmpty

/-- A reinvestment that the exports can render: an object whose `status` is a
text or empty. -/
def ReinvestManagementReport.exportable (item : JsVal) : Bool :=
  !item.isNullish && (item.getProp "status").textOrEmpty

/-- What it means that an export writes all loaded records: for no records, or
when a record cannot be rendered, nothing is written; otherwise there is one row
per record, the row at each position being the one built from the record at
that position. -/
def WritesAllRecords (result : ExportResult JsVal) (row : Nat → JsVal → Except JsError JsVal)
    (exportable : JsVal → Bool) (data : List JsVal) : Prop :=
  (data = [] → result = .noData)
    ∧ (data ≠ [] → (∃ item ∈ data, exportable item = false) → ∃ e, result = .failed e)
    ∧ (data ≠ [] → (∀ item ∈ data, exportable item = true) →
        ∃ rows, result = .saved rows ∧ rows.length = data.length
          ∧ ∀ i (h : i < data.length), ∃ r, rows[i]? = some r ∧ row i data[i] = .ok r)

/-- A runtime for sample data: ASCII case conversions, no numeric strings, and
fixed texts for dates. -/
def sampleRuntime : Runtime :=
  { upperCase := toUpperCase
    lowerCase := toLowerCase
    parseNum := sampleParse
    fmt := sampleFmt
    dateTime := fun _ => "date"
    localeString := fun _ => "date" }

/-- A reinvestment whose status is the number 5. -/
def sampleNumericStatus : JsVal := .obj [("status", .num 5)]

/-! ## Dashboard: the Retopup / Reinvest button (`User/Pages/Dashboard.jsx`) -/

namespace Dashboard

/-- The value of `s.replace("X", "")`: the first "X" is removed. -/
def removeFirstX (s : String) : String := ⟨s.data.erase 'X'⟩

/-- The variable `parsedEarningTimes` (lines 293-295). `parseFloat` is the
function of the runtime, with `none` when it answers `NaN` or an infinity; a
value that is not a string is converted to a string first. -/
def parsedEarningTimes (parseFloat : String → Option Rat) (fmt : Rat → String)
    (earningTimes : JsVal) : Option Rat :=
  match earningTimes with
  | .str s => parseFloat (removeFirstX s)
  | other => parseFloat (other.toStr fmt)

/-- The number that the literal `1.98` denotes: the double nearest to 1.98, which
lies below it. -/
def literal198 : Rat := nearestDouble (198 / 100)

/-- The variable `shouldShowButton` (lines 296-297), which guards the Retopup /
Reinvest button (line 319). The bounds are the numbers of the literals `1.98`
and `2.00`. -/
def shouldShowButton (parseFloat : String → Option Rat) (fmt : Rat → String)
    (earningTimes : JsVal) : Bool :=
  earningTimes.strictEqStr "2.00X" ||
    match parsedEarningTimes parseFloat fmt earningTimes with
    | some q => decide (literal198 ≤ q) && decide (q ≤ 2)
    | none => false

/-- The `earningTimes` built by the loader (line 170):
`data.data.profitTracker?.earningTimes || "0X"`. -/
def loadedEarningTimes (profitTracker : JsVal) : JsVal :=
  (profitTracker.optMember "earningTimes").or (.str "0X")

end Dashboard

/-- A `parseFloat` for sample data that knows the texts "0", "1.97", "1.98",
"1.99", "2.00" and "2.5": each is read as the double nearest to it. -/
def sampleParseFloat (s : String) : Option Rat :=
  if s = "0" then some 0
  else if s = "1.97" then some (nearestDouble (197 / 100))
  else if s = "1.98" then some (nearestDouble (198 / 100))
  else if s = "1.99" then some (nearestDouble (199 / 100))
  else if s = "2.00" then some 2
  else if s = "2.5" then some (5 / 2)
  else none

/-! ## Global filters in the words of the reports -/

/-- The searched text of a field read as it is (a name, a wallet, a status):
its lower-cased text when the value is not empty. -/
def textOf (lowerCase : String → String) (fmt : Rat → String) (v : JsVal) : List String :=
  if v.truthy then [lowerCase (v.toStr fmt)] else []

/-- The searched text of a field read through `?.toString()` (an amount or a
price): the lower-cased text of the value when it is present and its text is not
empty. -/
def amountTextOf (lowerCase : String → String) (fmt : Rat → String) (v : JsVal) :
    List String :=
  if v.isNullish then []
  else if v.toStr fmt = "" then []
  else [lowerCase (v.toStr fmt)]

/-- The lower-cased texts of the non-empty values among `userName`, `packageName`,
`usdtAmount`, `emgtAmount`, `tokenPrice`, `currencyType`, `remark` and `status`. -/
def SwapManagementReport.searchedTexts (lowerCase : String → String) (fmt : Rat → String)
    (item : JsVal) : List String :=
  textOf lowerCase fmt (item.getProp "userName")
    ++ textOf lowerCase fmt (item.getProp "packageName")
    ++ amountTextOf lowerCase fmt (item.getProp "usdtAmount")
    ++ amountTextOf lowerCase fmt (item.getProp "emgtAmount")
    ++ amountTextOf lowerCase fmt (item.getProp "tokenPrice")
    ++ textOf lowerCase fmt (item.getProp "currencyType")
    ++ textOf lowerCase fmt (item.getProp "remark")
    ++ textOf lowerCase fmt (item.getProp "status")

/-- The lower-cased texts of the non-empty values among `user.email`,
`user.username`, `stakeId`, `amount`, `fromWallet`, `toWallet`, `status` and
`remark`; a row without a `user` has neither of the first two. -/
def TransferManagementReport.searchedTexts (lowerCase : String → String)
    (fmt : Rat → String) (item : JsVal) : List String :=
  textOf lowerCase fmt ((item.getProp "user").optMember "email")
    ++ textOf lowerCase fmt ((item.getProp "user").optMember "username")
    ++ textOf lowerCase fmt (item.getProp "stakeId")
    ++ amountTextOf lowerCase fmt (item.getProp "amount")
    ++ textOf lowerCase fmt (item.getProp "fromWallet")
    ++ textOf lowerCase fmt (item.getProp "toWallet")
    ++ textOf lowerCase fmt (item.getProp "status")
    ++ textOf lowerCase fmt (item.getProp "remark")

/-- A lower-casing for sample data: the ASCII letters and the letter "É". -/
def sampleLowerCase (s : String) : String :=
  ⟨s.data.map fun c => if c = 'É' then 'é' else c.toLower⟩

/-- A swap whose user name has a letter outside ASCII. -/
def sampleSwapJose : JsVal :=
  .obj [("userName", .str "JOSÉ"), ("status", .str "completed")]

/-- A value with its text rewritten by `f` when it is a string. -/
def JsVal.recase (f : String → String) : JsVal → JsVal
  | .str s => .str (f s)
  | v => v

/-- A field value with its text rewritten by `f`: a string directly, an object
such as `user` in each of its string fields. -/
def JsVal.recaseField (f : String → String) : JsVal → JsVal
  | .str s => .str (f s)
  | .obj inner => .obj (inner.map fun r => (r.1, r.2.recase f))
  | v => v

/-- A row with the letter case of its string fields, and of the string fields
of its nested objects such as `user`, rewritten by `f`. -/
def JsVal.recaseRow (f : String → String) : JsVal → JsVal
  | .obj fs => .obj (fs.map fun p => (p.1, p.2.recaseField f))
  | v => v

/-- A transfer without a `user` object. -/
def sampleTransferNoUser : JsVal :=
  .obj [("stakeId", .str "STK-9"), ("fromWallet", .str "Deposit"), ("status", .str "Completed")]

/-! ## Investment report: action buttons and status filter -/

namespace InvestmentReport

/-- A button is enabled when the value of its `disabled` prop is falsy. -/
def enabledWhen (disabledProp : JsVal) : Bool := !disabledProp.truthy

/-- The variable `disable` of the Swap cell (lines 191-195). -/
def swapDisable (s : Row) : JsVal :=
  ((s.isSwapped.or s.isTransferred).or s.isReinvested).or (.bool (s.status == "Complete"))

/-- The variable `enable` of the Swap cell (line 197). -/
def swapEnable (s : Row) : Bool := s.status == "Locked" || s.status == "Claim"

/-- The `disabled` prop of the Swap button (line 204): `!enable || disable`. -/
def swapDisabledProp (s : Row) : JsVal := (JsVal.bool (!swapEnable s)).or (swapDisable s)

/-- The `disabled` prop of the Transfer button (lines 217-221 and 228). -/
def transferDisabledProp (s : Row) : JsVal :=
  ((s.isTransferred.or s.isSwapped).or s.isReinvested).or (.bool (s.status != "Claim"))

/-- The `disabled` prop of the Reinvest button (lines 241-245 and 252). -/
def reinvestDisabledProp (s : Row) : JsVal :=
  ((s.isTransferred.or s.isSwapped).or s.isReinvested).or (.bool (s.status != "Claim"))

/-- Whether the Swap button of the row is enabled. -/
def swapEnabled (s : Row) : Bool := enabledWhen (swapDisabledProp s)

/-- Whether the Transfer button of the row is enabled. -/
def transferEnabled (s : Row) : Bool := enabledWhen (transferDisabledProp s)

/-- Whether the Reinvest button of the row is enabled. -/
def reinvestEnabled (s : Row) : Bool := enabledWhen (reinvestDisabledProp s)

/-- None of the flags `isSwapped`, `isTransferred`, `isReinvested` of the row is
set. -/
def flagsClear (s : Row) : Bool :=
  !s.isSwapped.truthy && !s.isTransferred.truthy && !s.isReinvested.truthy

/-- The memo `filteredData` (lines 143-147). -/
def filteredData (stakedPlans : List Row) (statusFilter : String) : List Row :=
  if statusFilter != "" then stakedPlans.filter fun row => row.status == statusFilter
  else stakedPlans

/-- The status values offered by the dropdown besides "All Status" (lines
311-313). -/
def statusOptions : List String := ["Locked", "Claim", "Complete"]

end InvestmentReport

/-- A staked plan that has been swapped. -/
def sampleSwappedPlan : JsVal :=
  .obj [("stakeId", .str "STK-2"), ("isSwapped", .bool true), ("status", .str "active")]

/-- The row built from `sampleSwappedPlan`. -/
def sampleSwappedRow : InvestmentReport.Row :=
  { stakeId := .str "STK-2", planName := .undefined, amount := .undefined,
    dailyReturn := .undefined, startDate := "", endDate := "", status := "Swapped / Locked",
    isSwapped := .bool true, isTransferred := .undefined, isReinvested := .undefined,
    isActive := .undefined }

/-- A row whose status is "Claim" and whose flags are not set. -/
def sampleClaimRow : InvestmentReport.Row :=
  { stakeId := .str "STK-1", planName := .str "Gold", amount := .num 100,
    dailyReturn := .num 1, startDate := "", endDate := "", status := "Claim",
    isSwapped := .bool false, isTransferred := .undefined, isReinvested := .bool false,
    isActive := .bool true }

/-! ## Theorems -/

/-! ### Numbers -/

theorem JsNum.ofReal_zero : JsNum.ofReal 0 = .finite 0 := by decide!

theorem toFixed2_zero (fmt : Rat → String) : toFixed2 fmt 0 = "0.00" := by
  norm_num [toFixed2, hundredths]
  rfl

/-! ### Dashboard authentication failures -/

/-- C1 (counterexample): with no auth token in local or session storage the
dashboard loader throws the error "No authentication token found. Please log
in." and the error handler navigates nowhere, so the page is not redirected to
the login route. -/
theorem dashboard_missing_token_counterexample :
    Dashboard.queryFn none none (fun _ => .ok ⟨200, .ok (.obj [])⟩) (fun data => .ok data)
        = .error (.error "No authentication token found. Please log in.")
      ∧ Dashboard.redirectAfterLoad
          (Dashboard.queryFn none none (fun _ => .ok ⟨200, .ok (.obj [])⟩)
            (fun data => .ok data)) = none := by
  constructor
  · rfl
  · simp only [Dashboard.queryFn, storedToken, Dashboard.redirectAfterLoad,
      Dashboard.onError, JsError.message]
    decide

/-- C1 (amended): every failure of the dashboard loader caused by an invalid auth
token (HTTP 401) redirects the page to the login route "/user/login"; when no
auth token is stored the loader fails with the error "No authentication token
found. Please log in." before any request is made. -/
theorem dashboard_auth_failures {α : Type} (localItem sessionItem : Option String)
    (fetch : String → Except JsError FetchResponse) (build : JsVal → Except JsError α) :
    (∀ (token : String) (json : Except JsError JsVal),
        storedToken localItem sessionItem = some token → token ≠ "" →
        fetch token = .ok ⟨401, json⟩ →
        Dashboard.queryFn localItem sessionItem fetch build
            = .error (.error "Invalid token. Please log in again.")
          ∧ Dashboard.redirectAfterLoad (Dashboard.queryFn localItem sessionItem fetch build)
            = some "/user/login")
    ∧ (storedToken localItem sessionItem = none ∨ storedToken localItem sessionItem = some "" →
        Dashboard.queryFn localItem sessionItem fetch build
            = .error (.error "No authentication token found. Please log in.")) := by
  constructor
  · intro token json htok hne hresp
    have h1 : (token == "") = false := by simpa using hne
    have hq : Dashboard.queryFn localItem sessionItem fetch build
        = .error (.error "Invalid token. Please log in again.") := by
      simp [Dashboard.queryFn, htok, h1, hresp, FetchResponse.ok]
    refine ⟨hq, ?_⟩
    rw [hq]
    simp only [Dashboard.redirectAfterLoad, Dashboard.onError, JsError.message]
    decide
  · intro h
    rcases h with h | h <;> simp [Dashboard.queryFn, h]

/-- Witness of C1 (amended): a stored token answered with status 401 redirects to
the login route, and with an empty storage the loader fails with the missing
token error. -/
theorem dashboard_auth_failures_witness :
    Dashboard.redirectAfterLoad
        (Dashboard.queryFn (some "stale") none (fun _ => .ok ⟨401, .ok .null⟩)
          (fun data => .ok data)) = some "/user/login"
      ∧ Dashboard.queryFn none none (fun _ => .ok ⟨401, .ok .null⟩) (fun data => .ok data)
        = .error (.error "No authentication token found. Please log in.") :=
  ⟨((dashboard_auth_failures (some "stale") none (fun _ => .ok ⟨401, .ok .null⟩)
      (fun data => .ok data)).1 "stale" (.ok .null) rfl (by decide) rfl).2,
   (dashboard_auth_failures none none (fun _ => .ok ⟨401, .ok .null⟩)
      (fun data => .ok data)).2 (Or.inl rfl)⟩

/-! ### Response shapes -/

theorem JsVal.member_of_isArray (v : JsVal) (k : String)
    (h : (v.optMember k).isArray = true) : v.member k = .ok (v.optMember k) := by
  unfold JsVal.optMember at h ⊢
  unfold JsVal.member
  cases hn : v.isNullish
  · simp
  · simp [hn, JsVal.isArray] at h

theorem JsVal.member_of_chain_isArray (v : JsVal) (k k2 : String)
    (h : ((v.optMember k).optMember k2).isArray = true) :
    v.member k = .ok (v.optMember k) := by
  cases v <;>
    first
    | rfl
    | simp [JsVal.optMember, JsVal.isNullish, JsVal.isArray, JsVal.getProp] at h

theorem JsVal.member_of_truthy (v : JsVal) (k : String)
    (h : (v.optMember k).truthy = true) : v.member k = .ok (v.optMember k) := by
  cases v <;>
    first
    | rfl
    | simp [JsVal.optMember, JsVal.isNullish, JsVal.truthy] at h

theorem JsVal.member_of_chain_truthy (v : JsVal) (k k2 : String)
    (h : ((v.optMember k).optMember k2).truthy = true) :
    v.member k = .ok (v.optMember k) := by
  cases v <;>
    first
    | rfl
    | simp [JsVal.optMember, JsVal.isNullish, JsVal.truthy, JsVal.getProp] at h

theorem JsVal.isArray_iff (v : JsVal) : v.isArray = true ↔ ∃ xs, v = .arr xs := by
  cases v <;> simp [JsVal.isArray]

theorem JsVal.truthy_of_isArray (v : JsVal) (h : v.isArray = true) : v.truthy = true := by
  cases v <;> simp_all [JsVal.isArray, JsVal.truthy]

/-- C3: for every response value `res` the reinvest loader returns normally, and
what it returns is the first array among `res.data`, `res.data.data`,
`res.data.reinvestments`, `res.reinvestments`, `res`, or the empty list when
none of them is an array. -/
theorem reinvest_queryFn_first_array (res : JsVal) :
    (ReinvestManagementReport.queryFn (.ok res)).result
      = .ok (((ReinvestManagementReport.candidates res).find? JsVal.isArray).getD (.arr [])) := by
  simp only [ReinvestManagementReport.queryFn, ReinvestManagementReport.candidates]
  by_cases h1 : (res.optMember "data").isArray = true
  · simp [h1, JsVal.member_of_isArray _ _ h1, ReinvestManagementReport.parsed]
  by_cases h2 : ((res.optMember "data").optMember "data").isArray = true
  · have hd := JsVal.member_of_chain_isArray _ _ _ h2
    simp [h1, h2, hd, JsVal.member_of_isArray _ _ h2, ReinvestManagementReport.parsed,
      bind, Except.bind]
  by_cases h3 : ((res.optMember "data").optMember "reinvestments").isArray = true
  · have hd := JsVal.member_of_chain_isArray _ _ _ h3
    simp [h1, h2, h3, hd, JsVal.member_of_isArray _ _ h3, ReinvestManagementReport.parsed,
      bind, Except.bind]
  by_cases h4 : (res.optMember "reinvestments").isArray = true
  · simp [h1, h2, h3, h4, JsVal.member_of_isArray _ _ h4, ReinvestManagementReport.parsed]
  by_cases h5 : res.isArray = true
  · simp [h1, h2, h3, h4, h5, ReinvestManagementReport.parsed]
  · simp [h1, h2, h3, h4, h5]

/-- A chain `a || b || ... || z` evaluates to its first truthy operand, and to
the last operand when none of the earlier ones is truthy. -/
theorem JsVal.or_chain (z : JsVal) (vs : List JsVal) :
    vs.foldr (fun v rest => if v.truthy then v else rest) z
      = (vs.find? JsVal.truthy).getD z := by
  induction vs with
  | nil => rfl
  | cons v vs ih =>
    by_cases hv : v.truthy = true
    · simp [List.find?, hv]
    · simp [List.find?, hv, ih]

theorem JsVal.or_assoc (a b c : JsVal) : (a.or b).or c = a.or (b.or c) := by
  unfold JsVal.or
  by_cases ha : a.truthy = true
  · simp [ha]
  · simp [ha]

theorem TransferManagementReport.transfersOf_eq (res : JsVal) :
    TransferManagementReport.transfersOf res
      = ((TransferManagementReport.candidates res).find? JsVal.truthy).getD (.arr []) := by
  rw [← JsVal.or_chain]
  simp only [TransferManagementReport.transfersOf, TransferManagementReport.candidates,
    JsVal.or_assoc]
  rfl

/-- The value returned by the transfer loader in terms of the first truthy
candidate. -/
theorem TransferManagementReport.result_eq (res : JsVal) :
    (TransferManagementReport.queryFn (.ok res)).result
      = .ok (match (TransferManagementReport.candidates res).find? JsVal.truthy with
             | some v => if v.isArray then v else .arr []
             | none => .arr []) := by
  simp only [TransferManagementReport.queryFn, TransferManagementReport.transfersOf_eq]
  cases (TransferManagementReport.candidates res).find? JsVal.truthy with
  | none => simp [JsVal.isArray]
  | some v =>
    by_cases hv : v.isArray = true
    · simp [hv]
    · simp [hv]

/-- C4: for every response value `res` the data extraction of the transfer loader
returns normally and returns an array: the first truthy value among
`res.data.data.transfers`, `res.data.transfers`, `res.data.data`, `res.data`, `res`
when that value is an array, and the empty list otherwise; for `null` and
`undefined` it is the empty list. -/
theorem transfer_queryFn_first_truthy (res : JsVal) :
    (TransferManagementReport.queryFn (.ok res)).result
        = .ok (match (TransferManagementReport.candidates res).find? JsVal.truthy with
               | some v => if v.isArray then v else .arr []
               | none => .arr [])
      ∧ (∃ xs, (TransferManagementReport.queryFn (.ok res)).result = .ok (.arr xs))
      ∧ (TransferManagementReport.queryFn (.ok .null)).result = .ok (.arr [])
      ∧ (TransferManagementReport.queryFn (.ok .undefined)).result = .ok (.arr []) := by
  refine ⟨TransferManagementReport.result_eq res, ?_, rfl, rfl⟩
  rw [TransferManagementReport.result_eq]
  cases hf : (TransferManagementReport.candidates res).find? JsVal.truthy with
  | none => exact ⟨[], rfl⟩
  | some v =>
    by_cases hv : v.isArray = true
    · obtain ⟨xs, rfl⟩ := (JsVal.isArray_iff v).1 hv
      exact ⟨xs, by simp [JsVal.isArray]⟩
    · exact ⟨[], by simp [hv]⟩

/-! ### Fallback to the empty list -/

/-- C2 (counterexample): on the received response `{ data: {} }` the transfer
loader yields the empty list but emits no user-facing effect (only a console
warning), and on the received non-array body `{}` the analytics loader yields
the empty list with no effect and no error text at all. -/
theorem loaders_warning_counterexample :
    ((TransferManagementReport.queryFn (.ok (.obj [("data", .obj [])]))).result
        = .ok (.arr [])
      ∧ (TransferManagementReport.queryFn (.ok (.obj [("data", .obj [])]))).effects
        = [Effect.consoleWarn "Transfers data is not an array:"]
      ∧ (TransferManagementReport.queryFn
          (.ok (.obj [("data", .obj [])]))).effects.any Effect.userFacing = false)
    ∧ (Analytics.fetchAnalytics (.ok ⟨200, .ok (.obj [])⟩)).error = none := by
  refine ⟨⟨rfl, rfl, rfl⟩, rfl⟩

/-- C2 (amended): when the response is received and the payload a loader selects
is not an array, the reinvest, swap, transfer, analytics and balance-history
loaders all yield the empty list instead of failing. A toast is shown by the
reinvest loader and by the swap loader; the transfer loader only writes a
console warning, and the analytics and balance-history loaders emit nothing and
leave the error text empty. -/
theorem loaders_non_array_fallback :
    (∀ res : JsVal, (ReinvestManagementReport.candidates res).any JsVal.isArray = false →
        (ReinvestManagementReport.queryFn (.ok res)).result = .ok (.arr [])
        ∧ Effect.toastWarn "No reinvestment data found"
            ∈ (ReinvestManagementReport.queryFn (.ok res)).effects)
    ∧ (∀ res : JsVal, (SwapManagementReport.swapsOf res).isArray = false →
        (SwapManagementReport.queryFn (.ok res)).result = .ok (.arr [])
        ∧ Effect.toastInfo "No swap records found"
            ∈ (SwapManagementReport.queryFn (.ok res)).effects)
    ∧ (∀ res : JsVal, (TransferManagementReport.transfersOf res).isArray = false →
        (TransferManagementReport.queryFn (.ok res)).result = .ok (.arr [])
        ∧ (TransferManagementReport.queryFn (.ok res)).effects.any Effect.userFacing = false)
    ∧ (∀ (status : Nat) (body : JsVal), 200 ≤ status → status ≤ 299 → body.isArray = false →
        (Analytics.fetchAnalytics (.ok ⟨status, .ok body⟩)).data = .arr []
        ∧ (Analytics.fetchAnalytics (.ok ⟨status, .ok body⟩)).error = none)
    ∧ (∀ (status : Nat) (body : JsVal), 200 ≤ status → status ≤ 299 → body.isArray = false →
        (History.fetchBalanceHistory (.ok ⟨status, .ok body⟩)).data = .arr []
        ∧ (History.fetchBalanceHistory (.ok ⟨status, .ok body⟩)).error = none) := by
  refine ⟨?_, ?_, ?_, ?_, ?_⟩
  · intro res h
    simp only [ReinvestManagementReport.candidates, List.any_cons, List.any_nil,
      Bool.or_false, Bool.or_eq_false_iff] at h
    obtain ⟨h1, h2, h3, h4, h5⟩ := h
    simp [ReinvestManagementReport.queryFn, h1, h2, h3, h4, h5]
  · intro res h
    simp [SwapManagementReport.queryFn, h]
  · intro res h
    simp [TransferManagementReport.queryFn, h, Effect.userFacing]
  · intro status body h1 h2 hb
    simp [Analytics.fetchAnalytics, FetchResponse.ok, h1, h2, hb]
  · intro status body h1 h2 hb
    simp [History.fetchBalanceHistory, FetchResponse.ok, h1, h2, hb]

/-- Witness of C2 (amended) on the response `{ data: {} }` and the body `{}`. -/
theorem loaders_non_array_fallback_witness :
    ((ReinvestManagementReport.queryFn (.ok (.obj [("data", .obj [])]))).result
        = .ok (.arr [])
      ∧ Effect.toastWarn "No reinvestment data found"
          ∈ (ReinvestManagementReport.queryFn (.ok (.obj [("data", .obj [])]))).effects)
    ∧ ((SwapManagementReport.queryFn (.ok (.obj [("data", .obj [])]))).result
        = .ok (.arr [])
      ∧ Effect.toastInfo "No swap records found"
          ∈ (SwapManagementReport.queryFn (.ok (.obj [("data", .obj [])]))).effects)
    ∧ ((TransferManagementReport.queryFn (.ok (.obj [("data", .obj [])]))).result
        = .ok (.arr [])
      ∧ (TransferManagementReport.queryFn
          (.ok (.obj [("data", .obj [])]))).effects.any Effect.userFacing = false)
    ∧ ((Analytics.fetchAnalytics (.ok ⟨200, .ok (.obj [])⟩)).data = .arr []
      ∧ (Analytics.fetchAnalytics (.ok ⟨200, .ok (.obj [])⟩)).error = none)
    ∧ ((History.fetchBalanceHistory (.ok ⟨200, .ok (.obj [])⟩)).data = .arr []
      ∧ (History.fetchBalanceHistory (.ok ⟨200, .ok (.obj [])⟩)).error = none) :=
  ⟨loaders_non_array_fallback.1 _ rfl,
   loaders_non_array_fallback.2.1 _ rfl,
   loaders_non_array_fallback.2.2.1 _ rfl,
   loaders_non_array_fallback.2.2.2.1 200 _ (by decide) (by decide) rfl,
   loaders_non_array_fallback.2.2.2.2 200 _ (by decide) (by decide) rfl⟩

/-! ### Exports and the search text -/

theorem traverse_pure {α β : Type} (h : α → β) (l : List α) :
    traverse (fun x => Except.ok (h x)) l = .ok (l.map h) := by
  induction l with
  | nil => rfl
  | cons x xs ih => simp [traverse, ih]

theorem traverse_enumFrom_ok (row : Nat → JsVal → Except JsError JsVal) :
    ∀ (data : List JsVal) (n : Nat),
      (∀ i, ∀ item ∈ data, ∃ r, row i item = .ok r) →
      ∃ rows, traverse (fun p => row p.1 p.2) (data.enumFrom n) = .ok rows
        ∧ rows.length = data.length
        ∧ ∀ i (h : i < data.length), ∃ r, rows[i]? = some r ∧ row (n + i) data[i] = .ok r
  | [], _, _ => ⟨[], rfl, rfl, fun i h => absurd h (Nat.not_lt_zero i)⟩
  | x :: xs, n, hall => by
    obtain ⟨r, hr⟩ := hall n x (List.mem_cons_self x xs)
    obtain ⟨rows, hrows, hlen, hidx⟩ := traverse_enumFrom_ok row xs (n + 1)
      (fun i item hitem => hall i item (List.mem_cons_of_mem x hitem))
    refine ⟨r :: rows, ?_, by simp [hlen], ?_⟩
    · simp only [List.enumFrom_cons, traverse, hr, hrows]
    · intro i h
      cases i with
      | zero => exact ⟨r, by simp, by simpa using hr⟩
      | succ j =>
        have hj : j < xs.length := by simpa using h
        obtain ⟨r2, hr2, hrow2⟩ := hidx j hj
        refine ⟨r2, by simpa using hr2, ?_⟩
        have hn : n + (j + 1) = n + 1 + j := by omega
        rw [hn]
        simpa using hrow2

theorem traverse_enumFrom_error (row : Nat → JsVal → Except JsError JsVal) :
    ∀ (data : List JsVal) (n : Nat),
      (∃ item ∈ data, ∀ i, ∃ e, row i item = .error e) →
      ∃ e, traverse (fun p => row p.1 p.2) (data.enumFrom n) = .error e
  | [], _, h => by
    obtain ⟨item, hmem, _⟩ := h
    simp at hmem
  | x :: xs, n, h => by
    cases hx : row n x with
    | error e => exact ⟨e, by simp only [List.enumFrom_cons, traverse, hx]⟩
    | ok r =>
      obtain ⟨item, hmem, hbad⟩ := h
      have hrest : ∃ item ∈ xs, ∀ i, ∃ e, row i item = .error e := by
        rcases List.mem_cons.1 hmem with hitem | hitem
        · subst hitem
          obtain ⟨e, he⟩ := hbad n
          rw [hx] at he
          cases he
        · exact ⟨item, hitem, hbad⟩
      obtain ⟨e, he⟩ := traverse_enumFrom_error row xs (n + 1) hrest
      exact ⟨e, by simp only [List.enumFrom_cons, traverse, hx, he]⟩

theorem exportRows_writesAll (row : Nat → JsVal → Except JsError JsVal)
    (exportable : JsVal → Bool)
    (hok : ∀ i item, exportable item = true → ∃ r, row i item = .ok r)
    (herr : ∀ i item, exportable item = false → ∃ e, row i item = .error e)
    (data : List JsVal) :
    WritesAllRecords (exportRows row data) row exportable data := by
  refine ⟨?_, ?_, ?_⟩
  · intro h
    rw [h]
    rfl
  · intro hne hbad
    have hlen : data.length ≠ 0 := fun h => hne (List.length_eq_zero.mp h)
    obtain ⟨item, hmem, hitem⟩ := hbad
    obtain ⟨e, he⟩ := traverse_enumFrom_error row data 0
      ⟨item, hmem, fun i => herr i item hitem⟩
    refine ⟨e, ?_⟩
    simp only [exportRows, hlen, if_false, List.enum, he]
  · intro hne hall
    have hlen : data.length ≠ 0 := fun h => hne (List.length_eq_zero.mp h)
    obtain ⟨rows, hrows, hl, hidx⟩ := traverse_enumFrom_ok row data 0
      (fun i item hmem => hok i item (hall item hmem))
    refine ⟨rows, ?_, hl, ?_⟩
    · simp only [exportRows, hlen, if_false, List.enum, hrows]
    · intro i h
      obtain ⟨r, hr, hrow⟩ := hidx i h
      exact ⟨r, hr, by simpa using hrow⟩

theorem JsVal.textOrEmpty_cases (v : JsVal) (h : v.textOrEmpty = true) :
    v.truthy = false ∨ ∃ s, v = .str s := by
  cases v with
  | str s => exact Or.inr ⟨s, rfl⟩
  | undefined => exact Or.inl rfl
  | null => exact Or.inl rfl
  | bool b => simpa [JsVal.textOrEmpty] using h
  | num q => simpa [JsVal.textOrEmpty] using h
  | arr xs => simp [JsVal.textOrEmpty, JsVal.truthy] at h
  | obj fs => simp [JsVal.textOrEmpty, JsVal.truthy] at h

theorem JsVal.not_textOrEmpty_cases (v : JsVal) (h : v.textOrEmpty = false) :
    v.truthy = true ∧ ∀ method, ∃ e, v.receiver method = .error e := by
  cases v with
  | str s => simp [JsVal.textOrEmpty] at h
  | undefined => simp [JsVal.textOrEmpty, JsVal.truthy] at h
  | null => simp [JsVal.textOrEmpty, JsVal.truthy] at h
  | bool b =>
    refine ⟨by simpa [JsVal.textOrEmpty] using h, fun method => ⟨_, rfl⟩⟩
  | num q =>
    refine ⟨by simpa [JsVal.textOrEmpty] using h, fun method => ⟨_, rfl⟩⟩
  | arr xs => exact ⟨rfl, fun method => ⟨_, rfl⟩⟩
  | obj fs => exact ⟨rfl, fun method => ⟨_, rfl⟩⟩

theorem Runtime.upperCaseOr_ok (rt : Runtime) (fallback : String) (v : JsVal)
    (h : v.textOrEmpty = true) : ∃ t, rt.upperCaseOr fallback v = .ok t := by
  rcases JsVal.textOrEmpty_cases v h with hf | ⟨s, rfl⟩
  · exact ⟨rt.upperCase fallback, by simp [Runtime.upperCaseOr, JsVal.or, hf, JsVal.receiver,
      bind, Except.bind, pure, Except.pure]⟩
  · by_cases hs : (JsVal.str s).truthy = true
    · exact ⟨rt.upperCase s, by simp [Runtime.upperCaseOr, JsVal.or, hs, JsVal.receiver, bind,
        Except.bind, pure, Except.pure]⟩
    · exact ⟨rt.upperCase fallback, by simp [Runtime.upperCaseOr, JsVal.or, hs,
        JsVal.receiver, bind, Except.bind, pure, Except.pure]⟩

theorem Runtime.upperCaseOr_error (rt : Runtime) (fallback : String) (v : JsVal)
    (h : v.textOrEmpty = false) : ∃ e, rt.upperCaseOr fallback v = .error e := by
  obtain ⟨ht, hr⟩ := JsVal.not_textOrEmpty_cases v h
  obtain ⟨e, he⟩ := hr "toUpperCase"
  exact ⟨e, by simp [Runtime.upperCaseOr, JsVal.or, ht, he, bind, Except.bind]⟩

theorem Runtime.capitalize_or_ok (rt : Runtime) (fallback : String) (v : JsVal)
    (h : v.textOrEmpty = true) : ∃ t, rt.capitalize (v.or (.str fallback)) = .ok t := by
  have key : ∀ s : String, ∃ t, rt.capitalize (.str s) = .ok t := by
    intro s
    by_cases hs : (JsVal.str s).truthy = true
    · exact ⟨rt.capitalizeText s, by simp [Runtime.capitalize, hs, JsVal.receiver, bind,
        Except.bind, pure, Except.pure]⟩
    · exact ⟨"N/A", by simp [Runtime.capitalize, hs]⟩
  rcases JsVal.textOrEmpty_cases v h with hf | ⟨s, rfl⟩
  · simp only [JsVal.or, hf, Bool.false_eq_true, if_false]
    exact key fallback
  · by_cases hs : (JsVal.str s).truthy = true
    · simp only [JsVal.or, hs, if_true]
      exact key s
    · simp only [JsVal.or, hs, if_false]
      exact key fallback

theorem Runtime.capitalize_plain_ok (rt : Runtime) (v : JsVal) (h : v.textOrEmpty = true) :
    ∃ t, rt.capitalize v = .ok t := by
  rcases JsVal.textOrEmpty_cases v h with hf | ⟨s, rfl⟩
  · exact ⟨"N/A", by simp [Runtime.capitalize, hf]⟩
  · by_cases hs : (JsVal.str s).truthy = true
    · exact ⟨rt.capitalizeText s, by simp [Runtime.capitalize, hs, JsVal.receiver, bind,
        Except.bind, pure, Except.pure]⟩
    · exact ⟨"N/A", by simp [Runtime.capitalize, hs]⟩

theorem Runtime.capitalize_error (rt : Runtime) (v : JsVal) (h : v.textOrEmpty = false) :
    ∃ e, rt.capitalize v = .error e := by
  obtain ⟨ht, hr⟩ := JsVal.not_textOrEmpty_cases v h
  obtain ⟨e, he⟩ := hr "charAt"
  exact ⟨e, by simp [Runtime.capitalize, ht, he, bind, Except.bind]⟩

theorem Runtime.capitalize_or_error (rt : Runtime) (fallback : String) (v : JsVal)
    (h : v.textOrEmpty = false) : ∃ e, rt.capitalize (v.or (.str fallback)) = .error e := by
  have ht := (JsVal.not_textOrEmpty_cases v h).1
  simp only [JsVal.or, ht, if_true]
  exact Runtime.capitalize_error rt v h

theorem Except.map_ok_of_ok {α β : Type} (f : α → β) (x : Except JsError α)
    (h : ∃ a, x = .ok a) : ∃ b, x.map f = .ok b := by
  obtain ⟨a, rfl⟩ := h
  exact ⟨f a, rfl⟩

theorem Except.map_error_of_error {α β : Type} (f : α → β) (x : Except JsError α)
    (h : ∃ e, x = .error e) : ∃ e, x.map f = .error e := by
  obtain ⟨e, rfl⟩ := h
  exact ⟨e, rfl⟩

theorem JsVal.member_error_of_isNullish (v : JsVal) (key : String)
    (h : v.isNullish = true) : ∃ e, v.member key = .error e :=
  ⟨.typeError ("Cannot read properties of a nullish value: " ++ key), by
    simp [JsVal.member, h]⟩

theorem SwapManagementReport.swapCells_ok (rt : Runtime) (i : Nat) (item : JsVal)
    (h : SwapManagementReport.exportable item = true) :
    ∃ cells, SwapManagementReport.exportCells rt i item = .ok cells := by
  simp only [SwapManagementReport.exportable, Bool.and_eq_true, Bool.not_eq_true'] at h
  obtain ⟨⟨hn, hc⟩, hs⟩ := h
  obtain ⟨c, hc2⟩ := rt.upperCaseOr_ok "USDT" _ hc
  obtain ⟨t, ht2⟩ := rt.capitalize_or_ok "pending" _ hs
  cases hres : SwapManagementReport.exportCells rt i item with
  | ok cells => exact ⟨cells, rfl⟩
  | error e =>
    simp [SwapManagementReport.exportCells, JsVal.member, hn, bind, Except.bind, hc2, ht2,
      pure, Except.pure] at hres

theorem SwapManagementReport.swapCells_error (rt : Runtime) (i : Nat) (item : JsVal)
    (h : SwapManagementReport.exportable item = false) :
    ∃ e, SwapManagementReport.exportCells rt i item = .error e := by
  cases hres : SwapManagementReport.exportCells rt i item with
  | error e => exact ⟨e, rfl⟩
  | ok cells =>
    exfalso
    by_cases hn : item.isNullish = true
    · simp [SwapManagementReport.exportCells, JsVal.member, hn, bind, Except.bind] at hres
    · have hn2 : item.isNullish = false := by simpa using hn
      by_cases hc : (item.getProp "currencyType").textOrEmpty = true
      · have hs : (item.getProp "status").textOrEmpty = false := by
          simpa [SwapManagementReport.exportable, hn2, hc] using h
        obtain ⟨c, hc2⟩ := rt.upperCaseOr_ok "USDT" _ hc
        obtain ⟨e, he⟩ := rt.capitalize_or_error "pending" _ hs
        simp [SwapManagementReport.exportCells, JsVal.member, hn2, bind, Except.bind, hc2, he]
          at hres
      · have hc3 : (item.getProp "currencyType").textOrEmpty = false := by simpa using hc
        obtain ⟨e, he⟩ := rt.upperCaseOr_error "USDT" _ hc3
        simp [SwapManagementReport.exportCells, JsVal.member, hn2, bind, Except.bind, he]
          at hres

theorem ReinvestManagementReport.exportStatusText_ok (rt : Runtime) (v : JsVal)
    (h : v.textOrEmpty = true) : ∃ t, ReinvestManagementReport.exportStatusText rt v = .ok t := by
  rcases JsVal.textOrEmpty_cases v h with hf | ⟨s, rfl⟩
  · exact ⟨rt.upperFirstText "completed", by
      simp [ReinvestManagementReport.exportStatusText, JsVal.or, hf, JsVal.receiver, bind,
        Except.bind, pure, Except.pure]⟩
  · by_cases hs : (JsVal.str s).truthy = true
    · exact ⟨rt.upperFirstText s, by
        simp [ReinvestManagementReport.exportStatusText, JsVal.or, hs, JsVal.receiver, bind,
          Except.bind, pure, Except.pure]⟩
    · exact ⟨rt.upperFirstText "completed", by
        simp [ReinvestManagementReport.exportStatusText, JsVal.or, hs, JsVal.receiver, bind,
          Except.bind, pure, Except.pure]⟩

theorem ReinvestManagementReport.exportStatusText_error (rt : Runtime) (v : JsVal)
    (h : v.textOrEmpty = false) :
    ∃ e, ReinvestManagementReport.exportStatusText rt v = .error e := by
  obtain ⟨ht, hr⟩ := JsVal.not_textOrEmpty_cases v h
  obtain ⟨e, he⟩ := hr "charAt"
  exact ⟨e, by
    simp [ReinvestManagementReport.exportStatusText, JsVal.or, ht, he, bind, Except.bind]⟩

theorem ReinvestManagementReport.reinvestCells_ok (rt : Runtime) (sign : String) (i : Nat)
    (item : JsVal) (h : ReinvestManagementReport.exportable item = true) :
    ∃ cells, ReinvestManagementReport.exportCells rt sign i item = .ok cells := by
  simp only [ReinvestManagementReport.exportable, Bool.and_eq_true, Bool.not_eq_true'] at h
  obtain ⟨hn, hs⟩ := h
  obtain ⟨t, ht2⟩ := ReinvestManagementReport.exportStatusText_ok rt _ hs
  cases hres : ReinvestManagementReport.exportCells rt sign i item with
  | ok cells => exact ⟨cells, rfl⟩
  | error e =>
    simp [ReinvestManagementReport.exportCells, JsVal.member, hn, bind, Except.bind, ht2,
      pure, Except.pure] at hres

theorem ReinvestManagementReport.reinvestCells_error (rt : Runtime) (sign : String) (i : Nat)
    (item : JsVal) (h : ReinvestManagementReport.exportable item = false) :
    ∃ e, ReinvestManagementReport.exportCells rt sign i item = .error e := by
  cases hres : ReinvestManagementReport.exportCells rt sign i item with
  | error e => exact ⟨e, rfl⟩
  | ok cells =>
    exfalso
    by_cases hn : item.isNullish = true
    · simp [ReinvestManagementReport.exportCells, JsVal.member, hn, bind, Except.bind] at hres
    · have hn2 : item.isNullish = false := by simpa using hn
      have hs : (item.getProp "status").textOrEmpty = false := by
        simpa [ReinvestManagementReport.exportable, hn2] using h
      obtain ⟨e, he⟩ := ReinvestManagementReport.exportStatusText_error rt _ hs
      simp [ReinvestManagementReport.exportCells, JsVal.member, hn2, bind, Except.bind, he]
        at hres

theorem usernameWithEmailFallback_ok (item : JsVal) (hn : item.isNullish = false)
    (hu : userRenders item = true) : ∃ u, usernameWithEmailFallback item = .ok u := by
  cases hres : usernameWithEmailFallback item with
  | ok u => exact ⟨u, rfl⟩
  | error e =>
    exfalso
    simp only [usernameWithEmailFallback, JsVal.member, hn, Bool.false_eq_true, if_false, bind,
      Except.bind, pure, Except.pure] at hres
    by_cases hname : ((item.getProp "user").optMember "username").truthy = true
    · simp [hname] at hres
    · by_cases hemail : ((item.getProp "user").optMember "email").isNullish = true
      · simp [hname, hemail] at hres
      · cases hv : (item.getProp "user").optMember "email" with
        | str s => simp [hname, hv, JsVal.isNullish, JsVal.receiver] at hres
        | undefined => simp [hv, JsVal.isNullish] at hemail
        | null => simp [hv, JsVal.isNullish] at hemail
        | bool b => simp [userRenders, hname, hv, JsVal.isNullish] at hu
        | num q => simp [userRenders, hname, hv, JsVal.isNullish] at hu
        | arr xs => simp [userRenders, hname, hv, JsVal.isNullish] at hu
        | obj fs => simp [userRenders, hname, hv, JsVal.isNullish] at hu

theorem usernameWithEmailFallback_error (item : JsVal) (hn : item.isNullish = false)
    (hu : userRenders item = false) : ∃ e, usernameWithEmailFallback item = .error e := by
  cases hres : usernameWithEmailFallback item with
  | error e => exact ⟨e, rfl⟩
  | ok u =>
    exfalso
    simp only [userRenders, Bool.or_eq_false_iff] at hu
    obtain ⟨⟨hname, hemail⟩, hstr⟩ := hu
    simp only [usernameWithEmailFallback, JsVal.member, hn, Bool.false_eq_true, if_false, bind,
      Except.bind, pure, Except.pure, hname, hemail] at hres
    cases hv : (item.getProp "user").optMember "email" with
    | str s => simp [hv] at hstr
    | undefined => simp [hv, JsVal.isNullish] at hemail
    | null => simp [hv, JsVal.isNullish] at hemail
    | bool b => simp [hv, JsVal.receiver] at hres
    | num q => simp [hv, JsVal.receiver] at hres
    | arr xs => simp [hv, JsVal.receiver] at hres
    | obj fs => simp [hv, JsVal.receiver] at hres

theorem TransferManagementReport.exportable_iff (item : JsVal) :
    TransferManagementReport.exportable item
      = (!item.isNullish && userRenders item
        && (item.getProp "fromWallet").textOrEmpty && (item.getProp "toWallet").textOrEmpty
        && (item.getProp "currencyType").textOrEmpty && (item.getProp "status").textOrEmpty) :=
  rfl

theorem TransferManagementReport.transferCells_ok (rt : Runtime) (sign : String) (i : Nat)
    (item : JsVal) (h : TransferManagementReport.exportable item = true) :
    ∃ cells, TransferManagementReport.exportCells rt sign i item = .ok cells := by
  rw [TransferManagementReport.exportable_iff] at h
  simp only [Bool.and_eq_true, Bool.not_eq_true'] at h
  obtain ⟨⟨⟨⟨⟨hn, hu⟩, hf⟩, ht⟩, hc⟩, hs⟩ := h
  obtain ⟨u, hu2⟩ := usernameWithEmailFallback_ok item hn hu
  obtain ⟨f, hf2⟩ := rt.capitalize_plain_ok _ hf
  obtain ⟨t, ht2⟩ := rt.capitalize_plain_ok _ ht
  obtain ⟨c, hc2⟩ := rt.upperCaseOr_ok "USDT" _ hc
  obtain ⟨st, hs2⟩ := rt.capitalize_or_ok "completed" _ hs
  cases hres : TransferManagementReport.exportCells rt sign i item with
  | ok cells => exact ⟨cells, rfl⟩
  | error e =>
    simp [TransferManagementReport.exportCells, JsVal.member, hn, bind, Except.bind, hu2, hf2,
      ht2, hc2, hs2, pure, Except.pure] at hres

theorem TransferManagementReport.transferCells_error (rt : Runtime) (sign : String) (i : Nat)
    (item : JsVal) (h : TransferManagementReport.exportable item = false) :
    ∃ e, TransferManagementReport.exportCells rt sign i item = .error e := by
  rw [TransferManagementReport.exportable_iff] at h
  cases hres : TransferManagementReport.exportCells rt sign i item with
  | error e => exact ⟨e, rfl⟩
  | ok cells =>
    exfalso
    by_cases hn : item.isNullish = true
    · simp [TransferManagementReport.exportCells, JsVal.member, hn, bind, Except.bind] at hres
    have hn2 : item.isNullish = false := by simpa using hn
    by_cases hu : userRenders item = true
    swap
    · obtain ⟨e, he⟩ := usernameWithEmailFallback_error item hn2 (by simpa using hu)
      simp [TransferManagementReport.exportCells, JsVal.member, hn2, bind, Except.bind, he]
        at hres
    obtain ⟨u, hu2⟩ := usernameWithEmailFallback_ok item hn2 hu
    by_cases hf : (item.getProp "fromWallet").textOrEmpty = true
    swap
    · obtain ⟨e, he⟩ := rt.capitalize_error _ (by simpa using hf)
      simp [TransferManagementReport.exportCells, JsVal.member, hn2, bind, Except.bind, hu2, he]
        at hres
    obtain ⟨f, hf2⟩ := rt.capitalize_plain_ok _ hf
    by_cases ht : (item.getProp "toWallet").textOrEmpty = true
    swap
    · obtain ⟨e, he⟩ := rt.capitalize_error _ (by simpa using ht)
      simp [TransferManagementReport.exportCells, JsVal.member, hn2, bind, Except.bind, hu2,
        hf2, he] at hres
    obtain ⟨t, ht2⟩ := rt.capitalize_plain_ok _ ht
    by_cases hc : (item.getProp "currencyType").textOrEmpty = true
    swap
    · obtain ⟨e, he⟩ := rt.upperCaseOr_error "USDT" _ (by simpa using hc)
      simp [TransferManagementReport.exportCells, JsVal.member, hn2, bind, Except.bind, hu2,
        hf2, ht2, he] at hres
    obtain ⟨c, hc2⟩ := rt.upperCaseOr_ok "USDT" _ hc
    have hs : (item.getProp "status").textOrEmpty = false := by
      simpa [hn2, hu, hf, ht, hc] using h
    obtain ⟨e, he⟩ := rt.capitalize_or_error "completed" _ hs
    simp [TransferManagementReport.exportCells, JsVal.member, hn2, bind, Except.bind, hu2,
      hf2, ht2, hc2, he] at hres

theorem Runtime.fixedAmount_undefined (rt : Runtime) : rt.fixedAmount .undefined = "0.00" := by
  have h : ((JsVal.undefined).or (.num 0)).toJsNum rt.parseNum rt.fmt = .finite 0 := by
    show JsNum.ofReal 0 = .finite 0
    exact JsNum.ofReal_zero
  simp only [Runtime.fixedAmount, h]
  exact toFixed2_zero rt.fmt

/-- C5 (counterexample): with the two loaded swaps Alice and Bob and the search
text "alice", the table shows the single row of Alice, while the PDF and Excel
exports write the rows of both records. -/
theorem export_ignores_search_counterexample :
    SwapManagementReport.visibleRows sampleRuntime.lowerCase sampleRuntime.fmt sampleSwaps
        "alice" 0
        = .ok [.obj [("userName", .str "Alice"), ("status", .str "completed")]]
      ∧ SwapManagementReport.handleExportPDF sampleRuntime sampleSwaps
        = .saved
          [.arr [.num 1, .str "Alice", .str "N/A", .str "0.00", .str "0.00", .str "$0.00",
                 .str "USDT", .str "Swap Request", .str "Completed", .str "N/A"],
           .arr [.num 2, .str "Bob", .str "N/A", .str "0.00", .str "0.00", .str "$0.00",
                 .str "USDT", .str "Swap Request", .str "Pending", .str "N/A"]]
      ∧ SwapManagementReport.handleExportExcel sampleRuntime sampleSwaps
        = .saved
          [.obj (SwapManagementReport.excelKeys.zip
            [.num 1, .str "Alice", .str "N/A", .str "0.00", .str "0.00", .str "$0.00",
             .str "USDT", .str "Swap Request", .str "Completed", .str "N/A"]),
           .obj (SwapManagementReport.excelKeys.zip
            [.num 2, .str "Bob", .str "N/A", .str "0.00", .str "0.00", .str "$0.00",
             .str "USDT", .str "Swap Request", .str "Pending", .str "N/A"])] := by
  have hcells : ∀ (i : Nat) (name status label : String),
      sampleRuntime.capitalize (.str status) = .ok label → status ≠ "" →
      SwapManagementReport.exportCells sampleRuntime i
          (.obj [("userName", .str name), ("status", .str status)])
        = .ok [serialNumber i, (JsVal.str name).or (.str "N/A"), .str "N/A", .str "0.00",
            .str "0.00", .str "$0.00", .str "USDT", .str "Swap Request", .str label,
            .str "N/A"] := by
    intro i name status label hlabel hstatus
    have hor : (JsVal.str status).or (.str "pending") = .str status := by
      simp [JsVal.or, JsVal.truthy, hstatus]
    have hcur : sampleRuntime.upperCaseOr "USDT" .undefined = .ok "USDT" := rfl
    simp only [SwapManagementReport.exportCells, JsVal.member, JsVal.isNullish,
      Bool.false_eq_true, if_false, bind, Except.bind, pure, Except.pure, JsVal.getProp,
      JsVal.lookupField]
    simp only [show ("userName" = "packageName") = False from by decide,
      show ("status" = "packageName") = False from by decide,
      show ("userName" = "usdtAmount") = False from by decide,
      show ("status" = "usdtAmount") = False from by decide,
      show ("userName" = "emgtAmount") = False from by decide,
      show ("status" = "emgtAmount") = False from by decide,
      show ("userName" = "tokenPrice") = False from by decide,
      show ("status" = "tokenPrice") = False from by decide,
      show ("userName" = "currencyType") = False from by decide,
      show ("status" = "currencyType") = False from by decide,
      show ("userName" = "remark") = False from by decide,
      show ("status" = "remark") = False from by decide,
      show ("userName" = "status") = False from by decide,
      show ("userName" = "createdAt") = False from by decide,
      show ("status" = "createdAt") = False from by decide,
      if_true, if_false, hcur, hor, hlabel, SwapManagementReport.formatNumber,
      Runtime.fixedAmount_undefined, SwapManagementReport.formatDate, JsVal.truthy,
      Bool.false_eq_true]
    rfl
  have h1 := hcells 0 "Alice" "completed" "Completed" rfl (by decide)
  have h2 := hcells 1 "Bob" "pending" "Pending" rfl (by decide)
  have hs1 : serialNumber 0 = .num 1 := by
    simp [serialNumber]
  have hs2 : serialNumber 1 = .num 2 := by
    simp only [serialNumber]
    norm_num
  have ha : (JsVal.str "Alice").or (.str "N/A") = .str "Alice" := rfl
  have hb : (JsVal.str "Bob").or (.str "N/A") = .str "Bob" := rfl
  rw [hs1, ha] at h1
  rw [hs2, hb] at h2
  refine ⟨rfl, ?_, ?_⟩
  · simp only [SwapManagementReport.handleExportPDF, exportRows, sampleSwaps,
      List.length_cons, List.length_nil, List.enum, List.enumFrom_cons, List.enumFrom_nil,
      traverse, SwapManagementReport.pdfRow, h1, h2, Except.map]
    rfl
  · simp only [SwapManagementReport.handleExportExcel, exportRows, sampleSwaps,
      List.length_cons, List.length_nil, List.enum, List.enumFrom_cons, List.enumFrom_nil,
      traverse, SwapManagementReport.excelRow, h1, h2, Except.map]
    rfl

/-- C5 (amended): the PDF and Excel exports of the swap, transfer and reinvest
reports do not take the search text of the table. For a data set that is not
empty and whose records can all be rendered they write one row per loaded
record, for all loaded records in loaded order; for an empty data set, or when a
record cannot be rendered (it is `null`, or its status, currency, wallet or
email is neither a text nor empty), they write nothing. With an empty search
text the swap and transfer tables list the same records in the same order. -/
theorem exports_write_all_loaded_rows (rt : Runtime) (data : List JsVal) :
    WritesAllRecords (SwapManagementReport.handleExportPDF rt data)
        (SwapManagementReport.pdfRow rt) SwapManagementReport.exportable data
      ∧ WritesAllRecords (SwapManagementReport.handleExportExcel rt data)
        (SwapManagementReport.excelRow rt) SwapManagementReport.exportable data
      ∧ WritesAllRecords (TransferManagementReport.handleExportPDF rt data)
        (TransferManagementReport.pdfRow rt) TransferManagementReport.exportable data
      ∧ WritesAllRecords (TransferManagementReport.handleExportExcel rt data)
        (TransferManagementReport.excelRow rt) TransferManagementReport.exportable data
      ∧ WritesAllRecords (ReinvestManagementReport.handleExportPDF rt data)
        (ReinvestManagementReport.pdfRow rt) ReinvestManagementReport.exportable data
      ∧ WritesAllRecords (ReinvestManagementReport.handleExportExcel rt data)
        (ReinvestManagementReport.excelRow rt) ReinvestManagementReport.exportable data
      ∧ (∀ lowerCase fmt, SwapManagementReport.filteredRows lowerCase fmt data "" = .ok data)
      ∧ (∀ lowerCase fmt,
          TransferManagementReport.filteredRows lowerCase fmt data "" = .ok data) := by
  refine ⟨?_, ?_, ?_, ?_, ?_, ?_, ?_, ?_⟩
  · exact exportRows_writesAll _ _
      (fun i item h => Except.map_ok_of_ok _ _ (SwapManagementReport.swapCells_ok rt i item h))
      (fun i item h =>
        Except.map_error_of_error _ _ (SwapManagementReport.swapCells_error rt i item h))
      data
  · exact exportRows_writesAll _ _
      (fun i item h => Except.map_ok_of_ok _ _ (SwapManagementReport.swapCells_ok rt i item h))
      (fun i item h =>
        Except.map_error_of_error _ _ (SwapManagementReport.swapCells_error rt i item h))
      data
  · exact exportRows_writesAll _ _
      (fun i item h =>
        Except.map_ok_of_ok _ _ (TransferManagementReport.transferCells_ok rt "$" i item h))
      (fun i item h =>
        Except.map_error_of_error _ _
          (TransferManagementReport.transferCells_error rt "$" i item h))
      data
  · exact exportRows_writesAll _ _
      (fun i item h =>
        Except.map_ok_of_ok _ _ (TransferManagementReport.transferCells_ok rt "" i item h))
      (fun i item h =>
        Except.map_error_of_error _ _
          (TransferManagementReport.transferCells_error rt "" i item h))
      data
  · exact exportRows_writesAll _ _
      (fun i item h =>
        Except.map_ok_of_ok _ _ (ReinvestManagementReport.reinvestCells_ok rt "$" i item h))
      (fun i item h =>
        Except.map_error_of_error _ _
          (ReinvestManagementReport.reinvestCells_error rt "$" i item h))
      data
  · exact exportRows_writesAll _ _
      (fun i item h =>
        Except.map_ok_of_ok _ _ (ReinvestManagementReport.reinvestCells_ok rt "" i item h))
      (fun i item h =>
        Except.map_error_of_error _ _
          (ReinvestManagementReport.reinvestCells_error rt "" i item h))
      data
  · intro lowerCase fmt
    simp [SwapManagementReport.filteredRows, filteredRowModel]
  · intro lowerCase fmt
    simp [TransferManagementReport.filteredRows, filteredRowModel]

/-- Witness of C5 (amended): the two sample swaps can be rendered and the PDF
export writes two rows; a reinvestment whose status is the number 5 cannot, and
the PDF export of the reinvest report writes nothing. -/
theorem exports_write_all_loaded_rows_witness :
    (∃ rows, SwapManagementReport.handleExportPDF sampleRuntime sampleSwaps = .saved rows
        ∧ rows.length = 2)
      ∧ ∃ e, ReinvestManagementReport.handleExportPDF sampleRuntime [sampleNumericStatus]
          = .failed e := by
  constructor
  · obtain ⟨rows, hrows, hlen, _⟩ :=
      (exports_write_all_loaded_rows sampleRuntime sampleSwaps).1.2.2
        (by simp [sampleSwaps])
        (by
          intro item hitem
          simp only [sampleSwaps, List.mem_cons, List.mem_singleton, List.not_mem_nil,
            or_false] at hitem
          rcases hitem with rfl | rfl <;> rfl)
    exact ⟨rows, hrows, hlen⟩
  · exact (exports_write_all_loaded_rows sampleRuntime [sampleNumericStatus]).2.2.2.2.1.2.1
      (by simp) ⟨sampleNumericStatus, by simp, by decide!⟩


theorem toUpper_of_not_bmp (c : Char) (h : ¬ c.val.toNat < 65536) : c.toUpper = c := by
  unfold Char.toUpper
  have hc : ¬ (c.toNat ≥ 97 ∧ c.toNat ≤ 122) := by
    rintro ⟨_, h2⟩
    apply h
    have : c.val.toNat ≤ 122 := h2
    omega
  simp only [hc, if_false]

theorem sampleRuntime_capitalizeText (s : String) :
    sampleRuntime.capitalizeText s = upperFirstLowerRest s := by
  cases hs : s.data with
  | nil => simp [Runtime.capitalizeText, upperFirstLowerRest, hs, sampleRuntime, toUpperCase,
      toLowerCase]
  | cons c rest =>
    by_cases hc : c.val.toNat < 65536
    · simp [Runtime.capitalizeText, upperFirstLowerRest, hs, hc, sampleRuntime, toUpperCase,
        toLowerCase, String.singleton, String.ext_iff]
    · simp [Runtime.capitalizeText, upperFirstLowerRest, hs, hc, sampleRuntime, toLowerCase,
        String.singleton, String.ext_iff, toUpper_of_not_bmp c hc]

theorem sampleRuntime_upperFirstText (s : String) :
    sampleRuntime.upperFirstText s = upperFirst s := by
  cases hs : s.data with
  | nil => simp [Runtime.upperFirstText, upperFirst, hs, sampleRuntime, toUpperCase]
  | cons c rest =>
    by_cases hc : c.val.toNat < 65536
    · simp [Runtime.upperFirstText, upperFirst, hs, hc, sampleRuntime, toUpperCase,
        String.singleton, String.ext_iff]
    · simp [Runtime.upperFirstText, upperFirst, hs, hc, String.singleton, String.ext_iff,
        toUpper_of_not_bmp c hc]

/-- With the ASCII case conversions the Status text that the export rows hold is
the one of `exportStatus`, in each of the three reports. -/
theorem export_status_cells_agree (item : JsVal) (hitem : item.isNullish = false) :
    sampleRuntime.capitalize ((item.getProp "status").or (.str "pending"))
        = SwapManagementReport.exportStatus item
      ∧ sampleRuntime.capitalize ((item.getProp "status").or (.str "completed"))
        = TransferManagementReport.exportStatus item
      ∧ ReinvestManagementReport.exportStatusText sampleRuntime (item.getProp "status")
        = ReinvestManagementReport.exportStatus item := by
  have hcap : ∀ v : JsVal, sampleRuntime.capitalize v = SwapManagementReport.capitalize v := by
    intro v
    cases v <;>
      simp [Runtime.capitalize, SwapManagementReport.capitalize, JsVal.receiver, bind,
        Except.bind, pure, Except.pure, sampleRuntime_capitalizeText]
  have hcap2 : ∀ v : JsVal,
      sampleRuntime.capitalize v = TransferManagementReport.capitalize v := by
    intro v
    cases v <;>
      simp [Runtime.capitalize, TransferManagementReport.capitalize, JsVal.receiver, bind,
        Except.bind, pure, Except.pure, sampleRuntime_capitalizeText]
  refine ⟨?_, ?_, ?_⟩
  · simp only [SwapManagementReport.exportStatus, JsVal.member, hitem, Bool.false_eq_true,
      if_false, bind, Except.bind, hcap]
  · simp only [TransferManagementReport.exportStatus, JsVal.member, hitem, Bool.false_eq_true,
      if_false, bind, Except.bind, hcap2]
  · simp only [ReinvestManagementReport.exportStatus,
      ReinvestManagementReport.exportStatusText, JsVal.member, hitem, Bool.false_eq_true,
      if_false, bind, Except.bind, pure, Except.pure]
    cases (item.getProp "status").or (.str "completed") <;>
      simp [JsVal.receiver, sampleRuntime_upperFirstText]

/-! ### Team tree -/

theorem TeamTreeView.childNodes_obj_cons (k : String) (v : JsVal)
    (rest : List (String × JsVal)) :
    TeamTreeView.childNodes (.obj ((k, v) :: rest))
      = if k = "children" then v.items else TeamTreeView.childNodes (.obj rest) := by
  simp only [TeamTreeView.childNodes, JsVal.getProp, JsVal.lookupField]
  split_ifs <;> rfl

theorem TeamTreeView.transformChildren_cons (fmt : Rat → String) (k : String) (v : JsVal)
    (rest : List (String × JsVal)) :
    TeamTreeView.transformChildren fmt ((k, v) :: rest)
      = if k = "children" then
          match v with
          | .arr xs => TeamTreeView.transformNodes fmt xs
          | other =>
            if other.truthy then .error (.typeError "node.children.map is not a function")
            else .ok []
        else TeamTreeView.transformChildren fmt rest := by
  cases v <;> rfl

theorem TeamTreeView.teamChildrenOk_cons (k : String) (v : JsVal)
    (rest : List (String × JsVal)) :
    TeamTreeView.teamChildrenOk ((k, v) :: rest)
      = if k = "children" then
          match v with
          | .arr xs => TeamTreeView.allTeamNodes xs
          | other => !other.truthy
        else TeamTreeView.teamChildrenOk rest := by
  cases v <;> rfl

/-- What the transform does on a list of team nodes. -/
def TeamTreeView.ForestOk (fmt : Rat → String) (xs : List JsVal) : Prop :=
  TeamTreeView.allTeamNodes xs = true →
    ∃ ks, TeamTreeView.transformNodes fmt xs = .ok ks ∧ TeamTreeView.MirrorsAll fmt xs ks

/-- What the transform does on a team node, and on its items when it is an
array of team nodes. -/
def TeamTreeView.NodeOk (fmt : Rat → String) (v : JsVal) : Prop :=
  (TeamTreeView.isTeamNode v = true →
      ∃ t, TeamTreeView.transformNode fmt v = .ok t ∧ TeamTreeView.Mirrors fmt v t)
    ∧ TeamTreeView.ForestOk fmt v.items

/-- What the transform does on the `children` field of an object node. -/
def TeamTreeView.FieldsOk (fmt : Rat → String) (fs : List (String × JsVal)) : Prop :=
  TeamTreeView.teamChildrenOk fs = true →
    ∃ ks, TeamTreeView.transformChildren fmt fs = .ok ks
      ∧ TeamTreeView.MirrorsAll fmt (TeamTreeView.childNodes (.obj fs)) ks

theorem TeamTreeView.forestOk_nil (fmt : Rat → String) : TeamTreeView.ForestOk fmt [] :=
  fun _ => ⟨[], rfl, by simp [TeamTreeView.MirrorsAll]⟩

theorem TeamTreeView.nodeOk_of_not_obj (fmt : Rat → String) (v : JsVal)
    (hv : TeamTreeView.isTeamNode v = false) (hi : v.items = []) :
    TeamTreeView.NodeOk fmt v := by
  refine ⟨fun h => ?_, ?_⟩
  · rw [hv] at h
    exact absurd h (by decide)
  · rw [hi]
    exact TeamTreeView.forestOk_nil fmt

theorem TeamTreeView.nodeOk (fmt : Rat → String) (v : JsVal) : TeamTreeView.NodeOk fmt v := by
  refine @JsVal.rec (TeamTreeView.NodeOk fmt) (TeamTreeView.ForestOk fmt)
    (TeamTreeView.FieldsOk fmt) (fun p => TeamTreeView.NodeOk fmt p.2)
    ?_ ?_ ?_ ?_ ?_ ?_ ?_ ?_ ?_ ?_ ?_ ?_ v
  · exact TeamTreeView.nodeOk_of_not_obj fmt _ rfl rfl
  · exact TeamTreeView.nodeOk_of_not_obj fmt _ rfl rfl
  · intro b
    exact TeamTreeView.nodeOk_of_not_obj fmt _ rfl rfl
  · intro q
    exact TeamTreeView.nodeOk_of_not_obj fmt _ rfl rfl
  · intro t
    exact TeamTreeView.nodeOk_of_not_obj fmt _ rfl rfl
  · intro xs ih
    refine ⟨fun h => ?_, ih⟩
    simp [TeamTreeView.isTeamNode] at h
  · intro fs ih
    refine ⟨fun h => ?_, TeamTreeView.forestOk_nil fmt⟩
    have hfs : TeamTreeView.teamChildrenOk fs = true := by
      simpa [TeamTreeView.isTeamNode] using h
    obtain ⟨ks, hk, hm⟩ := ih hfs
    refine ⟨TeamTreeView.nodeWith fmt (.obj fs) ks, ?_, ?_⟩
    · simp [TeamTreeView.transformNode, hk]
    · simp only [TeamTreeView.nodeWith, TeamTreeView.Mirrors]
      exact ⟨trivial, trivial, trivial, trivial, hm⟩
  · exact TeamTreeView.forestOk_nil fmt
  · intro x xs ihx ihxs h
    have hx : TeamTreeView.isTeamNode x = true ∧ TeamTreeView.allTeamNodes xs = true := by
      simpa [TeamTreeView.allTeamNodes] using h
    obtain ⟨t, ht, hm⟩ := ihx.1 hx.1
    obtain ⟨ts, hts, hms⟩ := ihxs hx.2
    exact ⟨t :: ts, by simp [TeamTreeView.transformNodes, ht, hts],
      by simp only [TeamTreeView.MirrorsAll]; exact ⟨hm, hms⟩⟩
  · intro _
    exact ⟨[], rfl, by simp [TeamTreeView.childNodes, JsVal.getProp, JsVal.lookupField,
      JsVal.items, TeamTreeView.MirrorsAll]⟩
  · intro p rest ihp ihrest h
    obtain ⟨k, v⟩ := p
    rw [TeamTreeView.childNodes_obj_cons, TeamTreeView.transformChildren_cons]
    rw [TeamTreeView.teamChildrenOk_cons] at h
    by_cases hk : k = "children"
    · simp only [if_pos hk] at h ⊢
      cases v with
      | arr xs => exact ihp.2 h
      | obj fs => simp [JsVal.truthy] at h
      | undefined =>
        exact ⟨[], by simp [JsVal.truthy], by simp [JsVal.items, TeamTreeView.MirrorsAll]⟩
      | null =>
        exact ⟨[], by simp [JsVal.truthy], by simp [JsVal.items, TeamTreeView.MirrorsAll]⟩
      | bool b =>
        have hb : (JsVal.bool b).truthy = false := by simpa using h
        exact ⟨[], by simp [hb], by simp [JsVal.items, TeamTreeView.MirrorsAll]⟩
      | num q =>
        have hb : (JsVal.num q).truthy = false := by simpa using h
        exact ⟨[], by simp [hb], by simp [JsVal.items, TeamTreeView.MirrorsAll]⟩
      | str t =>
        have hb : (JsVal.str t).truthy = false := by simpa using h
        exact ⟨[], by simp [hb], by simp [JsVal.items, TeamTreeView.MirrorsAll]⟩
    · simp only [if_neg hk] at h ⊢
      exact ihrest h
  · intro k v ih
    exact ih

theorem TeamTreeView.mirrorsAll_length (fmt : Rat → String) :
    ∀ (xs : List JsVal) (ts : List TeamTreeView.TreeNode),
      TeamTreeView.MirrorsAll fmt xs ts → ts.length = xs.length
  | [], [], _ => rfl
  | x :: xs, t :: ts, h => by
    simp only [TeamTreeView.MirrorsAll] at h
    simp [TeamTreeView.mirrorsAll_length fmt xs ts h.2]
  | [], _ :: _, h => by simp [TeamTreeView.MirrorsAll] at h
  | _ :: _, [], h => by simp [TeamTreeView.MirrorsAll] at h

theorem JsVal.optMember_of_isNullish (v : JsVal) (k : String) (h : v.isNullish = true) :
    v.optMember k = .undefined := by
  simp [JsVal.optMember, h]

theorem JsVal.isArray_of_isNullish (v : JsVal) (h : v.isNullish = true) :
    v.isArray = false := by
  cases v <;> simp_all [JsVal.isNullish, JsVal.isArray]

/-- C6: when `apiData.data.data` is a finite forest of team nodes,
`transformTreeData` returns a forest of the same shape: as many roots as the
input and, at every node, the children of the input node mirrored one by one in
the same order. Every output node carries `name` (the name of the node,
"Unknown" when missing), `Username` (the username, "Unknown" when missing),
`Self` and `Team` ("$" followed by `selfInvestment` and `teamInvestment`, 0 when
missing), and a node without a `children` field has no output children. -/
theorem transformTreeData_same_shape (fmt : Rat → String) (apiData : JsVal)
    (roots : List JsVal)
    (hdata : (apiData.optMember "data").optMember "data" = .arr roots)
    (hnodes : TeamTreeView.allTeamNodes roots = true) :
    ∃ out, TeamTreeView.transformTreeData fmt apiData = .ok out
      ∧ out.length = roots.length
      ∧ TeamTreeView.MirrorsAll fmt roots out := by
  have harr : ((apiData.optMember "data").optMember "data").isArray = true := by
    rw [hdata]; rfl
  have h1 := JsVal.member_of_chain_isArray apiData "data" "data" harr
  have h2 := JsVal.member_of_isArray (apiData.optMember "data") "data" harr
  obtain ⟨out, hout, hm⟩ := (TeamTreeView.nodeOk fmt (.arr roots)).2 hnodes
  refine ⟨out, ?_, TeamTreeView.mirrorsAll_length fmt roots out hm, hm⟩
  have ht : ((apiData.optMember "data").optMember "data").truthy = true :=
    JsVal.truthy_of_isArray _ harr
  simp only [TeamTreeView.transformTreeData, ht, h1, h2, bind, Except.bind, hdata,
    JsVal.isArray]
  simpa [JsVal.items] using hout

/-- Witness of C6 on a root with two children, one of them without a `children`
field. -/
theorem transformTreeData_same_shape_witness :
    ∃ out, TeamTreeView.transformTreeData sampleFmt sampleTree = .ok out
      ∧ out.length = 1
      ∧ TeamTreeView.MirrorsAll sampleFmt
          [.obj [("name", .str "Root"), ("username", .str "root01"),
                 ("selfInvestment", .num 100),
                 ("children", .arr
                   [.obj [("name", .str "Kid"), ("children", .arr [])],
                    .obj [("username", .str "leaf02")]])]] out :=
  transformTreeData_same_shape sampleFmt sampleTree _ rfl rfl

/-- C7: `transformTreeData` returns the empty list, without throwing, whenever
`apiData` is `null` or `undefined`, `apiData.data` or `apiData.data.data` is
missing, or `apiData.data.data` is not an array. -/
theorem transformTreeData_malformed (fmt : Rat → String) (apiData : JsVal)
    (h : apiData.isNullish = true
      ∨ (apiData.optMember "data").isNullish = true
      ∨ ((apiData.optMember "data").optMember "data").isNullish = true
      ∨ ((apiData.optMember "data").optMember "data").isArray = false) :
    TeamTreeView.transformTreeData fmt apiData = .ok [] := by
  have harr : ((apiData.optMember "data").optMember "data").isArray = false := by
    rcases h with h | h | h | h
    · rw [JsVal.optMember_of_isNullish _ _ h]; rfl
    · rw [JsVal.optMember_of_isNullish _ _ h]; rfl
    · exact JsVal.isArray_of_isNullish _ h
    · exact h
  by_cases ht : ((apiData.optMember "data").optMember "data").truthy = true
  · have h1 := JsVal.member_of_chain_truthy apiData "data" "data" ht
    have h2 := JsVal.member_of_truthy (apiData.optMember "data") "data" ht
    simp [TeamTreeView.transformTreeData, ht, h1, h2, bind, Except.bind, harr]
  · simp [TeamTreeView.transformTreeData, ht]

/-- Witness of C7 on `null`, on an object without `data`, and on a payload
whose `data.data` is a string. -/
theorem transformTreeData_malformed_witness :
    TeamTreeView.transformTreeData sampleFmt .null = .ok []
      ∧ TeamTreeView.transformTreeData sampleFmt (.obj []) = .ok []
      ∧ TeamTreeView.transformTreeData sampleFmt
          (.obj [("data", .obj [("data", .str "none")])]) = .ok [] :=
  ⟨transformTreeData_malformed sampleFmt .null (Or.inl rfl),
   transformTreeData_malformed sampleFmt (.obj []) (Or.inr (Or.inl rfl)),
   transformTreeData_malformed sampleFmt _ (Or.inr (Or.inr (Or.inr rfl)))⟩

/-! ### Status label of a staked plan -/

theorem InvestmentReport.statusOf_eq (plan : JsVal) (hplan : plan.isNullish = false) :
    InvestmentReport.statusOf plan = .ok
      (if (plan.getProp "isSwapped").truthy then "Swapped / Locked"
       else if (plan.getProp "isTransferred").truthy then "Transferred / Completed"
       else if (plan.getProp "isReinvested").truthy then "Reinvested / Completed"
       else if (plan.getProp "isLockingPeriodActive").truthy then "Locked"
       else if (plan.getProp "status").strictEqStr "completed" then "Claim"
       else "Complete") := by
  simp only [InvestmentReport.statusOf, JsVal.member, hplan, bind, Except.bind]
  split_ifs <;> simp_all

/-- C8: for every staked plan the status label shown in the investment report
is decided by the first condition that holds, in the order `isSwapped`,
`isTransferred`, `isReinvested`, `isLockingPeriodActive`, backend status equal to
`completed`, with "Complete" when none holds; the label is always one of the six
strings. -/
theorem investment_status_first_match (formatDate : JsVal → String) (plan : JsVal)
    (hplan : plan.isNullish = false) :
    ∃ row, InvestmentReport.toRow formatDate plan = .ok row
      ∧ ((plan.getProp "isSwapped").truthy = true →
          InvestmentReport.statusCell row = "Swapped / Locked")
      ∧ ((plan.getProp "isSwapped").truthy = false →
          (plan.getProp "isTransferred").truthy = true →
          InvestmentReport.statusCell row = "Transferred / Completed")
      ∧ ((plan.getProp "isSwapped").truthy = false →
          (plan.getProp "isTransferred").truthy = false →
          (plan.getProp "isReinvested").truthy = true →
          InvestmentReport.statusCell row = "Reinvested / Completed")
      ∧ ((plan.getProp "isSwapped").truthy = false →
          (plan.getProp "isTransferred").truthy = false →
          (plan.getProp "isReinvested").truthy = false →
          (plan.getProp "isLockingPeriodActive").truthy = true →
          InvestmentReport.statusCell row = "Locked")
      ∧ ((plan.getProp "isSwapped").truthy = false →
          (plan.getProp "isTransferred").truthy = false →
          (plan.getProp "isReinvested").truthy = false →
          (plan.getProp "isLockingPeriodActive").truthy = false →
          (plan.getProp "status").strictEqStr "completed" = true →
          InvestmentReport.statusCell row = "Claim")
      ∧ ((plan.getProp "isSwapped").truthy = false →
          (plan.getProp "isTransferred").truthy = false →
          (plan.getProp "isReinvested").truthy = false →
          (plan.getProp "isLockingPeriodActive").truthy = false →
          (plan.getProp "status").strictEqStr "completed" = false →
          InvestmentReport.statusCell row = "Complete")
      ∧ InvestmentReport.statusCell row ∈ InvestmentReport.statusLabels := by
  simp only [InvestmentReport.toRow, InvestmentReport.statusOf_eq plan hplan, JsVal.member,
    hplan, bind, Except.bind, pure, Except.pure, InvestmentReport.statusCell]
  refine ⟨_, rfl, ?_, ?_, ?_, ?_, ?_, ?_, ?_⟩
  · intro h1; simp [h1]
  · intro h1 h2; simp [h1, h2]
  · intro h1 h2 h3; simp [h1, h2, h3]
  · intro h1 h2 h3 h4; simp [h1, h2, h3, h4]
  · intro h1 h2 h3 h4 h5; simp [h1, h2, h3, h4, h5]
  · intro h1 h2 h3 h4 h5; simp [h1, h2, h3, h4, h5]
  · simp only [InvestmentReport.statusLabels]
    split_ifs <;> simp

/-- Witness of C8 on a plan whose locking period is over and whose backend
status is `completed`: its label is "Claim". -/
theorem investment_status_first_match_witness :
    ∃ row, InvestmentReport.toRow (fun _ => "") samplePlan = .ok row
      ∧ InvestmentReport.statusCell row = "Claim" := by
  obtain ⟨row, hrow, _, _, _, _, h5, _, _⟩ :=
    investment_status_first_match (fun _ => "") samplePlan rfl
  exact ⟨row, hrow, h5 rfl rfl rfl rfl rfl⟩

/-! ### Deposit filter -/

/-- C9 (failing input): a deposit returned without `walletType` becomes a row whose
`walletType` is `undefined`; with the search text "bnb", which matches neither the
hash nor the currency of the row, the filter reads `row.walletType.toLowerCase()`
and throws instead of dropping the row. -/
theorem deposit_filter_throws_without_wallet :
    DepositReport.fetchDeposits (fun _ => "") (some "token") none
        (fun _ => .ok sampleDepositResponse) = .ok [sampleRowNoWallet]
      ∧ DepositReport.filteredData [sampleRowNoWallet] "" "bnb"
        = .error (.typeError "Cannot read properties of undefined: toLowerCase") := by
  constructor
  · rfl
  · rfl

theorem filterExcept_pure {α : Type} (p : α → Except JsError Bool) (q : α → Bool)
    (l : List α) (h : ∀ x ∈ l, p x = .ok (q x)) :
    filterExcept p l = .ok (l.filter q) := by
  induction l with
  | nil => rfl
  | cons x xs ih =>
    have hx := h x (List.mem_cons_self x xs)
    have hxs := ih fun y hy => h y (List.mem_cons_of_mem x hy)
    simp only [filterExcept, hx, hxs, List.filter_cons]

theorem DepositReport.matchesSearch_of_searchable (globalFilter : String)
    (row : DepositReport.Row) (hrow : row.searchable) :
    DepositReport.matchesSearch globalFilter row = .ok (row.contains globalFilter) := by
  obtain ⟨hash, currency, wallet, status, h1, h2, h3, h4⟩ := hrow
  simp only [DepositReport.matchesSearch, DepositReport.Row.contains, h1, h2, h3, h4,
    DepositReport.callToLowerCase, bind, Except.bind]
  split_ifs <;> simp_all

/-- The deposit filter on rows whose searched fields are strings: it keeps, in
the original order, the rows whose wallet type equals the wallet filter (all
rows for an empty wallet filter) and, for a non-empty search text, whose hash,
currency, wallet type or status contains the search text ignoring ASCII case. -/
theorem deposit_filter_on_string_rows (deposits : List DepositReport.Row)
    (walletFilter globalFilter : String)
    (hrows : ∀ row ∈ deposits, row.searchable) :
    DepositReport.filteredData deposits walletFilter globalFilter
      = .ok (deposits.filter fun row =>
          (walletFilter == "" || row.walletType.strictEqStr walletFilter)
            && (globalFilter == "" || row.contains globalFilter)) := by
  by_cases hw : walletFilter = "" <;> by_cases hg : globalFilter = ""
  · simp [DepositReport.filteredData, hw, hg]
  · have hg2 : (globalFilter == "") = false := beq_eq_false_iff_ne.mpr hg
    simp only [DepositReport.filteredData, hw, hg, bne_self_eq_false, Bool.false_eq_true,
      if_false, bne_iff_ne, ne_eq, not_false_eq_true, if_true]
    rw [filterExcept_pure _ (fun row => row.contains globalFilter) _
      (fun row h => DepositReport.matchesSearch_of_searchable globalFilter row (hrows row h))]
    simp [hg2]
  · have hw2 : (walletFilter == "") = false := beq_eq_false_iff_ne.mpr hw
    simp [DepositReport.filteredData, hw, hg, hw2]
  · have hg2 : (globalFilter == "") = false := beq_eq_false_iff_ne.mpr hg
    have hw2 : (walletFilter == "") = false := beq_eq_false_iff_ne.mpr hw
    simp only [DepositReport.filteredData, hw, hg, bne_iff_ne, ne_eq, not_false_eq_true,
      if_true]
    rw [filterExcept_pure _ (fun row => row.contains globalFilter) _
      (fun row h => DepositReport.matchesSearch_of_searchable globalFilter row
        (hrows row (List.mem_of_mem_filter h)))]
    simp [hw2, hg2, List.filter_filter, Bool.and_comm]

/-- The deposit filter evaluated on two rows with string fields. -/
theorem deposit_filter_on_string_rows_eval :
    DepositReport.filteredData sampleDepositRows "" "abc" = .ok (sampleDepositRows.take 1)
      ∧ DepositReport.filteredData sampleDepositRows "Deposit" "" = .ok (sampleDepositRows.drop 1)
      ∧ DepositReport.filteredData sampleDepositRows "" "" = .ok sampleDepositRows :=
  ⟨rfl, rfl, rfl⟩

/-! ### Timeframe filter -/

theorem Analytics.cutoff_eq (now : Int) (timeframe : String) (days : Int)
    (htf : (timeframe, days) ∈ [("1d", (1 : Int)), ("7d", 7), ("30d", 30), ("90d", 90)]) :
    Analytics.cutoff now timeframe = now - days * 24 * 60 * 60 * 1000 := by
  simp only [List.mem_cons, Prod.mk.injEq, List.mem_singleton, List.not_mem_nil,
    or_false] at htf
  rcases htf with ⟨rfl, rfl⟩ | ⟨rfl, rfl⟩ | ⟨rfl, rfl⟩ | ⟨rfl, rfl⟩ <;>
    simp [Analytics.cutoff]

/-- C10: for every list of trades, clock value `now` and timeframe "1d", "7d",
"30d" or "90d" (1, 7, 30 or 90 days), `getFilteredData` returns, in the original
order, exactly the trades with `tradedAt * 1000 >= now - days * 24 * 60 * 60 *
1000`; for an empty or missing trade list it returns the empty list. -/
theorem getFilteredData_window (parseNum : String → Option Rat) (fmt : Rat → String)
    (trades : List JsVal) (now : Int) (timeframe : String) (days : Int)
    (htf : (timeframe, days) ∈ [("1d", (1 : Int)), ("7d", 7), ("30d", 30), ("90d", 90)])
    (htrades : ∀ t ∈ trades, t.isNullish = false) :
    Analytics.getFilteredData parseNum fmt (.arr trades) now timeframe
        = .ok (trades.filter (Analytics.withinDays parseNum fmt now days))
      ∧ Analytics.getFilteredData parseNum fmt (.arr []) now timeframe = .ok []
      ∧ Analytics.getFilteredData parseNum fmt .undefined now timeframe = .ok []
      ∧ Analytics.getFilteredData parseNum fmt .null now timeframe = .ok [] := by
  refine ⟨?_, rfl, rfl, rfl⟩
  cases trades with
  | nil => rfl
  | cons t ts =>
    have hlen : Analytics.lengthIsZero (.arr (t :: ts)) = false := by
      simp only [Analytics.lengthIsZero, JsVal.getProp, if_true, List.length_cons]
      simp
      norm_cast
    simp only [Analytics.getFilteredData, JsVal.truthy, hlen, Bool.not_true, Bool.or_self,
      Bool.false_eq_true, if_false]
    apply filterExcept_pure
    intro x hx
    simp only [Analytics.inTimeframe, JsVal.member, htrades x hx, Bool.false_eq_true,
      if_false, bind, Except.bind, pure, Except.pure, Analytics.withinDays,
      Analytics.cutoff_eq now timeframe days htf]
    cases (x.getProp "tradedAt").toNumber parseNum fmt with
    | none => rfl
    | some q => simp [numMul, numGe]

/-- Witness of C10: with the clock at 1700000000000 and the timeframe "7d", of a
two days old trade, a ten days old trade and a trade without a trade time only
the first is kept. -/
theorem getFilteredData_window_witness :
    Analytics.getFilteredData sampleParse sampleFmt (.arr sampleTrades) 1700000000000 "7d"
      = .ok (sampleTrades.take 1) := by
  have h := (getFilteredData_window sampleParse sampleFmt sampleTrades 1700000000000 "7d" 7
    (by simp) (by simp [sampleTrades, JsVal.isNullish])).1
  have h1 : Analytics.withinDays sampleParse sampleFmt 1700000000000 7
      (.obj [("ticker", .str "BTC/USDT"), ("tradedAt", .num 1699827200)]) = true := by
    have e : (JsVal.obj [("ticker", .str "BTC/USDT"),
        ("tradedAt", .num 1699827200)]).getProp "tradedAt" = .num 1699827200 := rfl
    simp only [Analytics.withinDays, e, JsVal.toNumber]
    norm_num
  have h2 : Analytics.withinDays sampleParse sampleFmt 1700000000000 7
      (.obj [("ticker", .str "ETH/USDT"), ("tradedAt", .num 1699136000)]) = false := by
    have e : (JsVal.obj [("ticker", .str "ETH/USDT"),
        ("tradedAt", .num 1699136000)]).getProp "tradedAt" = .num 1699136000 := rfl
    simp only [Analytics.withinDays, e, JsVal.toNumber]
    norm_num
  have h3 : Analytics.withinDays sampleParse sampleFmt 1700000000000 7
      (.obj [("ticker", .str "BNB/USDT")]) = false := rfl
  rw [h]
  simp only [sampleTrades, List.filter, h1, h2, h3, List.take]

/-! ### Analytics statistics -/

theorem reduceExcept_foldl {α β : Type} (f : β → α → Except JsError β) (g : β → α → β)
    (l : List α) (h : ∀ x ∈ l, ∀ acc, f acc x = .ok (g acc x)) (init : β) :
    reduceExcept f init l = .ok (l.foldl g init) := by
  induction l generalizing init with
  | nil => rfl
  | cons x xs ih =>
    have hx := h x (List.mem_cons_self x xs) init
    have hxs := ih (fun y hy => h y (List.mem_cons_of_mem x hy)) (g init x)
    simp only [reduceExcept, hx, hxs, List.foldl_cons]

theorem JsNum.orZero_finite_zero : (JsNum.finite 0).orZero = .finite 0 := by
  simp [JsNum.orZero, JsNum.truthy]

theorem JsNum.orZero_eq (a : JsNum) :
    a.orZero = match a with
      | .nan => .finite 0
      | other => other := by
  cases a with
  | finite q =>
    by_cases hq : q = 0
    · simp [JsNum.orZero, JsNum.truthy, hq]
    · simp [JsNum.orZero, JsNum.truthy, hq]
  | infinite negative => rfl
  | nan => rfl

theorem JsNum.orZero_of_ne_nan (a : JsNum) (h : a ≠ .nan) : a.orZero = a := by
  rw [JsNum.orZero_eq]
  cases a with
  | finite q => rfl
  | infinite negative => rfl
  | nan => exact absurd rfl h

theorem Analytics.orZero_toJsNum (parseNum : String → Option Rat) (fmt : Rat → String)
    (item : JsVal) :
    ((item.getProp "profitAfterFees").toJsNum parseNum fmt).orZero
      = Analytics.profitValue parseNum fmt item := by
  rw [JsNum.orZero_eq, Analytics.profitValue]

theorem Analytics.addProfit_eq (parseNum : String → Option Rat) (fmt : Rat → String)
    (item : JsVal) (hitem : item.isNullish = false) (sum : JsNum) :
    Analytics.addProfit parseNum fmt sum item
      = .ok (sum.add (Analytics.profitValue parseNum fmt item)) := by
  simp only [Analytics.addProfit, JsVal.member, hitem, Bool.false_eq_true, if_false, bind,
    Except.bind, pure, Except.pure, Analytics.orZero_toJsNum]

theorem Analytics.totalProfit_eq (parseNum : String → Option Rat) (fmt : Rat → String)
    (trades : List JsVal) (htrades : ∀ t ∈ trades, t.isNullish = false) :
    reduceExcept (Analytics.addProfit parseNum fmt) (.finite 0) trades
      = .ok (Analytics.refTotalProfit parseNum fmt trades) := by
  rw [reduceExcept_foldl _ (fun acc t => acc.add (Analytics.profitValue parseNum fmt t)) trades
    (fun x hx acc => Analytics.addProfit_eq parseNum fmt x (htrades x hx) acc)]
  simp only [Analytics.refTotalProfit, JsNum.sum, List.foldl_map]

theorem Analytics.wins_eq (parseNum : String → Option Rat) (fmt : Rat → String)
    (trades : List JsVal) (htrades : ∀ t ∈ trades, t.isNullish = false) :
    ∃ wins, filterExcept (Analytics.isWin parseNum fmt) trades = .ok wins
      ∧ wins.length = Analytics.refWins parseNum fmt trades := by
  refine ⟨_, filterExcept_pure _ (fun trade =>
    ((trade.getProp "profitAfterFees").toJsNum parseNum fmt).isPositive) trades ?_, ?_⟩
  · intro x hx
    simp only [Analytics.isWin, JsVal.member, htrades x hx, Bool.false_eq_true, if_false,
      bind, Except.bind, pure, Except.pure]
  · simp [Analytics.refWins, List.countP_eq_length_filter]

/-- C11: for every non-empty filtered list of trades the statistics are the
renderings of their reference definitions: Total Trades is the number of trades,
Total Profit is the sum of `profitAfterFees` with missing or non-numeric values
counted as 0, Avg Return is Total Profit divided by Total Trades, and Win Rate
is 100 times the number of trades with `profitAfterFees > 0` divided by Total
Trades. The sum, the quotients and the product are those of double-precision
numbers, and the amounts are shown with two decimals. -/
theorem analytics_stats_reference (parseNum : String → Option Rat) (fmt : Rat → String)
    (trades : List JsVal) (hne : trades ≠ [])
    (htrades : ∀ t ∈ trades, t.isNullish = false) :
    Analytics.stats parseNum fmt trades = .ok
      { totalProfit := "$" ++ (Analytics.refTotalProfit parseNum fmt trades).toFixed2 fmt
        totalTrades := trades.length
        winRate := (Analytics.refWinRate parseNum fmt trades).toFixed2 fmt ++ "%"
        avgReturn := "$" ++ (Analytics.refAvgReturn parseNum fmt trades).toFixed2 fmt } := by
  have hpos : trades.length > 0 := List.length_pos.mpr hne
  obtain ⟨wins, hwins, hcount⟩ := Analytics.wins_eq parseNum fmt trades htrades
  simp only [Analytics.stats, Analytics.totalProfit_eq parseNum fmt trades htrades, hwins,
    hpos, if_true, bind, Except.bind, pure, Except.pure, hcount, Analytics.refWinRate,
    Analytics.refAvgReturn]

/-- Witness of C11 on 160 trades of which 23 have the profit 1 and the others
the profit 0: Total Profit is "$23.00", Win Rate is "14.37%" (the double
`23 / 160 * 100` lies below 14.375) and Avg Return is "$0.14". -/
theorem analytics_stats_reference_witness :
    Analytics.stats sampleParse sampleFmt sampleManyTrades = .ok
      { totalProfit := "$23.00", totalTrades := 160, winRate := "14.37%",
        avgReturn := "$0.14" } := by
  have h := analytics_stats_reference sampleParse sampleFmt sampleManyTrades
    (by simp [sampleManyTrades])
    (by
      intro t ht
      simp only [sampleManyTrades, List.mem_append, List.mem_replicate] at ht
      rcases ht with ⟨_, rfl⟩ | ⟨_, rfl⟩ <;> rfl)
  have h1 : (Analytics.refTotalProfit sampleParse sampleFmt sampleManyTrades).toFixed2 sampleFmt
      = "23.00" := by decide!
  have h2 : (Analytics.refWinRate sampleParse sampleFmt sampleManyTrades).toFixed2 sampleFmt
      = "14.37" := by decide!
  have h3 : (Analytics.refAvgReturn sampleParse sampleFmt sampleManyTrades).toFixed2 sampleFmt
      = "0.14" := by decide!
  have h4 : sampleManyTrades.length = 160 := by decide!
  rw [h, h1, h2, h3, h4]
  rfl

/-- C12: when no trade falls inside the selected timeframe the statistics are
computed without any division by zero: Total Trades is 0, Total Profit is
"$0.00", Win Rate is "0%" and Avg Return is "$0.00". -/
theorem analytics_stats_empty (parseNum : String → Option Rat) (fmt : Rat → String) :
    Analytics.stats parseNum fmt [] = .ok
      { totalProfit := "$0.00", totalTrades := 0, winRate := "0%", avgReturn := "$0.00" } := by
  have hzero : (JsNum.finite 0).toFixed2 fmt = "0.00" := toFixed2_zero fmt
  simp only [Analytics.stats, reduceExcept, List.length_nil, gt_iff_lt, lt_self_iff_false,
    if_false, bind, Except.bind, pure, Except.pure, hzero]
  rfl

/-! ### Chart aggregation -/

theorem Analytics.lookupBin_mem (key : String) (v : Analytics.Slot) :
    ∀ bins : Analytics.Bins, Analytics.lookupBin key bins = some v → (key, v) ∈ bins
  | [], h => by simp [Analytics.lookupBin] at h
  | (k, w) :: rest, h => by
    by_cases hk : k = key
    · simp only [Analytics.lookupBin, hk, if_true, Option.some.injEq] at h
      simp [hk, h]
    · simp only [Analytics.lookupBin, hk, if_false] at h
      exact List.mem_cons_of_mem _ (Analytics.lookupBin_mem key v rest h)

theorem Analytics.lookupBin_none (key : String) :
    ∀ bins : Analytics.Bins, Analytics.lookupBin key bins = none → key ∉ bins.map Prod.fst
  | [], _ => by simp
  | (k, w) :: rest, h => by
    by_cases hk : k = key
    · simp [Analytics.lookupBin, hk] at h
    · simp only [Analytics.lookupBin, hk, if_false] at h
      have := Analytics.lookupBin_none key rest h
      simp only [List.map_cons, List.mem_cons, not_or]
      exact ⟨fun h2 => hk h2.symm, this⟩

theorem Analytics.setBin_keys (key : String) (v : Analytics.Slot) :
    ∀ bins : Analytics.Bins,
      (Analytics.setBin key v bins).map Prod.fst
        = if key ∈ bins.map Prod.fst then bins.map Prod.fst else bins.map Prod.fst ++ [key]
  | [] => by simp [Analytics.setBin]
  | (k, w) :: rest => by
    by_cases hk : k = key
    · simp [Analytics.setBin, hk]
    · have ih := Analytics.setBin_keys key v rest
      have hk2 : ¬ key = k := fun h => hk h.symm
      by_cases hm : key ∈ rest.map Prod.fst
      · simp only [Analytics.setBin, hk, if_false, List.map_cons, ih, hm, if_true,
          List.mem_cons, or_true]
      · simp only [Analytics.setBin, hk, if_false, List.map_cons, ih, hm, List.mem_cons,
          hk2, or_self, List.cons_append]

theorem Analytics.setBin_mem (key : String) (v : Analytics.Slot) (k : String)
    (w : Analytics.Slot) :
    ∀ bins : Analytics.Bins, (bins.map Prod.fst).Nodup →
      (k, w) ∈ Analytics.setBin key v bins →
      (k = key ∧ w = v) ∨ ((k, w) ∈ bins ∧ k ≠ key)
  | [], _, h => by
    simp only [Analytics.setBin, List.mem_singleton, Prod.mk.injEq] at h
    exact Or.inl h
  | (k0, w0) :: rest, hnd, h => by
    simp only [List.map_cons, List.nodup_cons] at hnd
    by_cases hk : k0 = key
    · simp only [Analytics.setBin, hk, if_true, List.mem_cons, Prod.mk.injEq] at h
      rcases h with h | h
      · exact Or.inl h
      · refine Or.inr ⟨List.mem_cons_of_mem _ h, ?_⟩
        intro hkk
        apply hnd.1
        rw [hk, ← hkk]
        exact List.mem_map_of_mem Prod.fst h
    · simp only [Analytics.setBin, hk, if_false, List.mem_cons, Prod.mk.injEq] at h
      rcases h with h | h
      · refine Or.inr ⟨by simp [h.1, h.2], ?_⟩
        rw [h.1]
        exact hk
      · rcases Analytics.setBin_mem key v k w rest hnd.2 h with h2 | h2
        · exact Or.inl h2
        · exact Or.inr ⟨List.mem_cons_of_mem _ h2.1, h2.2⟩

/-- The state of the map after the trades `done` were added: one property per
group of `done`, each holding the total of the profits of the group. -/
def Analytics.BinsOk (parseNum : String → Option Rat) (fmt : Rat → String) (field : String)
    (done : List JsVal) (bins : Analytics.Bins) : Prop :=
  (bins.map Prod.fst).Nodup
    ∧ (∀ k, k ∈ bins.map Prod.fst ↔ ∃ t ∈ done, Analytics.groupKey fmt field t = k)
    ∧ ∀ k v, (k, v) ∈ bins →
        v = .number (Analytics.groupProfit parseNum fmt field k done)

theorem Analytics.groupProfit_append (parseNum : String → Option Rat) (fmt : Rat → String)
    (field key : String) (done : List JsVal) (t : JsVal) :
    Analytics.groupProfit parseNum fmt field key (done ++ [t])
      = if Analytics.groupKey fmt field t = key then
          Analytics.addToTotal (Analytics.groupProfit parseNum fmt field key done)
            (Analytics.profitValue parseNum fmt t)
        else Analytics.groupProfit parseNum fmt field key done := by
  simp only [Analytics.groupProfit, List.filter_append, List.map_append, List.foldl_append]
  by_cases h : Analytics.groupKey fmt field t = key
  · simp [List.filter, h]
  · simp [List.filter, h]

theorem Analytics.addToBin_ok (parseNum : String → Option Rat) (fmt : Rat → String)
    (field : String) (done : List JsVal) (bins : Analytics.Bins) (t : JsVal)
    (hinv : Analytics.BinsOk parseNum fmt field done bins) (ht : t.isNullish = false)
    (hkey : Analytics.groupKey fmt field t ∉ Analytics.inheritedNames) :
    ∃ next, Analytics.addToBin parseNum fmt field bins t = .ok next
      ∧ Analytics.BinsOk parseNum fmt field (done ++ [t]) next := by
  obtain ⟨hnd, hkeys, hvals⟩ := hinv
  have hproto : Analytics.groupKey fmt field t ≠ "__proto__" := by
    intro h
    apply hkey
    rw [h]
    decide
  have hstep : ∃ n, Analytics.addToBin parseNum fmt field bins t
      = .ok (Analytics.setBin (Analytics.groupKey fmt field t) (.number n) bins)
      ∧ n = Analytics.groupProfit parseNum fmt field (Analytics.groupKey fmt field t)
          (done ++ [t]) := by
    simp only [Analytics.addToBin, JsVal.member, ht, Bool.false_eq_true, if_false, bind,
      Except.bind, pure, Except.pure, Analytics.orZero_toJsNum]
    change ∃ n, Except.ok (if Analytics.groupKey fmt field t = "__proto__" then bins else
      Analytics.setBin (Analytics.groupKey fmt field t)
        (match Analytics.lookupBin (Analytics.groupKey fmt field t) bins with
          | some (.number n) => .number (n.orZero.add (Analytics.profitValue parseNum fmt t))
          | some .text => .text
          | none =>
            if Analytics.groupKey fmt field t ∈ Analytics.inheritedNames then .text
            else .number ((JsNum.finite 0).add (Analytics.profitValue parseNum fmt t))) bins)
        = _ ∧ _
    rw [if_neg hproto, Analytics.groupProfit_append, if_pos rfl]
    cases hl : Analytics.lookupBin (Analytics.groupKey fmt field t) bins with
    | none =>
      refine ⟨(JsNum.finite 0).add (Analytics.profitValue parseNum fmt t),
        by simp only [if_neg hkey], ?_⟩
      have hnot := Analytics.lookupBin_none _ bins hl
      have hzero : Analytics.groupProfit parseNum fmt field
          (Analytics.groupKey fmt field t) done = .finite 0 := by
        have hall : ∀ u ∈ done,
            ¬ Analytics.groupKey fmt field u = Analytics.groupKey fmt field t := by
          intro u hu hk
          exact hnot ((hkeys _).2 ⟨u, hu, hk⟩)
        simp only [Analytics.groupProfit]
        rw [List.filter_eq_nil_iff.mpr]
        · simp
        · intro u hu
          simpa using hall u hu
      rw [hzero, Analytics.addToTotal, JsNum.orZero_finite_zero]
    | some slot =>
      have hmem := Analytics.lookupBin_mem _ slot bins hl
      have hslot := hvals _ _ hmem
      subst hslot
      exact ⟨_, rfl, rfl⟩
  obtain ⟨q, hq, hqval⟩ := hstep
  refine ⟨_, hq, ?_, ?_, ?_⟩
  · rw [Analytics.setBin_keys]
    split_ifs with hm
    · exact hnd
    · exact List.Nodup.append hnd (List.nodup_singleton _) (by simpa using hm)
  · intro k
    rw [Analytics.setBin_keys]
    constructor
    · intro hk
      have hk2 : k ∈ bins.map Prod.fst ∨ k = Analytics.groupKey fmt field t := by
        split_ifs at hk with hm
        · exact Or.inl hk
        · simpa using hk
      rcases hk2 with hk2 | hk2
      · obtain ⟨u, hu, huk⟩ := (hkeys k).1 hk2
        exact ⟨u, List.mem_append_left _ hu, huk⟩
      · exact ⟨t, by simp, hk2.symm⟩
    · rintro ⟨u, hu, huk⟩
      rcases List.mem_append.1 hu with hu | hu
      · have := (hkeys k).2 ⟨u, hu, huk⟩
        split_ifs with hm
        · exact this
        · exact List.mem_append_left _ this
      · have hut : u = t := by simpa using hu
        subst hut
        split_ifs with hm
        · rw [← huk]; exact hm
        · rw [← huk]; simp
  · intro k v hkv
    rcases Analytics.setBin_mem _ _ k v bins hnd hkv with ⟨hk, hv⟩ | ⟨hmem, hk⟩
    · rw [hv, hk, hqval]
    · rw [hvals k v hmem, Analytics.groupProfit_append, if_neg (fun h => hk h.symm)]

theorem Analytics.reduce_bins (parseNum : String → Option Rat) (fmt : Rat → String)
    (field : String) :
    ∀ (rest done : List JsVal) (bins : Analytics.Bins),
      Analytics.BinsOk parseNum fmt field done bins →
      (∀ t ∈ rest, t.isNullish = false
        ∧ Analytics.groupKey fmt field t ∉ Analytics.inheritedNames) →
      ∃ final, reduceExcept (Analytics.addToBin parseNum fmt field) bins rest = .ok final
        ∧ Analytics.BinsOk parseNum fmt field (done ++ rest) final
  | [], done, bins, hinv, _ => ⟨bins, rfl, by simpa using hinv⟩
  | t :: rest, done, bins, hinv, hrest => by
    have ht := hrest t (List.mem_cons_self t rest)
    obtain ⟨next, hnext, hinv2⟩ :=
      Analytics.addToBin_ok parseNum fmt field done bins t hinv ht.1 ht.2
    obtain ⟨final, hfinal, hinv3⟩ := Analytics.reduce_bins parseNum fmt field rest
      (done ++ [t]) next hinv2 (fun u hu => hrest u (List.mem_cons_of_mem t hu))
    refine ⟨final, ?_, ?_⟩
    · simp only [reduceExcept, hnext, hfinal]
    · simpa using hinv3

theorem traverse_eq_map {α β : Type} (f : α → Except JsError β) (g : α → β) (l : List α)
    (h : ∀ x ∈ l, f x = .ok (g x)) : traverse f l = .ok (l.map g) := by
  induction l with
  | nil => rfl
  | cons x xs ih =>
    have hx := h x (List.mem_cons_self x xs)
    have hxs := ih fun y hy => h y (List.mem_cons_of_mem x hy)
    simp only [traverse, hx, hxs, List.map_cons]

/-- The chart data grouped by `field`, for trades whose group keys are not names
inherited from `Object.prototype`: one bar per distinct key, each with the
rounded total of the profits of its group. -/
theorem Analytics.chartData_groups (parseNum : String → Option Rat) (fmt : Rat → String)
    (field : String) (trades : List JsVal)
    (htrades : ∀ t ∈ trades, t.isNullish = false)
    (hkeys : ∀ t ∈ trades, Analytics.groupKey fmt field t ∉ Analytics.inheritedNames) :
    ∃ bars, Analytics.chartData parseNum fmt field trades = .ok bars
      ∧ (bars.map Analytics.Bar.label).Nodup
      ∧ (∀ k, k ∈ bars.map Analytics.Bar.label
          ↔ ∃ t ∈ trades, Analytics.groupKey fmt field t = k)
      ∧ ∀ b ∈ bars,
          b.profit = (Analytics.groupProfit parseNum fmt field b.label trades).roundFixed2 := by
  have hstart : Analytics.BinsOk parseNum fmt field [] [] := by
    refine ⟨List.nodup_nil, ?_, ?_⟩
    · intro k
      simp
    · intro k v h
      simp at h
  obtain ⟨final, hfinal, hnd, hmem, hvals⟩ := Analytics.reduce_bins parseNum fmt field trades
    [] [] hstart (fun t ht => ⟨htrades t ht, hkeys t ht⟩)
  simp only [List.nil_append] at hnd hmem hvals
  have hbars : traverse Analytics.toBar final = .ok (final.map fun e =>
      (⟨e.1, (Analytics.groupProfit parseNum fmt field e.1 trades).roundFixed2⟩ :
        Analytics.Bar)) := by
    apply traverse_eq_map
    rintro ⟨k, v⟩ hkv
    rw [hvals k v hkv]
    rfl
  refine ⟨final.map fun e =>
      (⟨e.1, (Analytics.groupProfit parseNum fmt field e.1 trades).roundFixed2⟩ :
        Analytics.Bar), ?_, ?_, ?_, ?_⟩
  · simp only [Analytics.chartData, hfinal, bind, Except.bind]
    exact hbars
  · simpa [List.map_map, Function.comp_def] using hnd
  · intro k
    rw [← hmem k]
    simp [List.map_map, Function.comp_def]
  · intro b hb
    obtain ⟨e, _, rfl⟩ := List.mem_map.1 hb
    rfl

/-- C13 (failing input): a trade made two days ago on an exchange named
"constructor" passes the timeframe filter "7d" and reaches the charts; the
Exchange Performance aggregation then reads the inherited `constructor` function
of the map, the sum becomes a string and `profit.toFixed` throws. A trade on an
exchange named "__proto__" passes the filter as well and gets no entry at all. -/
theorem chart_fails_on_inherited_name :
    Analytics.getFilteredData sampleParse sampleFmt (.arr [sampleConstructorTrade])
        1700000000000 "7d" = .ok [sampleConstructorTrade]
      ∧ Analytics.exchangePerformance sampleParse sampleFmt [sampleConstructorTrade]
        = .error (.typeError "profit.toFixed is not a function")
      ∧ Analytics.getFilteredData sampleParse sampleFmt (.arr [sampleProtoTrade])
        1700000000000 "7d" = .ok [sampleProtoTrade]
      ∧ Analytics.exchangePerformance sampleParse sampleFmt [sampleProtoTrade] = .ok [] := by
  have hcut : Analytics.cutoff 1700000000000 "7d" = 1699395200000 := by decide
  have hc : Analytics.inTimeframe sampleParse sampleFmt
      (Analytics.cutoff 1700000000000 "7d") sampleConstructorTrade = .ok true := by
    simp only [Analytics.inTimeframe, JsVal.member, bind, Except.bind, pure, Except.pure,
      sampleConstructorTrade, JsVal.isNullish, Bool.false_eq_true, if_false]
    rw [show (JsVal.obj [("exchange", .str "constructor"), ("profitAfterFees", .num 5),
      ("tradedAt", .num 1699827200)]).getProp "tradedAt" = .num 1699827200 from rfl]
    simp only [JsVal.toNumber, numMul, numGe, Option.map, hcut]
    norm_num
  have hp : Analytics.inTimeframe sampleParse sampleFmt
      (Analytics.cutoff 1700000000000 "7d") sampleProtoTrade = .ok true := by
    simp only [Analytics.inTimeframe, JsVal.member, bind, Except.bind, pure, Except.pure,
      sampleProtoTrade, JsVal.isNullish, Bool.false_eq_true, if_false]
    rw [show (JsVal.obj [("exchange", .str "__proto__"), ("profitAfterFees", .num 5),
      ("tradedAt", .num 1699827200)]).getProp "tradedAt" = .num 1699827200 from rfl]
    simp only [JsVal.toNumber, numMul, numGe, Option.map, hcut]
    norm_num
  have hlen : ∀ t : JsVal, Analytics.lengthIsZero (.arr [t]) = false := by
    intro t
    simp only [Analytics.lengthIsZero, JsVal.getProp, if_true, List.length_cons,
      List.length_nil]
    norm_num
  refine ⟨?_, rfl, ?_, rfl⟩
  · simp only [Analytics.getFilteredData, JsVal.truthy, hlen, Bool.not_true, Bool.or_self,
      Bool.false_eq_true, if_false, filterExcept, hc, if_true]
  · simp only [Analytics.getFilteredData, JsVal.truthy, hlen, Bool.not_true, Bool.or_self,
      Bool.false_eq_true, if_false, filterExcept, hp, if_true]

/-- The Exchange Performance and Pair Performance data for trades whose exchange
and ticker are not names inherited from `Object.prototype`: exactly one entry
per distinct name (a missing or empty name counts as "Unknown"), each with the
total of `profitAfterFees` over its trades, rounded to two decimals. -/
theorem chart_groups_outside_inherited_names (parseNum : String → Option Rat)
    (fmt : Rat → String) (trades : List JsVal)
    (htrades : ∀ t ∈ trades, t.isNullish = false)
    (hexchange : ∀ t ∈ trades,
      Analytics.groupKey fmt "exchange" t ∉ Analytics.inheritedNames)
    (hticker : ∀ t ∈ trades, Analytics.groupKey fmt "ticker" t ∉ Analytics.inheritedNames) :
    (∃ bars, Analytics.exchangePerformance parseNum fmt trades = .ok bars
      ∧ (bars.map Analytics.Bar.label).Nodup
      ∧ (∀ k, k ∈ bars.map Analytics.Bar.label
          ↔ ∃ t ∈ trades, Analytics.groupKey fmt "exchange" t = k)
      ∧ ∀ b ∈ bars, b.profit
          = (Analytics.groupProfit parseNum fmt "exchange" b.label trades).roundFixed2)
    ∧ (∃ bars, Analytics.pairPerformance parseNum fmt trades = .ok bars
      ∧ (bars.map Analytics.Bar.label).Nodup
      ∧ (∀ k, k ∈ bars.map Analytics.Bar.label
          ↔ ∃ t ∈ trades, Analytics.groupKey fmt "ticker" t = k)
      ∧ ∀ b ∈ bars, b.profit
          = (Analytics.groupProfit parseNum fmt "ticker" b.label trades).roundFixed2) :=
  ⟨Analytics.chartData_groups parseNum fmt "exchange" trades htrades hexchange,
   Analytics.chartData_groups parseNum fmt "ticker" trades htrades hticker⟩

/-- A total that never becomes `NaN` is the plain sum: the total of a group is
the sum of its profits, added from left to right, as long as no partial sum is
`NaN`. -/
theorem Analytics.foldl_addToTotal_eq_sum (ps : List JsNum) :
    (∀ k, (ps.take k).foldl JsNum.add (.finite 0) ≠ .nan) →
    ps.foldl Analytics.addToTotal (.finite 0) = JsNum.sum ps := by
  intro h
  have key : ∀ (rest done : List JsNum), done ++ rest = ps →
      rest.foldl Analytics.addToTotal (done.foldl JsNum.add (.finite 0))
        = rest.foldl JsNum.add (done.foldl JsNum.add (.finite 0)) := by
    intro rest
    induction rest with
    | nil => intro done _; rfl
    | cons p rest ih =>
      intro done hd
      have hne : done.foldl JsNum.add (.finite 0) ≠ .nan := by
        have := h done.length
        rwa [← hd, List.take_left'] at this
        rfl
      have := ih (done ++ [p]) (by simp [← hd])
      simp only [List.foldl_append, List.foldl_cons, List.foldl_nil] at this
      simp only [List.foldl_cons, Analytics.addToTotal, JsNum.orZero_of_ne_nan _ hne]
      exact this
  exact key ps [] rfl

/-! ### Balance history statistics -/

theorem History.addField_eq (fmt : Rat → String) (field : String) (entry : JsVal)
    (hentry : entry.isNullish = false)
    (hfield : (∃ q, entry.getProp field = .num q) ∨ entry.getProp field = .undefined
      ∨ entry.getProp field = .null) (a : JsNum) :
    History.addField fmt field (.number a) entry
      = .ok (.number (a.add (History.amountOf field entry))) := by
  simp only [History.addField, JsVal.member, hentry, Bool.false_eq_true, if_false, bind,
    Except.bind, pure, Except.pure, History.amountOf]
  rcases hfield with ⟨q, hq⟩ | hq | hq
  · rw [hq]
    by_cases h0 : q = 0
    · simp [JsVal.or, JsVal.truthy, h0, Total.add]
    · simp [JsVal.or, JsVal.truthy, h0, Total.add]
  · rw [hq]
    simp [JsVal.or, JsVal.truthy, Total.add, JsNum.ofReal_zero]
  · rw [hq]
    simp [JsVal.or, JsVal.truthy, Total.add, JsNum.ofReal_zero]

theorem History.reduce_field (fmt : Rat → String) (field : String) :
    ∀ (entries : List JsVal) (a : JsNum),
      (∀ e ∈ entries, e.isNullish = false
        ∧ ((∃ q, e.getProp field = .num q) ∨ e.getProp field = .undefined
          ∨ e.getProp field = .null)) →
      reduceExcept (History.addField fmt field) (.number a) entries
        = .ok (.number ((entries.map (History.amountOf field)).foldl JsNum.add a))
  | [], a, _ => by simp [reduceExcept]
  | e :: rest, a, h => by
    have he := h e (List.mem_cons_self e rest)
    have hrest := History.reduce_field fmt field rest (a.add (History.amountOf field e))
      (fun x hx => h x (List.mem_cons_of_mem e hx))
    simp only [reduceExcept, History.addField_eq fmt field e he.1 he.2 a, hrest,
      List.map_cons, List.foldl_cons]

theorem History.wellTyped_iff (entry : JsVal) (h : History.wellTyped entry = true) :
    entry.isNullish = false
      ∧ ((∃ q, entry.getProp "deposit" = .num q) ∨ entry.getProp "deposit" = .undefined
        ∨ entry.getProp "deposit" = .null)
      ∧ ((∃ q, entry.getProp "withdrawal" = .num q) ∨ entry.getProp "withdrawal" = .undefined
        ∨ entry.getProp "withdrawal" = .null) := by
  simp only [History.wellTyped, Bool.and_eq_true, Bool.not_eq_true'] at h
  obtain ⟨⟨h1, h2⟩, h3⟩ := h
  refine ⟨h1, ?_, ?_⟩
  · cases hd : entry.getProp "deposit" <;> simp_all
  · cases hw : entry.getProp "withdrawal" <;> simp_all

/-- C14 (failing input): for a balance history whose deposits arrive as the texts
"20" and "5" the reducer `sum + (item.deposit || 0)` concatenates instead of
adding: Total Deposits shows the text "0205", not the sum 25. The other three
cards are as the claim says. -/
theorem history_totals_concatenate_text :
    History.stats sampleFmt sampleTextHistory = .ok
      { totalTransactions := 2
        totalDeposits := .text "0205"
        totalWithdrawals := .number (.finite 0)
        currentBalance := .num 25 } := by
  have h0 : (JsNum.finite 0).add (JsNum.ofReal 0) = .finite 0 := by decide!
  have hw : reduceExcept (History.addField sampleFmt "withdrawal") (.number (.finite 0))
      sampleTextHistory = .ok (.number (.finite 0)) := by
    simp only [sampleTextHistory, reduceExcept, History.addField, JsVal.member, JsVal.isNullish,
      Bool.false_eq_true, if_false, bind, Except.bind, pure, Except.pure]
    rw [show (JsVal.obj [("id", .num 2), ("amount", .num 25), ("deposit", .str "20")]).getProp
        "withdrawal" = .undefined from rfl,
      show (JsVal.obj [("id", .num 1), ("amount", .num 5), ("deposit", .str "5")]).getProp
        "withdrawal" = .undefined from rfl,
      show (JsVal.undefined).or (.num 0) = .num 0 from rfl]
    simp only [Total.add, h0]
  have hd : reduceExcept (History.addField sampleFmt "deposit") (.number (.finite 0))
      sampleTextHistory = .ok (.text "0205") := rfl
  simp only [History.stats, hd, hw, bind, Except.bind, pure, Except.pure]
  rfl

/-- On a balance history whose deposits and withdrawals are numbers or missing,
Total Transactions is the length of the list, Total Deposits and Total
Withdrawals are the sums of the `deposit` and `withdrawal` fields with missing
values counted as 0, and Current Balance is the `amount` of the first entry of
the list, or 0 when the list is empty. -/
theorem history_stats_on_numeric_entries (fmt : Rat → String) (balanceHistory : List JsVal)
    (hentries : ∀ e ∈ balanceHistory, History.wellTyped e = true) :
    History.stats fmt balanceHistory = .ok
      { totalTransactions := balanceHistory.length
        totalDeposits := .number (JsNum.sum (balanceHistory.map (History.amountOf "deposit")))
        totalWithdrawals :=
          .number (JsNum.sum (balanceHistory.map (History.amountOf "withdrawal")))
        currentBalance :=
          (balanceHistory.head?.map fun first => first.getProp "amount").getD (.num 0) } := by
  have hdep := History.reduce_field fmt "deposit" balanceHistory (.finite 0)
    (fun e he => ⟨(History.wellTyped_iff e (hentries e he)).1,
      (History.wellTyped_iff e (hentries e he)).2.1⟩)
  have hwd := History.reduce_field fmt "withdrawal" balanceHistory (.finite 0)
    (fun e he => ⟨(History.wellTyped_iff e (hentries e he)).1,
      (History.wellTyped_iff e (hentries e he)).2.2⟩)
  have hbal : History.currentBalance balanceHistory
      = .ok ((balanceHistory.head?.map fun first => first.getProp "amount").getD (.num 0)) := by
    cases balanceHistory with
    | nil => rfl
    | cons first rest =>
      have hfirst := (History.wellTyped_iff first
        (hentries first (List.mem_cons_self first rest))).1
      simp [History.currentBalance, JsVal.member, hfirst]
  simp only [History.stats, hdep, hwd, hbal, bind, Except.bind, pure, Except.pure, JsNum.sum]

/-- The sample history of three entries: three transactions, deposits 170,
withdrawals 50 and the balance 120 of the newest entry. -/
theorem history_stats_on_sample :
    History.stats sampleFmt sampleHistory = .ok
      { totalTransactions := 3
        totalDeposits := .number (.finite 170)
        totalWithdrawals := .number (.finite 50)
        currentBalance := .num 120 } := by
  have h := history_stats_on_numeric_entries sampleFmt sampleHistory (by
    intro e he
    simp only [sampleHistory, List.mem_cons, List.mem_singleton, List.not_mem_nil,
      or_false] at he
    rcases he with rfl | rfl | rfl <;> rfl)
  have h1 : JsNum.sum (sampleHistory.map (History.amountOf "deposit")) = .finite 170 := by
    decide!
  have h2 : JsNum.sum (sampleHistory.map (History.amountOf "withdrawal")) = .finite 50 := by
    decide!
  rw [h, h1, h2]
  rfl

/-! ### Exports against table cells -/

/-- C15 (failing input): for a reinvestment whose status is "PENDING" the table
shows the label "Pending" while the PDF and Excel exports write "PENDING". -/
theorem reinvest_export_status_keeps_case :
    ReinvestManagementReport.statusCell (.obj [("status", .str "PENDING")])
        = .ok (Badge.yellow, "Pending")
      ∧ ReinvestManagementReport.exportStatus (.obj [("status", .str "PENDING")])
        = .ok "PENDING" := by
  constructor <;> rfl

/-- C16 (failing input): for a reinvestment whose user has an email but no
username the table shows the part of the email before "@" while the PDF and
Excel exports write "Unknown". -/
theorem reinvest_export_username_skips_email :
    ReinvestManagementReport.usernameCell
        (.obj [("user", .obj [("email", .str "alice@example.com")])]) = .ok (.str "alice")
      ∧ ReinvestManagementReport.exportUsername
        (.obj [("user", .obj [("email", .str "alice@example.com")])])
        = .ok (.str "Unknown") := by
  constructor <;> rfl

/-! ### Letter case -/

theorem toUpper_toLower_char (c : Char) : c.toLower.toUpper = c.toUpper := by
  by_cases h : c.toNat ≥ 65 ∧ c.toNat ≤ 90
  · obtain ⟨h1, h2⟩ := h
    have hc : c = Char.ofNat c.toNat := (Char.ofNat_toNat c).symm
    generalize c.toNat = n at hc h1 h2
    subst hc
    interval_cases n <;> rfl
  · have hsame : c.toLower = c := by
      unfold Char.toLower
      simp only [h, if_false]
    rw [hsame]

theorem toLower_toLower_char (c : Char) : c.toLower.toLower = c.toLower := by
  by_cases h : c.toNat ≥ 65 ∧ c.toNat ≤ 90
  · obtain ⟨h1, h2⟩ := h
    have hc : c = Char.ofNat c.toNat := (Char.ofNat_toNat c).symm
    generalize c.toNat = n at hc h1 h2
    subst hc
    interval_cases n <;> rfl
  · have hsame : c.toLower = c := by
      unfold Char.toLower
      simp only [h, if_false]
    rw [hsame, hsame]

theorem toLower_toUpper_char (c : Char) : c.toUpper.toLower = c.toLower := by
  by_cases h : c.toNat ≥ 97 ∧ c.toNat ≤ 122
  · obtain ⟨h1, h2⟩ := h
    have hc : c = Char.ofNat c.toNat := (Char.ofNat_toNat c).symm
    generalize c.toNat = n at hc h1 h2
    subst hc
    interval_cases n <;> rfl
  · have hsame : c.toUpper = c := by
      unfold Char.toUpper
      simp only [h, if_false]
    rw [hsame]

theorem toLowerCase_idem (s : String) : toLowerCase (toLowerCase s) = toLowerCase s := by
  simp [toLowerCase, List.map_map, Function.comp_def, toLower_toLower_char]

theorem toLowerCase_toUpperCase (s : String) : toLowerCase (toUpperCase s) = toLowerCase s := by
  simp [toLowerCase, toUpperCase, List.map_map, Function.comp_def, toLower_toUpper_char]

theorem toLowerCase_eq_empty (s : String) : toLowerCase s = "" ↔ s = "" := by
  constructor
  · intro h
    have hd : (toLowerCase s).data = [] := by rw [h]
    simp only [toLowerCase, List.map_eq_nil_iff] at hd
    exact String.ext hd
  · intro h
    rw [h]
    rfl

theorem upperFirstLowerRest_toLowerCase (s : String) :
    upperFirstLowerRest (toLowerCase s) = upperFirstLowerRest s := by
  cases hs : s.data with
  | nil => simp [upperFirstLowerRest, toLowerCase, hs]
  | cons c rest =>
    simp [upperFirstLowerRest, toLowerCase, hs, List.map_map, Function.comp_def,
      toUpper_toLower_char, toLower_toLower_char]

/-- C17: for every swap record whose status is a string or missing, the Status
text written to the PDF and Excel exports, `capitalize(status || "pending")`,
equals the label shown in the table, which lower-cases the status first and
shows "Completed" for "completed" and `capitalize(status)` otherwise. -/
theorem swap_export_status_matches_label (item : JsVal) (hitem : item.isNullish = false)
    (hstatus : (∃ s, item.getProp "status" = .str s) ∨ item.getProp "status" = .undefined
      ∨ item.getProp "status" = .null) :
    ∃ badge label, SwapManagementReport.statusCell item = .ok (badge, label)
      ∧ SwapManagementReport.exportStatus item = .ok label := by
  have hkey : ∀ s : String, s ≠ "" →
      SwapManagementReport.labelOf (toLowerCase s) = SwapManagementReport.capitalize (.str s)
        ∧ ∃ label, SwapManagementReport.capitalize (.str s) = .ok label := by
    intro s hs
    have hl : toLowerCase s ≠ "" := fun h => hs ((toLowerCase_eq_empty s).1 h)
    have hcap : SwapManagementReport.capitalize (.str s) = .ok (upperFirstLowerRest s) := by
      simp [SwapManagementReport.capitalize, JsVal.truthy, hs, JsVal.receiver, bind,
        Except.bind, pure, Except.pure]
    have hcapl : SwapManagementReport.capitalize (.str (toLowerCase s))
        = .ok (upperFirstLowerRest s) := by
      simp [SwapManagementReport.capitalize, JsVal.truthy, hl, JsVal.receiver, bind,
        Except.bind, pure, Except.pure, upperFirstLowerRest_toLowerCase]
    refine ⟨?_, _, hcap⟩
    by_cases hc : toLowerCase s = "completed"
    · rw [hcap, ← upperFirstLowerRest_toLowerCase, hc]
      rfl
    · simp only [SwapManagementReport.labelOf, hc, if_false, hcapl, hcap]
  have hcell : ∀ s : String, s ≠ "" →
      (item.getProp "status").or (.str "pending") = .str s →
      ∃ badge label, SwapManagementReport.statusCell item = .ok (badge, label)
        ∧ SwapManagementReport.exportStatus item = .ok label := by
    intro s hs hor
    obtain ⟨hlabel, label, hcap⟩ := hkey s hs
    refine ⟨SwapManagementReport.badgeOf (toLowerCase s), label, ?_, ?_⟩
    · simp only [SwapManagementReport.statusCell, JsVal.member, hitem, Bool.false_eq_true,
        if_false, bind, Except.bind, hor, JsVal.receiver, hlabel, hcap, pure, Except.pure]
    · simp only [SwapManagementReport.exportStatus, JsVal.member, hitem, Bool.false_eq_true,
        if_false, bind, Except.bind, hor, hcap]
  rcases hstatus with ⟨s, hs⟩ | hs | hs
  · by_cases hempty : s = ""
    · exact hcell "pending" (by decide) (by rw [hs, hempty]; rfl)
    · exact hcell s hempty (by rw [hs]; simp [JsVal.or, JsVal.truthy, hempty])
  · exact hcell "pending" (by decide) (by rw [hs]; rfl)
  · exact hcell "pending" (by decide) (by rw [hs]; rfl)

/-- Witness of C17 on a swap whose status is "COMPLETED". -/
theorem swap_export_status_matches_label_witness :
    ∃ badge label,
      SwapManagementReport.statusCell (.obj [("status", .str "COMPLETED")]) = .ok (badge, label)
        ∧ SwapManagementReport.exportStatus (.obj [("status", .str "COMPLETED")]) = .ok label :=
  swap_export_status_matches_label (.obj [("status", .str "COMPLETED")]) rfl
    (Or.inl ⟨"COMPLETED", rfl⟩)

/-! ### Badge colours -/

theorem statusOr_eq (fallback : String) (hf : fallback ≠ "") (item : JsVal)
    (hitem : hasTextStatus item = true) :
    item.isNullish = false
      ∧ (item.getProp "status").or (.str fallback) = .str (statusOr fallback item)
      ∧ statusOr fallback item ≠ "" := by
  simp only [hasTextStatus, Bool.and_eq_true, Bool.not_eq_true'] at hitem
  obtain ⟨h1, h2⟩ := hitem
  refine ⟨h1, ?_, ?_⟩
  · cases hs : item.getProp "status" with
    | str t =>
      by_cases ht : t = ""
      · simp [statusOr, hs, ht, JsVal.or, JsVal.truthy]
      · simp [statusOr, hs, ht, JsVal.or, JsVal.truthy]
    | undefined => simp [statusOr, hs, JsVal.or, JsVal.truthy]
    | null => simp [statusOr, hs, JsVal.or, JsVal.truthy]
    | bool b => simp [hs] at h2
    | num q => simp [hs] at h2
    | arr xs => simp [hs] at h2
    | obj fs => simp [hs] at h2
  · cases hs : item.getProp "status" with
    | str t =>
      by_cases ht : t = ""
      · simp [statusOr, hs, ht, hf]
      · simp [statusOr, hs, ht]
    | undefined => simpa [statusOr, hs] using hf
    | null => simpa [statusOr, hs] using hf
    | bool b => simp [hs] at h2
    | num q => simp [hs] at h2
    | arr xs => simp [hs] at h2
    | obj fs => simp [hs] at h2

theorem completedByDefaultCell_eq (item : JsVal) (hitem : hasTextStatus item = true) :
    completedByDefaultCell item
      = .ok (completedByDefaultBadge (toLowerCase (statusOr "completed" item)),
          upperFirst (toLowerCase (statusOr "completed" item))) := by
  obtain ⟨h1, h2, _⟩ := statusOr_eq "completed" (by decide) item hitem
  simp only [completedByDefaultCell, JsVal.member, h1, Bool.false_eq_true, if_false, bind,
    Except.bind, h2, JsVal.receiver, pure, Except.pure]

/-- C20: for every record whose status is a string or missing the colour of the
status badge is determined as follows. Transfer and reinvest reports: a missing
status is treated as "completed"; the badge is green iff the lower-cased status
is "completed", yellow iff it is "pending", and red otherwise. Swap report: a
missing status is treated as "pending"; the badge is green iff the lower-cased
status is "completed", red iff it is "rejected" or "failed", and yellow
otherwise. Each cell has exactly one colour. -/
theorem status_badge_colours (item : JsVal) (hitem : hasTextStatus item = true) :
    (∃ badge label,
        TransferManagementReport.statusCell item = .ok (badge, label)
        ∧ ReinvestManagementReport.statusCell item = .ok (badge, label)
        ∧ (badge = Badge.green ↔ toLowerCase (statusOr "completed" item) = "completed")
        ∧ (badge = Badge.yellow ↔ toLowerCase (statusOr "completed" item) = "pending")
        ∧ (badge = Badge.red ↔
            toLowerCase (statusOr "completed" item) ≠ "completed"
              ∧ toLowerCase (statusOr "completed" item) ≠ "pending"))
    ∧ (∃ badge label,
        SwapManagementReport.statusCell item = .ok (badge, label)
        ∧ (badge = Badge.green ↔ toLowerCase (statusOr "pending" item) = "completed")
        ∧ (badge = Badge.red ↔
            toLowerCase (statusOr "pending" item) = "rejected"
              ∨ toLowerCase (statusOr "pending" item) = "failed")
        ∧ (badge = Badge.yellow ↔
            toLowerCase (statusOr "pending" item) ≠ "completed"
              ∧ toLowerCase (statusOr "pending" item) ≠ "rejected"
              ∧ toLowerCase (statusOr "pending" item) ≠ "failed")) := by
  constructor
  · refine ⟨_, _, completedByDefaultCell_eq item hitem, completedByDefaultCell_eq item hitem,
      ?_, ?_, ?_⟩
    · simp only [completedByDefaultBadge]
      split_ifs with h1 h2 <;> simp [h1]
    · simp only [completedByDefaultBadge]
      split_ifs with h1 h2
      · simp [h1]
      · simp [h2]
      · simp [h2]
    · simp only [completedByDefaultBadge]
      split_ifs with h1 h2
      · simp [h1]
      · simp [h2]
      · simp [h1, h2]
  · obtain ⟨h1, h2, h3⟩ := statusOr_eq "pending" (by decide) item hitem
    have hl : toLowerCase (statusOr "pending" item) ≠ "" :=
      fun h => h3 ((toLowerCase_eq_empty _).1 h)
    have hlabel : ∃ label,
        SwapManagementReport.labelOf (toLowerCase (statusOr "pending" item)) = .ok label := by
      by_cases hc : toLowerCase (statusOr "pending" item) = "completed"
      · exact ⟨"Completed", by simp [SwapManagementReport.labelOf, hc]⟩
      · exact ⟨upperFirstLowerRest (toLowerCase (statusOr "pending" item)), by
          simp [SwapManagementReport.labelOf, hc, SwapManagementReport.capitalize,
            JsVal.truthy, hl, JsVal.receiver, bind, Except.bind, pure, Except.pure]⟩
    obtain ⟨label, hlab⟩ := hlabel
    refine ⟨SwapManagementReport.badgeOf (toLowerCase (statusOr "pending" item)), label,
      ?_, ?_, ?_, ?_⟩
    · simp only [SwapManagementReport.statusCell, JsVal.member, h1, Bool.false_eq_true,
        if_false, bind, Except.bind, h2, JsVal.receiver, hlab, pure, Except.pure]
    · simp only [SwapManagementReport.badgeOf]
      split_ifs with h4 h5 <;> simp [h4]
    · simp only [SwapManagementReport.badgeOf]
      split_ifs with h4 h5
      · simp [h4]
      · simpa using h5
      · simpa using h5
    · simp only [SwapManagementReport.badgeOf]
      split_ifs with h4 h5
      · simp [h4]
      · rcases h5 with h5 | h5 <;> simp [h5]
      · simp only [not_or] at h5
        simp [h4, h5.1, h5.2]

/-- Witness of C20 on a record whose status is "Rejected": red in all three
reports. -/
theorem status_badge_colours_witness :
    (∃ badge label,
        TransferManagementReport.statusCell (.obj [("status", .str "Rejected")])
          = .ok (badge, label)
        ∧ ReinvestManagementReport.statusCell (.obj [("status", .str "Rejected")])
          = .ok (badge, label)
        ∧ badge = Badge.red)
    ∧ (∃ badge label,
        SwapManagementReport.statusCell (.obj [("status", .str "Rejected")])
          = .ok (badge, label)
        ∧ badge = Badge.red) := by
  obtain ⟨⟨b1, l1, ht, hr, _, _, hred1⟩, b2, l2, hs, _, hred2, _⟩ :=
    status_badge_colours (.obj [("status", .str "Rejected")]) rfl
  exact ⟨⟨b1, l1, ht, hr, hred1.2 ⟨by decide, by decide⟩⟩,
    ⟨b2, l2, hs, hred2.2 (Or.inl (by decide))⟩⟩

/-! ### Retopup / Reinvest button -/

theorem JsVal.strictEqStr_iff (v : JsVal) (s : String) :
    v.strictEqStr s = true ↔ v = .str s := by
  cases v <;> simp [JsVal.strictEqStr]

theorem Dashboard.literal198_eq :
    Dashboard.literal198 = 4458563631096791 / 2251799813685248 := by decide!

/-- C19: the Retopup / Reinvest button is shown iff `earningTimes` is the string
"2.00X" or its numeric value (after removing "X") is between 1.98 and 2.00
inclusive, the bounds being the numbers of the literals `1.98` and `2.00`; a
value of at least 1.98 is therefore shown (up to 2), as is the number that
`parseFloat` reads from "1.98". In particular the button is hidden for the
fallback "0X", for a missing `earningTimes`, and for every multiple greater than
2.00. -/
theorem retopup_button_condition (parseFloat : String → Option Rat) (fmt : Rat → String)
    (earningTimes : JsVal) :
    (Dashboard.shouldShowButton parseFloat fmt earningTimes = true
        ↔ earningTimes = .str "2.00X"
          ∨ ∃ q, Dashboard.parsedEarningTimes parseFloat fmt earningTimes = some q
              ∧ Dashboard.literal198 ≤ q ∧ q ≤ 2)
    ∧ (∀ q, Dashboard.parsedEarningTimes parseFloat fmt earningTimes = some q →
        (q = nearestDouble (198 / 100) ∨ (198 : Rat) / 100 ≤ q) → q ≤ 2 →
        Dashboard.shouldShowButton parseFloat fmt earningTimes = true)
    ∧ (parseFloat "0" = some 0 →
        Dashboard.shouldShowButton parseFloat fmt
          (Dashboard.loadedEarningTimes .undefined) = false)
    ∧ (parseFloat "undefined" = none →
        Dashboard.shouldShowButton parseFloat fmt .undefined = false)
    ∧ (∀ q, Dashboard.parsedEarningTimes parseFloat fmt earningTimes = some q → 2 < q →
        earningTimes ≠ .str "2.00X" →
        Dashboard.shouldShowButton parseFloat fmt earningTimes = false) := by
  have hlit : Dashboard.literal198 < 198 / 100 := by
    rw [Dashboard.literal198_eq]
    norm_num
  have hpos : (0 : Rat) < Dashboard.literal198 := by
    rw [Dashboard.literal198_eq]
    norm_num
  have hiff : Dashboard.shouldShowButton parseFloat fmt earningTimes = true
      ↔ earningTimes = .str "2.00X"
        ∨ ∃ q, Dashboard.parsedEarningTimes parseFloat fmt earningTimes = some q
            ∧ Dashboard.literal198 ≤ q ∧ q ≤ 2 := by
    simp only [Dashboard.shouldShowButton, Bool.or_eq_true, JsVal.strictEqStr_iff]
    constructor
    · rintro (h | h)
      · exact Or.inl h
      · right
        cases hp : Dashboard.parsedEarningTimes parseFloat fmt earningTimes with
        | none => simp [hp] at h
        | some q =>
          simp only [hp, Bool.and_eq_true, decide_eq_true_eq] at h
          exact ⟨q, rfl, h⟩
    · rintro (h | ⟨q, hq, h1, h2⟩)
      · exact Or.inl h
      · right
        simp [hq, h1, h2]
  refine ⟨hiff, ?_, ?_, ?_, ?_⟩
  · intro q hq hlow hhigh
    refine hiff.2 (Or.inr ⟨q, hq, ?_, hhigh⟩)
    rcases hlow with h | h
    · rw [h]
      exact le_refl _
    · exact le_of_lt (lt_of_lt_of_le hlit h)
  · intro h0
    have hp : Dashboard.parsedEarningTimes parseFloat fmt
        (Dashboard.loadedEarningTimes .undefined) = some 0 := by
      have hx : Dashboard.removeFirstX "0X" = "0" := by decide
      show parseFloat (Dashboard.removeFirstX "0X") = some 0
      rw [hx, h0]
    have hs : (Dashboard.loadedEarningTimes .undefined).strictEqStr "2.00X" = false := by
      decide
    have hn : ¬ Dashboard.literal198 ≤ 0 := not_le.mpr hpos
    simp [Dashboard.shouldShowButton, hs, hp, hn]
  · intro hu
    have hp : Dashboard.parsedEarningTimes parseFloat fmt .undefined = none := hu
    simp [Dashboard.shouldShowButton, hp, JsVal.strictEqStr]
  · intro q hq hgt hne
    have hs : earningTimes.strictEqStr "2.00X" = false := by
      cases h : earningTimes.strictEqStr "2.00X"
      · rfl
      · exact absurd ((JsVal.strictEqStr_iff _ _).1 h) hne
    have h2 : ¬ q ≤ 2 := not_le.mpr hgt
    simp [Dashboard.shouldShowButton, hs, hq, h2]

/-- Witness of C19 with a `parseFloat` that reads "0", "1.97", "1.98", "1.99" and
"2.5" as doubles: the button is shown for "1.98X" and "1.99X", and hidden for
"1.97X", for the fallback, for a missing value and for "2.5X". -/
theorem retopup_button_condition_witness :
    Dashboard.shouldShowButton sampleParseFloat sampleFmt (.str "1.98X") = true
      ∧ Dashboard.shouldShowButton sampleParseFloat sampleFmt (.str "1.99X") = true
      ∧ Dashboard.shouldShowButton sampleParseFloat sampleFmt (.str "1.97X") = false
      ∧ Dashboard.shouldShowButton sampleParseFloat sampleFmt
          (Dashboard.loadedEarningTimes .undefined) = false
      ∧ Dashboard.shouldShowButton sampleParseFloat sampleFmt .undefined = false
      ∧ Dashboard.shouldShowButton sampleParseFloat sampleFmt (.str "2.5X") = false := by
  have hp0 : Dashboard.parsedEarningTimes sampleParseFloat sampleFmt (.str "1.98X")
      = some (nearestDouble (198 / 100)) := by decide!
  have hp1 : Dashboard.parsedEarningTimes sampleParseFloat sampleFmt (.str "1.99X")
      = some (nearestDouble (199 / 100)) := by decide!
  have hp2 : Dashboard.parsedEarningTimes sampleParseFloat sampleFmt (.str "2.5X")
      = some (5 / 2) := by decide!
  refine ⟨?_, ?_, ?_, ?_, ?_, ?_⟩
  · exact (retopup_button_condition sampleParseFloat sampleFmt (.str "1.98X")).2.1
      _ hp0 (Or.inl rfl) (by decide!)
  · exact (retopup_button_condition sampleParseFloat sampleFmt (.str "1.99X")).1.2
      (Or.inr ⟨_, hp1, by decide!, by decide!⟩)
  · decide!
  · exact (retopup_button_condition sampleParseFloat sampleFmt .undefined).2.2.1 (by decide!)
  · exact (retopup_button_condition sampleParseFloat sampleFmt .undefined).2.2.2.1
      (by decide!)
  · exact (retopup_button_condition sampleParseFloat sampleFmt (.str "2.5X")).2.2.2.2
      (5 / 2) hp2 (by norm_num) (by simp)

/-! ### Global filters -/

theorem includesChars_iff (hay needle : List Char) :
    includesChars hay needle = true ↔ needle <:+: hay := by
  induction hay with
  | nil =>
    simp only [includesChars, List.isEmpty_iff, List.infix_nil]
  | cons c t ih =>
    simp only [includesChars, Bool.or_eq_true, List.isPrefixOf_iff_prefix, ih,
      List.infix_cons_iff]

theorem searchValues_cons (lowerCase : String → String) (fmt : Rat → String) (v : JsVal)
    (vs : List JsVal) :
    searchValues lowerCase fmt (v :: vs)
      = textOf lowerCase fmt v ++ searchValues lowerCase fmt vs := by
  by_cases h : v.truthy = true
  · simp [searchValues, textOf, h, List.filter_cons]
  · simp [searchValues, textOf, h, List.filter_cons]

theorem textOf_optToString (lowerCase : String → String) (fmt : Rat → String) (v : JsVal) :
    textOf lowerCase fmt (v.optToString fmt) = amountTextOf lowerCase fmt v := by
  by_cases hn : v.isNullish = true
  · simp [textOf, amountTextOf, JsVal.optToString, hn, JsVal.truthy]
  · by_cases he : v.toStr fmt = ""
    · simp [textOf, amountTextOf, JsVal.optToString, hn, JsVal.truthy, he]
    · simp [textOf, amountTextOf, JsVal.optToString, hn, JsVal.truthy, he, JsVal.toStr]

theorem SwapManagementReport.swapFilter_eq (lowerCase : String → String)
    (fmt : Rat → String) (item : JsVal) (hitem : item.isNullish = false) (search : String) :
    SwapManagementReport.globalFilterFn lowerCase fmt item search
      = .ok ((SwapManagementReport.searchedTexts lowerCase fmt item).any
          fun text => includes text (lowerCase search)) := by
  simp only [SwapManagementReport.globalFilterFn, JsVal.member, hitem, Bool.false_eq_true,
    if_false, bind, Except.bind, pure, Except.pure, searchValues_cons, textOf_optToString,
    SwapManagementReport.searchedTexts]
  simp [searchValues, List.append_assoc]

theorem TransferManagementReport.transferFilter_eq (lowerCase : String → String)
    (fmt : Rat → String) (item : JsVal) (hitem : item.isNullish = false) (search : String) :
    TransferManagementReport.globalFilterFn lowerCase fmt item search
      = .ok ((TransferManagementReport.searchedTexts lowerCase fmt item).any
          fun text => includes text (lowerCase search)) := by
  simp only [TransferManagementReport.globalFilterFn, JsVal.member, hitem, Bool.false_eq_true,
    if_false, bind, Except.bind, pure, Except.pure, searchValues_cons, textOf_optToString,
    TransferManagementReport.searchedTexts]
  simp [searchValues, List.append_assoc]

theorem recase_empty_iff (lowerCase : String → String)
    (hlow : ∀ s, lowerCase s = "" ↔ s = "") (f : String → String)
    (hf : ∀ s, lowerCase (f s) = lowerCase s) (s : String) : f s = "" ↔ s = "" := by
  rw [← hlow (f s), hf, hlow]

theorem textOf_recase (lowerCase : String → String) (hlow : ∀ s, lowerCase s = "" ↔ s = "")
    (fmt : Rat → String) (f : String → String)
    (hf : ∀ s, lowerCase (f s) = lowerCase s) (v : JsVal) :
    textOf lowerCase fmt (v.recase f) = textOf lowerCase fmt v := by
  cases v with
  | str s =>
    by_cases hs : s = ""
    · have hfs : f s = "" := (recase_empty_iff lowerCase hlow f hf s).2 hs
      subst hs
      simp [JsVal.recase, textOf, JsVal.truthy, hfs]
    · have hfs : f s ≠ "" := fun h => hs ((recase_empty_iff lowerCase hlow f hf s).1 h)
      simp [JsVal.recase, textOf, JsVal.truthy, hs, hfs, JsVal.toStr, hf]
  | undefined => rfl
  | null => rfl
  | bool b => rfl
  | num q => rfl
  | arr xs => rfl
  | obj fs => rfl

theorem textOf_recaseField (lowerCase : String → String)
    (hlow : ∀ s, lowerCase s = "" ↔ s = "") (fmt : Rat → String) (f : String → String)
    (hf : ∀ s, lowerCase (f s) = lowerCase s) (v : JsVal) :
    textOf lowerCase fmt (v.recaseField f) = textOf lowerCase fmt v := by
  cases v with
  | str s => exact textOf_recase lowerCase hlow fmt f hf (.str s)
  | obj fs => simp [JsVal.recaseField, textOf, JsVal.truthy, JsVal.toStr]
  | undefined => rfl
  | null => rfl
  | bool b => rfl
  | num q => rfl
  | arr xs => rfl

theorem amountTextOf_recaseField (lowerCase : String → String)
    (hlow : ∀ s, lowerCase s = "" ↔ s = "") (fmt : Rat → String) (f : String → String)
    (hf : ∀ s, lowerCase (f s) = lowerCase s) (v : JsVal) :
    amountTextOf lowerCase fmt (v.recaseField f) = amountTextOf lowerCase fmt v := by
  cases v with
  | str s =>
    by_cases hs : s = ""
    · have hfs : f s = "" := (recase_empty_iff lowerCase hlow f hf s).2 hs
      subst hs
      simp [JsVal.recaseField, amountTextOf, JsVal.isNullish, JsVal.toStr, hfs]
    · have hfs : f s ≠ "" := fun h => hs ((recase_empty_iff lowerCase hlow f hf s).1 h)
      simp [JsVal.recaseField, amountTextOf, JsVal.isNullish, JsVal.toStr, hs, hfs, hf]
  | obj fs => simp [JsVal.recaseField, amountTextOf, JsVal.isNullish, JsVal.toStr]
  | undefined => rfl
  | null => rfl
  | bool b => rfl
  | num q => rfl
  | arr xs => rfl

theorem lookupField_map (g : JsVal → JsVal) (hg : g .undefined = .undefined) (key : String) :
    ∀ fs : List (String × JsVal),
      JsVal.lookupField key (fs.map fun p => (p.1, g p.2)) = g (JsVal.lookupField key fs)
  | [] => by simp [JsVal.lookupField, hg]
  | (k, v) :: rest => by
    by_cases hk : k = key
    · simp [JsVal.lookupField, hk]
    · simp [JsVal.lookupField, hk, lookupField_map g hg key rest]

theorem getProp_recaseRow (f : String → String) (fs : List (String × JsVal)) (key : String) :
    (JsVal.recaseRow f (.obj fs)).getProp key = ((JsVal.obj fs).getProp key).recaseField f := by
  simp only [JsVal.recaseRow, JsVal.getProp]
  exact lookupField_map (JsVal.recaseField f) rfl key fs

theorem textOf_optMember_recaseField (lowerCase : String → String)
    (hlow : ∀ s, lowerCase s = "" ↔ s = "") (fmt : Rat → String) (f : String → String)
    (hf : ∀ s, lowerCase (f s) = lowerCase s) (v : JsVal) (key : String)
    (hkey : key ≠ "length") :
    textOf lowerCase fmt ((v.recaseField f).optMember key)
      = textOf lowerCase fmt (v.optMember key) := by
  cases v with
  | str s => simp [JsVal.recaseField, JsVal.optMember, JsVal.isNullish, JsVal.getProp, hkey]
  | obj fs =>
    simp only [JsVal.recaseField, JsVal.optMember, JsVal.isNullish, Bool.false_eq_true,
      if_false, JsVal.getProp]
    rw [lookupField_map (JsVal.recase f) rfl key fs]
    exact textOf_recase lowerCase hlow fmt f hf _
  | undefined => rfl
  | null => rfl
  | bool b => rfl
  | num q => rfl
  | arr xs => rfl

theorem SwapManagementReport.swapTexts_recaseRow (lowerCase : String → String)
    (hlow : ∀ s, lowerCase s = "" ↔ s = "") (fmt : Rat → String)
    (f : String → String) (hf : ∀ s, lowerCase (f s) = lowerCase s) (item : JsVal) :
    SwapManagementReport.searchedTexts lowerCase fmt (item.recaseRow f)
      = SwapManagementReport.searchedTexts lowerCase fmt item := by
  cases item with
  | obj fs =>
    simp only [SwapManagementReport.searchedTexts, getProp_recaseRow,
      textOf_recaseField lowerCase hlow fmt f hf,
      amountTextOf_recaseField lowerCase hlow fmt f hf]
  | undefined => rfl
  | null => rfl
  | bool b => rfl
  | num q => rfl
  | str t => rfl
  | arr xs => rfl

theorem TransferManagementReport.transferTexts_recaseRow (lowerCase : String → String)
    (hlow : ∀ s, lowerCase s = "" ↔ s = "") (fmt : Rat → String)
    (f : String → String) (hf : ∀ s, lowerCase (f s) = lowerCase s) (item : JsVal) :
    TransferManagementReport.searchedTexts lowerCase fmt (item.recaseRow f)
      = TransferManagementReport.searchedTexts lowerCase fmt item := by
  cases item with
  | obj fs =>
    simp only [TransferManagementReport.searchedTexts, getProp_recaseRow,
      textOf_recaseField lowerCase hlow fmt f hf,
      amountTextOf_recaseField lowerCase hlow fmt f hf,
      textOf_optMember_recaseField lowerCase hlow fmt f hf _ "email" (by decide),
      textOf_optMember_recaseField lowerCase hlow fmt f hf _ "username" (by decide)]
  | undefined => rfl
  | null => rfl
  | bool b => rfl
  | num q => rfl
  | str t => rfl
  | arr xs => rfl

theorem JsVal.isNullish_recaseRow (f : String → String) (item : JsVal) :
    (item.recaseRow f).isNullish = item.isNullish := by
  cases item <;> rfl

theorem any_includes_iff (texts : List String) (search : String) :
    (texts.any fun text => includes text search) = true
      ↔ ∃ text ∈ texts, search.data <:+: text.data := by
  simp only [List.any_eq_true, includes, includesChars_iff]

theorem sampleLowerCase_eq_empty (s : String) : sampleLowerCase s = "" ↔ s = "" := by
  constructor
  · intro h
    have hd : (sampleLowerCase s).data = [] := by rw [h]
    simp only [sampleLowerCase, List.map_eq_nil_iff] at hd
    exact String.ext hd
  · intro h
    rw [h]
    rfl

theorem toUpper_eq_of_not_ascii (c d : Char) (hd : ¬ (d.toNat ≥ 65 ∧ d.toNat ≤ 90))
    (hd2 : ¬ (d.toNat ≥ 97 ∧ d.toNat ≤ 122)) : c.toUpper = d ↔ c = d := by
  by_cases h : c.toNat ≥ 97 ∧ c.toNat ≤ 122
  · constructor
    · intro hcd
      exfalso
      apply hd
      have hup : c.toUpper.toNat ≥ 65 ∧ c.toUpper.toNat ≤ 90 := by
        obtain ⟨h1, h2⟩ := h
        have hc : c = Char.ofNat c.toNat := (Char.ofNat_toNat c).symm
        generalize c.toNat = n at hc h1 h2
        subst hc
        interval_cases n <;> decide
      rw [← hcd]
      exact hup
    · intro hcd
      exfalso
      apply hd2
      rw [← hcd]
      exact h
  · have hsame : c.toUpper = c := by
      unfold Char.toUpper
      simp only [h, if_false]
    rw [hsame]

theorem sampleLowerCase_toUpperCase (s : String) :
    sampleLowerCase (toUpperCase s) = sampleLowerCase s := by
  have hchar : ∀ c : Char,
      (if c.toUpper = 'É' then 'é' else c.toUpper.toLower)
        = (if c = 'É' then 'é' else c.toLower) := by
    intro c
    have hiff := toUpper_eq_of_not_ascii c 'É' (by decide) (by decide)
    by_cases hc : c = 'É'
    · rw [if_pos hc, if_pos (hiff.2 hc)]
    · rw [if_neg hc, if_neg (fun h => hc (hiff.1 h)), toLower_toUpper_char]
  simp only [sampleLowerCase, toUpperCase, List.map_map, Function.comp_def, hchar]

/-- C18: for every row and search text, the global filter of the swap report
accepts the row iff the lower-cased search text is a substring of the
lower-cased text of at least one non-empty value among `userName`,
`packageName`, `usdtAmount`, `emgtAmount`, `tokenPrice`, `currencyType`, `remark`
and `status`; the filter of the transfer report does the same over `user.email`,
`user.username`, `stakeId`, `amount`, `fromWallet`, `toWallet`, `status` and
`remark`, and evaluates without failing on a row that has no `user` object. The
result depends neither on the letter case of the search text nor on that of the
field values: it is the same for two search texts with the same lower-cased
text, and for a row whose texts are rewritten without changing their lower-cased
text. Lower-casing is the `toLowerCase` of the runtime, of which only one fact
is used: the empty string alone is lower-cased to the empty string. -/
theorem global_filter_accepts (lowerCase : String → String)
    (hlow : ∀ s, lowerCase s = "" ↔ s = "") (fmt : Rat → String) (item : JsVal)
    (hitem : item.isNullish = false) (search other : String) (f : String → String)
    (hother : lowerCase other = lowerCase search)
    (hf : ∀ s, lowerCase (f s) = lowerCase s) :
    (∃ accepted, SwapManagementReport.globalFilterFn lowerCase fmt item search = .ok accepted
      ∧ (accepted = true ↔ ∃ text ∈ SwapManagementReport.searchedTexts lowerCase fmt item,
          (lowerCase search).data <:+: text.data))
    ∧ (∃ accepted,
        TransferManagementReport.globalFilterFn lowerCase fmt item search = .ok accepted
      ∧ (accepted = true ↔ ∃ text ∈ TransferManagementReport.searchedTexts lowerCase fmt item,
          (lowerCase search).data <:+: text.data))
    ∧ SwapManagementReport.globalFilterFn lowerCase fmt item other
      = SwapManagementReport.globalFilterFn lowerCase fmt item search
    ∧ TransferManagementReport.globalFilterFn lowerCase fmt item other
      = TransferManagementReport.globalFilterFn lowerCase fmt item search
    ∧ SwapManagementReport.globalFilterFn lowerCase fmt (item.recaseRow f) search
      = SwapManagementReport.globalFilterFn lowerCase fmt item search
    ∧ TransferManagementReport.globalFilterFn lowerCase fmt (item.recaseRow f) search
      = TransferManagementReport.globalFilterFn lowerCase fmt item search := by
  have hrow : (item.recaseRow f).isNullish = false := by
    rw [JsVal.isNullish_recaseRow, hitem]
  refine ⟨⟨_, SwapManagementReport.swapFilter_eq lowerCase fmt item hitem search,
      any_includes_iff _ _⟩,
    ⟨_, TransferManagementReport.transferFilter_eq lowerCase fmt item hitem search,
      any_includes_iff _ _⟩, ?_, ?_, ?_, ?_⟩
  · rw [SwapManagementReport.swapFilter_eq lowerCase fmt item hitem,
      SwapManagementReport.swapFilter_eq lowerCase fmt item hitem, hother]
  · rw [TransferManagementReport.transferFilter_eq lowerCase fmt item hitem,
      TransferManagementReport.transferFilter_eq lowerCase fmt item hitem, hother]
  · rw [SwapManagementReport.swapFilter_eq lowerCase fmt _ hrow,
      SwapManagementReport.swapFilter_eq lowerCase fmt item hitem,
      SwapManagementReport.swapTexts_recaseRow lowerCase hlow fmt f hf]
  · rw [TransferManagementReport.transferFilter_eq lowerCase fmt _ hrow,
      TransferManagementReport.transferFilter_eq lowerCase fmt item hitem,
      TransferManagementReport.transferTexts_recaseRow lowerCase hlow fmt f hf]

/-- Witness of C18 with a lower-casing that knows the ASCII letters and "É": the
swap of "JOSÉ" is accepted for the search text "josé" and rejected for "maria";
the transfer without a `user` object is accepted for "deposit", and equally for
"DEPOSIT" and with its field values turned to upper case. -/
theorem global_filter_accepts_witness :
    SwapManagementReport.globalFilterFn sampleLowerCase sampleFmt sampleSwapJose "josé"
        = .ok true
      ∧ SwapManagementReport.globalFilterFn sampleLowerCase sampleFmt sampleSwapJose "maria"
        = .ok false
      ∧ TransferManagementReport.globalFilterFn sampleLowerCase sampleFmt sampleTransferNoUser
          "deposit" = .ok true
      ∧ TransferManagementReport.globalFilterFn sampleLowerCase sampleFmt sampleTransferNoUser
          "DEPOSIT" = .ok true
      ∧ TransferManagementReport.globalFilterFn sampleLowerCase sampleFmt
          (sampleTransferNoUser.recaseRow toUpperCase) "deposit" = .ok true := by
  have hj := global_filter_accepts sampleLowerCase sampleLowerCase_eq_empty sampleFmt
    sampleSwapJose rfl "josé" "JOSÉ" toUpperCase (by decide) sampleLowerCase_toUpperCase
  have hm := global_filter_accepts sampleLowerCase sampleLowerCase_eq_empty sampleFmt
    sampleSwapJose rfl "maria" "MARIA" toUpperCase (by decide) sampleLowerCase_toUpperCase
  have hd := global_filter_accepts sampleLowerCase sampleLowerCase_eq_empty sampleFmt
    sampleTransferNoUser rfl "deposit" "DEPOSIT" toUpperCase (by decide)
    sampleLowerCase_toUpperCase
  have hdep : TransferManagementReport.globalFilterFn sampleLowerCase sampleFmt
      sampleTransferNoUser "deposit" = .ok true := by
    obtain ⟨accepted, heq, hacc⟩ := hd.2.1
    rw [heq, hacc.2 ⟨"deposit", by decide, by decide⟩]
  refine ⟨?_, ?_, hdep, ?_, ?_⟩
  · obtain ⟨accepted, heq, hacc⟩ := hj.1
    rw [heq, hacc.2 ⟨"josé", by decide, by decide⟩]
  · obtain ⟨accepted, heq, hacc⟩ := hm.1
    rw [heq]
    cases accepted with
    | false => rfl
    | true =>
      exfalso
      obtain ⟨text, hmem, hinf⟩ := hacc.1 rfl
      have hall : ∀ t ∈ SwapManagementReport.searchedTexts sampleLowerCase sampleFmt
          sampleSwapJose, includes t (sampleLowerCase "maria") = false := by decide
      have := hall text hmem
      rw [includes, ← Bool.not_eq_true, includesChars_iff] at this
      exact this hinf
  · rw [hd.2.2.2.1, hdep]
  · rw [hd.2.2.2.2.2, hdep]

/-! ### Reinvest exports on the records where they agree with the table -/

/-- On a reinvestment whose status is missing or already in lower case the
exported Status text is the label of the table. -/
theorem reinvest_export_status_on_lower_case (item : JsVal)
    (hitem : hasTextStatus item = true)
    (hlower : toLowerCase (statusOr "completed" item) = statusOr "completed" item) :
    ∃ badge label, ReinvestManagementReport.statusCell item = .ok (badge, label)
      ∧ ReinvestManagementReport.exportStatus item = .ok label := by
  obtain ⟨h1, h2, _⟩ := statusOr_eq "completed" (by decide) item hitem
  refine ⟨_, _, completedByDefaultCell_eq item hitem, ?_⟩
  simp only [ReinvestManagementReport.exportStatus, JsVal.member, h1, Bool.false_eq_true,
    if_false, bind, Except.bind, h2, JsVal.receiver, pure, Except.pure, hlower]

/-- On a reinvestment whose user has a username, or has no email, the exported
Username is the one of the table. -/
theorem reinvest_export_username_without_fallback (item : JsVal)
    (hitem : item.isNullish = false)
    (huser : ((item.getProp "user").optMember "username").truthy = true
      ∨ ((item.getProp "user").optMember "email").isNullish = true) :
    ReinvestManagementReport.exportUsername item = ReinvestManagementReport.usernameCell item := by
  simp only [ReinvestManagementReport.exportUsername, ReinvestManagementReport.usernameCell,
    usernameWithEmailFallback, JsVal.member, hitem, Bool.false_eq_true, if_false, bind,
    Except.bind, pure, Except.pure]
  by_cases hname : ((item.getProp "user").optMember "username").truthy = true
  · simp [hname, JsVal.or]
  · rcases huser with h | h
    · exact absurd h hname
    · have hfalse : ((item.getProp "user").optMember "username").truthy = false := by
        simpa using hname
      have hund : (JsVal.undefined).or (.str "Unknown") = .str "Unknown" := rfl
      simp only [hfalse, h, JsVal.or, Bool.false_eq_true, if_false, if_true, hund]
      rfl

/-! ### Investment report buttons -/

theorem JsVal.truthy_or (a b : JsVal) : (a.or b).truthy = (a.truthy || b.truthy) := by
  unfold JsVal.or
  cases ha : a.truthy <;> simp [ha]

theorem JsVal.truthy_bool (b : Bool) : (JsVal.bool b).truthy = b := rfl

theorem InvestmentReport.transferEnabled_iff (s : InvestmentReport.Row) :
    InvestmentReport.transferEnabled s = true
      ↔ s.status = "Claim" ∧ InvestmentReport.flagsClear s = true := by
  simp only [InvestmentReport.transferEnabled, InvestmentReport.enabledWhen,
    InvestmentReport.transferDisabledProp, JsVal.truthy_or, JsVal.truthy_bool,
    InvestmentReport.flagsClear, Bool.not_eq_true', Bool.or_eq_false_iff, Bool.and_eq_true,
    bne_eq_false_iff_eq]
  tauto

theorem InvestmentReport.swapEnabled_iff (s : InvestmentReport.Row) :
    InvestmentReport.swapEnabled s = true
      ↔ (s.status = "Locked" ∨ s.status = "Claim") ∧ InvestmentReport.flagsClear s = true := by
  simp only [InvestmentReport.swapEnabled, InvestmentReport.enabledWhen,
    InvestmentReport.swapDisabledProp, InvestmentReport.swapDisable,
    InvestmentReport.swapEnable, JsVal.truthy_or, JsVal.truthy_bool,
    InvestmentReport.flagsClear, Bool.not_eq_true', Bool.or_eq_false_iff, Bool.and_eq_true,
    Bool.not_eq_false', Bool.or_eq_true, beq_iff_eq, beq_eq_false_iff_ne, ne_eq]
  have hc : s.status = "Locked" ∨ s.status = "Claim" → ¬ s.status = "Complete" := by
    rintro (h | h) <;> rw [h] <;> decide
  tauto

/-- C21: for every investment-report row, the Transfer and Reinvest buttons are
enabled iff the status is "Claim" and none of the flags `isSwapped`,
`isTransferred`, `isReinvested` of the row is set, and the Swap button is enabled
iff the status is "Locked" or "Claim" and none of those flags is set.
Consequently Transfer is enabled iff Reinvest is, Transfer enabled implies Swap
enabled, and for rows whose status is "Complete", "Swapped / Locked",
"Transferred / Completed" or "Reinvested / Completed" all three buttons are
disabled. -/
theorem investment_buttons_enabled (s : InvestmentReport.Row) :
    (InvestmentReport.transferEnabled s = true
        ↔ s.status = "Claim" ∧ InvestmentReport.flagsClear s = true)
    ∧ (InvestmentReport.reinvestEnabled s = true
        ↔ s.status = "Claim" ∧ InvestmentReport.flagsClear s = true)
    ∧ (InvestmentReport.swapEnabled s = true
        ↔ (s.status = "Locked" ∨ s.status = "Claim") ∧ InvestmentReport.flagsClear s = true)
    ∧ InvestmentReport.transferEnabled s = InvestmentReport.reinvestEnabled s
    ∧ (InvestmentReport.transferEnabled s = true → InvestmentReport.swapEnabled s = true)
    ∧ (s.status ∈ ["Complete", "Swapped / Locked", "Transferred / Completed",
          "Reinvested / Completed"] →
        InvestmentReport.swapEnabled s = false ∧ InvestmentReport.transferEnabled s = false
          ∧ InvestmentReport.reinvestEnabled s = false) := by
  have ht := InvestmentReport.transferEnabled_iff s
  have hs := InvestmentReport.swapEnabled_iff s
  have hr : InvestmentReport.reinvestEnabled s = InvestmentReport.transferEnabled s := rfl
  refine ⟨ht, by rw [hr]; exact ht, hs, hr.symm, ?_, ?_⟩
  · intro h
    exact hs.2 ⟨Or.inr (ht.1 h).1, (ht.1 h).2⟩
  · intro hstatus
    have hnc : s.status ≠ "Claim" := by
      intro hc
      rw [hc] at hstatus
      revert hstatus
      decide
    have hnl : s.status ≠ "Locked" := by
      intro hc
      rw [hc] at hstatus
      revert hstatus
      decide
    have h1 : InvestmentReport.transferEnabled s = false := by
      cases h : InvestmentReport.transferEnabled s
      · rfl
      · exact absurd (ht.1 h).1 hnc
    have h2 : InvestmentReport.swapEnabled s = false := by
      cases h : InvestmentReport.swapEnabled s
      · rfl
      · rcases (hs.1 h).1 with h3 | h3
        · exact absurd h3 hnl
        · exact absurd h3 hnc
    exact ⟨h2, h1, by rw [hr]; exact h1⟩

/-- Witness of C21 on a row whose status is "Claim" with no flag set (Transfer is
enabled, hence Swap is) and on the row of a swapped plan (all three buttons are
disabled). -/
theorem investment_buttons_enabled_witness :
    InvestmentReport.transferEnabled sampleClaimRow = true
      ∧ InvestmentReport.swapEnabled sampleClaimRow = true
      ∧ sampleSwappedRow.status ∈ ["Complete", "Swapped / Locked", "Transferred / Completed",
          "Reinvested / Completed"]
      ∧ InvestmentReport.swapEnabled sampleSwappedRow = false
      ∧ InvestmentReport.transferEnabled sampleSwappedRow = false
      ∧ InvestmentReport.reinvestEnabled sampleSwappedRow = false :=
  ⟨rfl, (investment_buttons_enabled sampleClaimRow).2.2.2.2.1 rfl, by decide,
   (investment_buttons_enabled sampleSwappedRow).2.2.2.2.2 (by decide)⟩

/-! ### Investment report status filter -/

theorem InvestmentReport.filteredData_of_ne (stakedPlans : List InvestmentReport.Row)
    (statusFilter : String) (h : statusFilter ≠ "") :
    InvestmentReport.filteredData stakedPlans statusFilter
      = stakedPlans.filter fun row => row.status == statusFilter := by
  simp [InvestmentReport.filteredData, h]

theorem InvestmentReport.mem_filteredData_option (stakedPlans : List InvestmentReport.Row)
    (row : InvestmentReport.Row) (o : String) (ho : o ∈ InvestmentReport.statusOptions) :
    row ∈ InvestmentReport.filteredData stakedPlans o ↔ row ∈ stakedPlans ∧ row.status = o := by
  have hne : o ≠ "" := by
    intro h
    rw [h] at ho
    revert ho
    decide
  rw [InvestmentReport.filteredData_of_ne stakedPlans o hne]
  simp [List.mem_filter]

/-- C22 (counterexample): the row built from a swapped plan has the status
"Swapped / Locked"; it is shown under "All Status" and under none of the
dropdown options "Locked", "Claim", "Complete". -/
theorem status_filter_hides_swapped_counterexample :
    InvestmentReport.toRow (fun _ => "") sampleSwappedPlan = .ok sampleSwappedRow
      ∧ InvestmentReport.filteredData [sampleSwappedRow] "" = [sampleSwappedRow]
      ∧ InvestmentReport.filteredData [sampleSwappedRow] "Locked" = []
      ∧ InvestmentReport.filteredData [sampleSwappedRow] "Claim" = []
      ∧ InvestmentReport.filteredData [sampleSwappedRow] "Complete" = [] :=
  ⟨rfl, rfl, rfl, rfl, rfl⟩

/-- C22 (amended): selecting a status shows, in original order, exactly the plans
whose derived status equals the selected value, and "All Status" shows every
plan; every plan is shown under at most one of the dropdown options "Locked",
"Claim", "Complete", and under one of them iff its derived status is one of
these three, so that plans with any other status are shown under "All Status"
only. -/
theorem status_filter_selects (stakedPlans : List InvestmentReport.Row) :
    (∀ statusFilter, statusFilter ≠ "" →
        InvestmentReport.filteredData stakedPlans statusFilter
          = stakedPlans.filter fun row => row.status == statusFilter)
    ∧ InvestmentReport.filteredData stakedPlans "" = stakedPlans
    ∧ (∀ row ∈ stakedPlans, ∀ o1 ∈ InvestmentReport.statusOptions,
        ∀ o2 ∈ InvestmentReport.statusOptions,
        row ∈ InvestmentReport.filteredData stakedPlans o1 →
        row ∈ InvestmentReport.filteredData stakedPlans o2 → o1 = o2)
    ∧ (∀ row ∈ stakedPlans,
        (∃ o ∈ InvestmentReport.statusOptions,
            row ∈ InvestmentReport.filteredData stakedPlans o)
          ↔ row.status ∈ InvestmentReport.statusOptions)
    ∧ (∀ row ∈ stakedPlans, row.status ∉ InvestmentReport.statusOptions →
        ∀ o ∈ InvestmentReport.statusOptions,
          row ∉ InvestmentReport.filteredData stakedPlans o) := by
  refine ⟨fun f hf => InvestmentReport.filteredData_of_ne stakedPlans f hf, rfl, ?_, ?_, ?_⟩
  · intro row _ o1 ho1 o2 ho2 h1 h2
    rw [InvestmentReport.mem_filteredData_option stakedPlans row o1 ho1] at h1
    rw [InvestmentReport.mem_filteredData_option stakedPlans row o2 ho2] at h2
    exact h1.2.symm.trans h2.2
  · intro row hrow
    constructor
    · rintro ⟨o, ho, h⟩
      rw [InvestmentReport.mem_filteredData_option stakedPlans row o ho] at h
      rw [h.2]
      exact ho
    · intro h
      exact ⟨row.status, h,
        (InvestmentReport.mem_filteredData_option stakedPlans row _ h).2 ⟨hrow, rfl⟩⟩
  · intro row _ hns o ho h
    rw [InvestmentReport.mem_filteredData_option stakedPlans row o ho] at h
    exact hns (h.2 ▸ ho)

/-- Witness of C22 on the list holding a "Claim" row and the row of a swapped
plan: the option "Claim" shows the first row only, and the second row is shown
under none of the three options. -/
theorem status_filter_selects_witness :
    InvestmentReport.filteredData [sampleClaimRow, sampleSwappedRow] "Claim" = [sampleClaimRow]
      ∧ (∀ o ∈ InvestmentReport.statusOptions,
          sampleSwappedRow ∉ InvestmentReport.filteredData [sampleClaimRow, sampleSwappedRow] o) :=
  ⟨((status_filter_selects [sampleClaimRow, sampleSwappedRow]).1 "Claim" (by decide)).trans rfl,
   (status_filter_selects [sampleClaimRow, sampleSwappedRow]).2.2.2.2 sampleSwappedRow
     (by simp) (by decide)⟩

end Mox
